import Mathlib

/-! AttinyScore: a two-player scoreboard on an ATtiny13.

Shallow embedding of the scoreboard firmware and of its TM1637 display
driver, followed by theorems about them.

* `V4` embeds `src/4/src/main.cpp` (the final program: a timer tick handler
  that samples both buttons, and a main loop that times the active side out).
* `V0` embeds `src/0/src/main.cpp` (the first program: a pin-change handler
  that latches `Click` / `LongClick`, and a loop that consumes the latches).
* `TM1637` embeds `src/0/include/TM1637.h` (digit encoding, number formatting,
  the command sequence of a frame and the calls made on the two pins).
* `Bus` holds what is common to both displays: writes of levels on the clock
  and data lines, and a receiver that samples the data line.

The definitions come first: the state machines, then the render step, the
events of a tick and the display on the bus; the theorems follow.

Machine integers are natural numbers (or integers for the signed ones) with
the wrap written out where the source can wrap: `uint16_t` counters are
reduced modulo `2 ^ 16`, `uint32_t` ones modulo `2 ^ 32`, `uint8_t` ones
modulo `2 ^ 8`.
-/

/-! ## Port bits (avr/io.h) -/

/-- Bit number of port line PB1 (avr/io.h). -/
def PB1 : Nat := 1
/-- Bit number of port line PB2 (avr/io.h). -/
def PB2 : Nat := 2
/-- Bit number of port line PB3 (avr/io.h). -/
def PB3 : Nat := 3
/-- Bit number of port line PB4 (avr/io.h). -/
def PB4 : Nat := 4

namespace V4

/-! ## src/4/src/main.cpp -/

/-- Value of `RUN_IDLE` in `enum runstate_t : uint8_t`. -/
def RUN_IDLE : Nat := 0
/-- Value of `RUN_LEFT` in `enum runstate_t : uint8_t`. -/
def RUN_LEFT : Nat := 1
/-- Value of `RUN_RIGHT` in `enum runstate_t : uint8_t`. -/
def RUN_RIGHT : Nat := 2

/-- Score both sides start from and are reset to. -/
def MAX_SCORE : Nat := 20
/-- Brightness level of an active scoreboard. -/
def NORMAL_BRIGHT : Nat := 4
/-- Brightness level of an idle scoreboard. -/
def DIM_BRIGHT : Nat := 2
/-- Ticks without a click after which an active side is left. -/
def STATE_DURATION : Nat := 2000

/-- Port bits of the two buttons: `BTN_PINS[2] = { PB2, PB1 }`. -/
def BTN_PINS (i : Nat) : Nat := if i = 0 then PB2 else PB1

/-- Press duration from which a press counts. -/
def DEBOUNCE_TIME : Nat := 50
/-- Press duration from which a held button repeats its click. -/
def HOLD_TIME : Nat := 500
/-- Ticks between two repeated clicks of a held button. -/
def REPEAT_TIME : Nat := 200

/-- The globals of the program together with the handler's static
`pressedTime[2]`. `score0`, `score1` are `score[0]`, `score[1]`; `ms` is
`_ms`. -/
structure State where
  score0 : Nat
  score1 : Nat
  ms : Nat
  stateTime : Nat
  runstate : Nat
  brightness : Nat
  pressedTime0 : Nat
  pressedTime1 : Nat
  deriving DecidableEq, Repr

/-- The state the globals are initialised to. -/
def init : State :=
  { score0 := MAX_SCORE, score1 := MAX_SCORE, ms := 0, stateTime := 0,
    runstate := RUN_IDLE, brightness := DIM_BRIGHT,
    pressedTime0 := 0, pressedTime1 := 0 }

/-- Read of `score[idx]`. The array has two cells; the handler only indexes it
with `runstate - RUN_LEFT` under `runstate != RUN_IDLE`. An index past the
array reads as `0` here. -/
def getScore (s : State) (idx : Nat) : Nat :=
  if idx = 0 then s.score0 else if idx = 1 then s.score1 else 0

/-- Write of `score[idx] = v`; an index past the array writes nothing here. -/
def setScore (s : State) (idx : Nat) (v : Nat) : State :=
  if idx = 0 then { s with score0 := v }
  else if idx = 1 then { s with score1 := v } else s

/-- Read of `pressedTime[i]`, for the loop index `i` in `{0, 1}`. -/
def getPressed (s : State) (i : Nat) : Nat :=
  if i = 0 then s.pressedTime0 else s.pressedTime1

/-- Write of `pressedTime[i] = v`, for the loop index `i` in `{0, 1}`. -/
def setPressed (s : State) (i : Nat) (v : Nat) : State :=
  if i = 0 then { s with pressedTime0 := v } else { s with pressedTime1 := v }

/-- The function `millis()`: the tick counter. -/
def millis (s : State) : Nat := s.ms

/-- Test `pinb & (1 << BTN_PINS[i])` is zero: the line of button `i` reads low,
the button is pressed. -/
def pressed (pinb : Nat) (i : Nat) : Bool :=
  pinb &&& (1 <<< BTN_PINS i) == 0

/-- Condition of line 48: the press counter `p` of a button emits a click. -/
def clickDue (p : Nat) : Bool :=
  p == DEBOUNCE_TIME || (p ≥ HOLD_TIME && (p - HOLD_TIME) % REPEAT_TIME == 0)

/-- Lines 49-61: what a click of button `i` does. An idle scoreboard is
activated on side `i`; on an active one the score of the active side goes up
(button 1) or down (button 0) by one, within `0 .. 99`. `stateTime` is
refreshed in both cases. -/
def click (s : State) (i : Nat) : State :=
  let s1 :=
    if s.runstate = RUN_IDLE then
      { s with runstate := RUN_LEFT + i, brightness := NORMAL_BRIGHT }
    else if i ≠ 0 then
      if getScore s (s.runstate - RUN_LEFT) < 99 then
        setScore s (s.runstate - RUN_LEFT) ((getScore s (s.runstate - RUN_LEFT) + 1) % 256)
      else s
    else
      if getScore s (s.runstate - RUN_LEFT) ≠ 0 then
        setScore s (s.runstate - RUN_LEFT) (getScore s (s.runstate - RUN_LEFT) - 1)
      else s
  { s1 with stateTime := millis s1 }

/-- Lines 40-41: the press counter of button `i` goes up by one and stays at
`0xFFFF` once there. -/
def countPress (i : Nat) (s : State) : State :=
  if getPressed s i < 0xFFFF then setPressed s i (getPressed s i + 1) else s

/-- Lines 42-64: what a pressed button `i` does once its counter is updated.
Below the debounce time nothing; with both counters at the debounce time or
above (only tested for button 1) the reset; else a click when one is due. -/
def held (i : Nat) (s : State) : State :=
  if getPressed s i ≥ DEBOUNCE_TIME then
    if i ≠ 0 ∧ getPressed s 0 ≥ DEBOUNCE_TIME then
      { s with score0 := MAX_SCORE, score1 := MAX_SCORE,
               runstate := RUN_IDLE, brightness := DIM_BRIGHT }
    else if clickDue (getPressed s i) then click s i
    else s
  else s

/-- Lines 39-67: the body of the handler's loop for button `i`. -/
def button (pinb : Nat) (i : Nat) (s : State) : State :=
  if pressed pinb i then held i (countPress i s) else setPressed s i 0

/-- Line 36: `++_ms` on the 16-bit tick counter. -/
def countTick (s : State) : State :=
  { s with ms := (s.ms + 1) % 65536 }

/-- The tick handler `ISR(TIM0_COMPA_vect)`, run on the value `pinb` it reads
from `PINB`: the tick counter advances (wrapping at 16 bits), then button 0 and
button 1 are handled in this order. -/
def TIM0_COMPA_vect (s : State) (pinb : Nat) : State :=
  button pinb 1 (button pinb 0 (countTick s))

/-- Lines 176-181: the state part of one iteration of the main loop. The
active side times out when `uptime - stateTime` reaches `STATE_DURATION`; both
operands are `uint16_t`, below `65536`, and so is their difference, taken
modulo `65536`. The rest of the iteration renders and sends the frame and
writes no global. -/
def mainLoop (s : State) : State :=
  if s.runstate ≠ RUN_IDLE ∧ (millis s + 65536 - s.stateTime) % 65536 ≥ STATE_DURATION then
    { s with runstate := RUN_IDLE, brightness := DIM_BRIGHT }
  else s

/-- One step of the program: a run of the tick handler on the port value it
reads, or one iteration of the main loop. -/
inductive Step where
  | tick (pinb : Nat)
  | loop
  deriving DecidableEq, Repr

/-- Effect of one step. -/
def step (s : State) : Step → State
  | .tick pinb => TIM0_COMPA_vect s pinb
  | .loop => mainLoop s

/-- Effect of a sequence of steps, first step first. -/
def run (s : State) (steps : List Step) : State :=
  steps.foldl step s

/-- A state with side 0 active in which both buttons have been read pressed
on 49 ticks in a row. -/
def bothAlmostHeld : State :=
  { score0 := 7, score1 := 31, ms := 1000, stateTime := 900,
    runstate := RUN_LEFT, brightness := NORMAL_BRIGHT,
    pressedTime0 := 49, pressedTime1 := 49 }

/-- A state with side 1 active. -/
def rightActive : State :=
  { score0 := 20, score1 := 12, ms := 1000, stateTime := 900,
    runstate := RUN_RIGHT, brightness := NORMAL_BRIGHT,
    pressedTime0 := 50, pressedTime1 := 0 }

/-- Whether `held i s` takes the click branch (line 48 is reached and holds). -/
def clicks (i : Nat) (s : State) : Bool :=
  decide (getPressed s i ≥ DEBOUNCE_TIME) &&
  !decide (i ≠ 0 ∧ getPressed s 0 ≥ DEBOUNCE_TIME) &&
  clickDue (getPressed s i)

/-- Whether a run of the tick handler from `s` on the port value `pinb` emits
a click, for button 0 or for button 1, that is, whether it executes
`stateTime = millis()`. -/
def tickClicks (s : State) (pinb : Nat) : Bool :=
  (pressed pinb 0 && clicks 0 (countPress 0 (countTick s))) ||
  (pressed pinb 1 && clicks 1 (countPress 1 (button pinb 0 (countTick s))))

/-- Ticks elapsed since the last click once `st` is done from `s`, when `e`
ticks had elapsed before: a tick that emits a click restarts the count, any
other tick adds one, a main-loop iteration takes no tick. -/
def elapsedStep (s : State) (e : Nat) : Step → Nat
  | .tick pinb => if tickClicks s pinb then 0 else e + 1
  | .loop => e

/-- Ticks elapsed since the last click after the steps `steps` from `s`, when
`e` ticks had elapsed in `s`. -/
def elapsed (s : State) (e : Nat) : List Step → Nat
  | [] => e
  | st :: rest => elapsed (step s st) (elapsedStep s e st) rest

/-- The 16-bit difference `_ms - stateTime` is the number `e` of ticks
elapsed since the last click, modulo `2 ^ 16`. -/
def timed (s : State) (e : Nat) : Prop :=
  s.ms < 65536 ∧ s.stateTime < 65536 ∧ (s.ms + 65536 - s.stateTime) % 65536 = e % 65536

instance (s : State) (e : Nat) : Decidable (timed s e) := by
  unfold timed
  infer_instance

/-- Fifty ticks with button 0 pressed (line PB2 low) and button 1 released
(line PB1 high): `PINB = 0b010`. -/
def pressLeft : List Step := List.replicate 50 (Step.tick 0b010)

/-- Forty-nine ticks with both buttons pressed: `PINB = 0b000`. -/
def pressBoth : List Step := List.replicate 49 (Step.tick 0b000)

/-- 65536 ticks with both buttons released: `PINB = 0b110`. -/
def releasedLong : List Step := List.replicate 65536 (Step.tick 0b110)

end V4

namespace V0

/-! ## src/0/src/main.cpp -/

/-- Value of `RUN_IDLE` in `enum runstate_t : uint8_t`. -/
def RUN_IDLE : Nat := 0
/-- Value of `RUN_LEFT` in `enum runstate_t : uint8_t`. -/
def RUN_LEFT : Nat := 1
/-- Value of `RUN_RIGHT` in `enum runstate_t : uint8_t`. -/
def RUN_RIGHT : Nat := 2

/-- Value of `BTN_RELEASED` in `enum buttonstate_t : uint8_t`. -/
def BTN_RELEASED : Nat := 0
/-- Value of `BTN_CLICK` in `enum buttonstate_t : uint8_t`. -/
def BTN_CLICK : Nat := 1
/-- Value of `BTN_LONGCLICK` in `enum buttonstate_t : uint8_t`. -/
def BTN_LONGCLICK : Nat := 2

/-- Score both sides start from; also what a long click of button 1 sets. -/
def MAX_SCORE : Nat := 20
/-- Brightness level of an active scoreboard. -/
def NORMAL_BRIGHT : Nat := 4
/-- Brightness level of an idle scoreboard. -/
def DIM_BRIGHT : Nat := 2
/-- Milliseconds without an event after which an active side is left. -/
def STATE_DURATION : Nat := 2000

/-- Port bits of the two buttons: `BTN_PINS[2] = { PB2, PB1 }`. -/
def BTN_PINS (i : Nat) : Nat := if i = 0 then PB2 else PB1

/-- Press duration from which a release latches a click. -/
def DEBOUNCE_TIME : Nat := 50
/-- Press duration from which a release latches a long click. -/
def LONGCLICK_TIME : Nat := 500

/-- The globals of the program, the brightness held by the `display` object,
the loop's static `stateTime` and the handler's static `pressedTimes[2]`. -/
structure State where
  buttons0 : Nat
  buttons1 : Nat
  score0 : Nat
  score1 : Nat
  runstate : Nat
  brightness : Nat
  stateTime : Nat
  pressedTimes0 : Nat
  pressedTimes1 : Nat
  deriving DecidableEq, Repr

/-- The method `TM1637::setBrightness`, also the constructor's clamp: levels
above 7 are stored as 7. -/
def setBrightness (brightness : Nat) : Nat :=
  if brightness < 7 then brightness else 7

/-- The state the globals are initialised to. -/
def init : State :=
  { buttons0 := BTN_RELEASED, buttons1 := BTN_RELEASED,
    score0 := MAX_SCORE, score1 := MAX_SCORE, runstate := RUN_IDLE,
    brightness := setBrightness DIM_BRIGHT, stateTime := 0,
    pressedTimes0 := 0, pressedTimes1 := 0 }

/-- Read of `score[idx]`; an index past the two cells reads as `0` here. -/
def getScore (s : State) (idx : Nat) : Nat :=
  if idx = 0 then s.score0 else if idx = 1 then s.score1 else 0

/-- Write of `score[idx] = v`; an index past the array writes nothing here. -/
def setScore (s : State) (idx : Nat) (v : Nat) : State :=
  if idx = 0 then { s with score0 := v }
  else if idx = 1 then { s with score1 := v } else s

/-- Read of `buttons[i]`, for the loop index `i` in `{0, 1}`. -/
def getButtons (s : State) (i : Nat) : Nat :=
  if i = 0 then s.buttons0 else s.buttons1

/-- Write of `buttons[i] = v`, for the loop index `i` in `{0, 1}`. -/
def setButtons (s : State) (i : Nat) (v : Nat) : State :=
  if i = 0 then { s with buttons0 := v } else { s with buttons1 := v }

/-- Read of `pressedTimes[i]`, for the loop index `i` in `{0, 1}`. -/
def getPressedTimes (s : State) (i : Nat) : Nat :=
  if i = 0 then s.pressedTimes0 else s.pressedTimes1

/-- Write of `pressedTimes[i] = v`, for the loop index `i` in `{0, 1}`. -/
def setPressedTimes (s : State) (i : Nat) (v : Nat) : State :=
  if i = 0 then { s with pressedTimes0 := v } else { s with pressedTimes1 := v }

/-- Lines 37-40: a press of button `i` that lasted `time` is latched as a long
click, as a click, or not at all. -/
def latch (time : Nat) (i : Nat) (s : State) : State :=
  if time ≥ LONGCLICK_TIME then setButtons s i BTN_LONGCLICK
  else if time ≥ DEBOUNCE_TIME then setButtons s i BTN_CLICK
  else s

/-- Lines 33-51: the body of the pin-change handler's loop for button `i`,
where `now` is what `millis()` returns (a 32-bit count of milliseconds). A
line that reads high is a released button: a running press is measured by the
32-bit difference `millis() - pressedTimes[i]` and latched. A line that reads
low is a pressed button: the time of the press is recorded if none is. -/
def edge (pinb now : Nat) (i : Nat) (s : State) : State :=
  if pinb &&& (1 <<< BTN_PINS i) ≠ 0 then
    if getPressedTimes s i ≠ 0 then
      setPressedTimes (latch ((now + 4294967296 - getPressedTimes s i) % 4294967296) i s) i 0
    else s
  else
    if getPressedTimes s i = 0 then setPressedTimes s i now else s

/-- The pin-change handler `ISR(PCINT0_vect)`, run on the value `pinb` it
reads from `PINB` at time `now`. -/
def PCINT0_vect (s : State) (pinb now : Nat) : State :=
  edge pinb now 1 (edge pinb now 0 s)

/-- Lines 76-86: what the latched event of button `i` does to the score of
the active side: a click moves it by one within `0 .. 99`, a long click sets
it to `MAX_SCORE` (button 1) or to `0` (button 0). -/
def edit (i : Nat) (s : State) : State :=
  if getButtons s i = BTN_CLICK then
    if i ≠ 0 then
      if getScore s (s.runstate - RUN_LEFT) < 99 then
        setScore s (s.runstate - RUN_LEFT) ((getScore s (s.runstate - RUN_LEFT) + 1) % 256)
      else s
    else
      if getScore s (s.runstate - RUN_LEFT) ≠ 0 then
        setScore s (s.runstate - RUN_LEFT) (getScore s (s.runstate - RUN_LEFT) - 1)
      else s
  else
    setScore s (s.runstate - RUN_LEFT) (if i ≠ 0 then MAX_SCORE else 0)

/-- Lines 72-75: an event on an idle scoreboard activates side `i`. -/
def activate (i : Nat) (s : State) : State :=
  { s with brightness := setBrightness NORMAL_BRIGHT, runstate := RUN_LEFT + i }

/-- Lines 71-90: the body of the loop's first `for` for button `i`: a latched
event of button `i` is consumed at time `uptime`. -/
def event (uptime : Nat) (i : Nat) (s : State) : State :=
  if getButtons s i ≠ BTN_RELEASED then
    setButtons
      { (if s.runstate = RUN_IDLE then activate i s else edit i s) with stateTime := uptime }
      i BTN_RELEASED
  else s

/-- Lines 93-96: the timeout of the active side, on the difference
`uptime - stateTime` of two `uint32_t`, taken modulo `2 ^ 32`. -/
def timeout (uptime : Nat) (s : State) : State :=
  if s.runstate ≠ RUN_IDLE ∧ (uptime + 4294967296 - s.stateTime) % 4294967296 ≥ STATE_DURATION then
    { s with brightness := setBrightness DIM_BRIGHT, runstate := RUN_IDLE }
  else s

/-- The state part of `loop()`, where `uptime` is what `millis()` returns at
its start: both latches are consumed, button 0 first, then the timeout is
checked. The rest of `loop()` sends the digits and writes no global. -/
def loop (s : State) (uptime : Nat) : State :=
  timeout uptime (event uptime 1 (event uptime 0 s))

/-- One step of the program: a run of the pin-change handler, or one call of
`loop()`, each with the value of `millis()` it sees. -/
inductive Step where
  | isr (pinb now : Nat)
  | loop (uptime : Nat)
  deriving DecidableEq, Repr

/-- Effect of one step. -/
def step (s : State) : Step → State
  | .isr pinb now => PCINT0_vect s pinb now
  | .loop uptime => loop s uptime

/-- Effect of a sequence of steps, first step first. -/
def run (s : State) (steps : List Step) : State :=
  steps.foldl step s

/-- A state with side 1 active and a click of button 0 latched. -/
def rightActiveClick : State :=
  { buttons0 := BTN_CLICK, buttons1 := BTN_RELEASED, score0 := 20, score1 := 12,
    runstate := RUN_RIGHT, brightness := NORMAL_BRIGHT, stateTime := 4000,
    pressedTimes0 := 0, pressedTimes1 := 0 }

/-- An idle state in which both buttons have an event latched: a long click
of button 0 and a click of button 1. -/
def idleBothLatched : State :=
  { buttons0 := BTN_LONGCLICK, buttons1 := BTN_CLICK, score0 := 20, score1 := 12,
    runstate := RUN_IDLE, brightness := DIM_BRIGHT, stateTime := 0,
    pressedTimes0 := 0, pressedTimes1 := 0 }

end V0

namespace TM1637

/-! ## src/0/include/TM1637.h -/

/-- Segment byte of the minus sign. -/
def MINUS : Nat := 0b01000000
/-- Bit of the decimal point. -/
def DOT : Nat := 0b10000000
/-- Command: write data, address auto-increment. -/
def ADDR_AUTO : Nat := 0x40
/-- Command: write data, fixed address. -/
def ADDR_FIXED : Nat := 0x44
/-- Command: address of the first digit. -/
def STARTADDR : Nat := 0xC0

/-- The table `DIGITS[10]` of `digitToSegments`. -/
def DIGITS : List Nat :=
  [0b00111111, 0b00000110, 0b01011011, 0b01001111, 0b01100110,
   0b01101101, 0b01111101, 0b0000111, 0b01111111, 0b01101111]

/-- The function `digitToSegments(int8_t digit)`. -/
def digitToSegments (digit : Int) : Nat :=
  if digit < 0 then MINUS
  else if digit < 10 then DIGITS.getD digit.toNat 0
  else 0

/-- What `display` and `displayNum` do on the bus, at the level of the calls
they make: `_start()`, `_stop()` and `_writeByte(data)`, whose result (the
acknowledgment) the callers drop. -/
inductive BusOp where
  | start
  | stop
  | writeByte (data : Nat)
  deriving DecidableEq, Repr

/-- The method `display(uint32_t segments)`: byte `i` of the word is sent as
digit `i`; the argument of `_writeByte` is a `uint8_t`, which keeps the low
8 bits. -/
def display32 (brightness : Nat) (segments : Nat) : List BusOp :=
  [.start, .writeByte ADDR_AUTO, .stop, .start, .writeByte STARTADDR] ++
  (List.range 4).map (fun i => BusOp.writeByte ((segments >>> (8 * i)) % 256)) ++
  [.stop, .start, .writeByte (0x88 ||| brightness), .stop]

/-- The word `data` that `displayNum(int16_t num, bool leadingZero)` builds
(lines 99-122). `/` and `%` of the source truncate toward zero. Each digit
`num % 10` lies in `-9 .. 9`, so its conversion to `int8_t` keeps it, and a
segment byte shifted by at most 24 fits the 32-bit word. -/
def displayNumData (num : Int) (leadingZero : Bool) : Nat :=
  if num < -999 ∨ num > 9999 then 0x50791C3F
  else
    let minus : Bool := decide (num < 0)
    let num0 := if minus then -num else num
    let data0 := digitToSegments (num0.tmod 10) <<< 24
    let num1 := num0.tdiv 10
    let data1 :=
      if leadingZero ∨ num1 ≠ 0 then data0 ||| (digitToSegments (num1.tmod 10) <<< 16)
      else data0
    let num2 := num1.tdiv 10
    let data2 :=
      if leadingZero ∨ num2 ≠ 0 then data1 ||| (digitToSegments (num2.tmod 10) <<< 8)
      else data1
    let num3 := num2.tdiv 10
    if minus then data2 ||| MINUS
    else if leadingZero ∨ num3 ≠ 0 then data2 ||| digitToSegments (num3.tmod 10)
    else data2

/-- The method `displayNum(int16_t num, bool leadingZero)` of a display whose
stored brightness is `brightness`. -/
def displayNum (brightness : Nat) (num : Int) (leadingZero : Bool) : List BusOp :=
  display32 brightness (displayNumData num leadingZero)

/-- The four segment bytes a command sequence sends after the start address,
in the order sent: position 0 is the leftmost digit. -/
def frame : List BusOp → List Nat
  | [.start, .writeByte _, .stop, .start, .writeByte _,
     .writeByte s0, .writeByte s1, .writeByte s2, .writeByte s3,
     .stop, .start, .writeByte _, .stop] => [s0, s1, s2, s3]
  | _ => []

/-- Reading of one segment byte as a digit: a digit pattern reads as its
digit, a blank position shows no digit and counts for nothing; any other byte
is not a digit. -/
def decodeDigit (seg : Nat) : Option Nat :=
  if seg = 0 then some 0
  else if seg = 0b00111111 then some 0
  else if seg = 0b00000110 then some 1
  else if seg = 0b01011011 then some 2
  else if seg = 0b01001111 then some 3
  else if seg = 0b01100110 then some 4
  else if seg = 0b01101101 then some 5
  else if seg = 0b01111101 then some 6
  else if seg = 0b0000111 then some 7
  else if seg = 0b01111111 then some 8
  else if seg = 0b01101111 then some 9
  else none

/-- Reading of a frame as a number: the minus pattern in the leftmost
position is a negative sign in front of the three digits that follow; else
the four positions are four digits. -/
def decodeFrame : List Nat → Option Int
  | [s0, s1, s2, s3] =>
    if s0 = MINUS then
      match decodeDigit s1, decodeDigit s2, decodeDigit s3 with
      | some d1, some d2, some d3 => some (-((100 * d1 + 10 * d2 + d3 : Nat) : Int))
      | _, _, _ => none
    else
      match decodeDigit s0, decodeDigit s1, decodeDigit s2, decodeDigit s3 with
      | some d0, some d1, some d2, some d3 =>
        some ((1000 * d0 + 100 * d1 + 10 * d2 + d3 : Nat) : Int)
      | _, _, _, _ => none
  | _ => none

/-- The command sequence that sends the frame `s0 s1 s2 s3` at brightness
`brightness`. -/
def sends (brightness s0 s1 s2 s3 : Nat) : List BusOp :=
  [.start, .writeByte 0x40, .stop,
   .start, .writeByte 0xC0, .writeByte s0, .writeByte s1, .writeByte s2, .writeByte s3, .stop,
   .start, .writeByte (0x88 ||| brightness), .stop]

end TM1637

namespace V4

/-! ## src/4/src/main.cpp: the render step (lines 183-205) -/

/-- The table `DIGITS[10]` of the render step. -/
def DIGITS : List Nat :=
  [0b00111111, 0b00000110, 0b01011011, 0b01001111, 0b01100110,
   0b01101101, 0b01111101, 0b0000111, 0b01111111, 0b01101111]

/-- Segment byte of the minus sign. -/
def MINUS : Nat := 0b01000000
/-- Bit of the decimal point. -/
def DOT : Nat := 0b10000000

/-- Line 190: side `i` is drawn when it is not the active side, or in the
first half of each 500 ticks of `uptime`. -/
def draw (runstate uptime i : Nat) : Bool :=
  runstate != RUN_LEFT + i || uptime % 500 < 250

/-- Lines 190-203: the body of the render loop for side `i`, which writes
`segments[i * 2]` and `segments[i * 2 + 1]`. A read of `DIGITS` past its ten
entries reads as `0` here. -/
def renderSide (s : State) (uptime i : Nat) (segments : List Nat) : List Nat :=
  if draw s.runstate uptime i then
    if getScore s i ≠ 0 then
      (segments.set (i * 2) (DIGITS.getD (getScore s i / 10) 0)).set (i * 2 + 1)
        (DIGITS.getD (getScore s i % 10) 0 ||| DOT)
    else
      (segments.set (i * 2) MINUS).set (i * 2 + 1) (MINUS ||| DOT)
  else
    (segments.set (i * 2) 0).set (i * 2 + 1) DOT

/-- Lines 183-204: the array `segments[4]` after the render loop, for the
value `uptime` read at the start of the iteration. The array is written in
full; its cells start as `0` here. -/
def render (s : State) (uptime : Nat) : List Nat :=
  renderSide s uptime 1 (renderSide s uptime 0 [0, 0, 0, 0])

/-- Lines 175-205: the frame that one iteration of the main loop passes to
`display`: `uptime` is read first, then the timeout is applied, then the frame
is rendered from the run state the timeout left. -/
def loopFrame (s : State) : List Nat :=
  render (mainLoop s) (millis s)

/-- Number of ticks on which side `i` is drawn, among the `n` consecutive
ticks whose first has the counter at `u`; the 16-bit counter wraps. -/
def drawnTicks (runstate i : Nat) : Nat → Nat → Nat
  | _, 0 => 0
  | u, n + 1 => (if draw runstate u i then 1 else 0) + drawnTicks runstate i ((u + 1) % 65536) n

end V4

namespace V0

/-! ## src/0/src/main.cpp: the render step (lines 98-113) -/

/-- Line 99: side `i` is drawn when it is not the active side, or in the
first half of each 500 milliseconds of `uptime`. -/
def draw (runstate uptime i : Nat) : Bool :=
  runstate != RUN_LEFT + i || uptime % 500 < 250

/-- Lines 99-112: the two calls `display.display(pos, segments)` made for side
`i`, as the pairs `(pos, segments)`. The digits `score[i] / 10` and
`score[i] % 10` are at most 25, so their conversion to `int8_t` keeps them. -/
def renderSide (s : State) (uptime i : Nat) : List (Nat × Nat) :=
  if draw s.runstate uptime i then
    if getScore s i ≠ 0 then
      [(i * 2, TM1637.digitToSegments ((getScore s i / 10 : Nat) : Int)),
       (i * 2 + 1, TM1637.digitToSegments ((getScore s i % 10 : Nat) : Int) ||| TM1637.DOT)]
    else
      [(i * 2, TM1637.MINUS), (i * 2 + 1, TM1637.MINUS ||| TM1637.DOT)]
  else
    [(i * 2, 0), (i * 2 + 1, TM1637.DOT)]

/-- Lines 98-113: the four calls of the render loop. -/
def render (s : State) (uptime : Nat) : List (Nat × Nat) :=
  renderSide s uptime 0 ++ renderSide s uptime 1

/-- Number of milliseconds on which side `i` is drawn, among the `n`
consecutive ones whose first has the counter at `u`; the 32-bit counter
wraps. -/
def drawnTicks (runstate i : Nat) : Nat → Nat → Nat
  | _, 0 => 0
  | u, n + 1 =>
    (if draw runstate u i then 1 else 0) + drawnTicks runstate i ((u + 1) % 4294967296) n

end V0

/-- Number of counter values `t` with `t % 500 < 250` among the `n`
consecutive ones from `u` on, for a counter that does not wrap. -/
def phaseTicks : Nat → Nat → Nat
  | _, 0 => 0
  | u, n + 1 => (if u % 500 < 250 then 1 else 0) + phaseTicks (u + 1) n

namespace V4

/-- The two bytes of side `i` in the rendered frame: `segments[i * 2]` and
`segments[i * 2 + 1]`. -/
def cells (s : State) (uptime i : Nat) : Nat × Nat :=
  ((render s uptime).getD (i * 2) 0, (render s uptime).getD (i * 2 + 1) 0)

end V4

namespace TM1637

/-- Reading of the two bytes of a side as a score: a tens digit, then a units
digit that carries the decimal point. -/
def decodePair (p : Nat × Nat) : Option Nat :=
  if p.2 < 128 then none
  else
    match decodeDigit p.1, decodeDigit (p.2 - 128) with
    | some d1, some d0 => some (10 * d1 + d0)
    | _, _ => none

end TM1637

namespace V4

/-! ## src/4/src/main.cpp: events of one run of the tick handler -/

/-- Whether `held i s` takes the reset branch (line 43 is reached and holds). -/
def resets (i : Nat) (s : State) : Bool :=
  decide (getPressed s i ≥ DEBOUNCE_TIME) && decide (i ≠ 0 ∧ getPressed s 0 ≥ DEBOUNCE_TIME)

/-- The state in which the loop of the tick handler, run from `s` on the port
value `pinb`, reaches button `j`: after `++_ms` for button 0, after the body
for button 0 for button 1. -/
def reached (s : State) (pinb j : Nat) : State :=
  if j = 0 then countTick s else button pinb 0 (countTick s)

/-- Whether button `j` emits a click in the run of the tick handler from `s`
on the port value `pinb`. -/
def clicksAt (s : State) (pinb j : Nat) : Bool :=
  pressed pinb j && clicks j (countPress j (reached s pinb j))

/-- Whether button `j` produces an event, a click or the reset, in the run of
the tick handler from `s` on the port value `pinb`. -/
def emits (s : State) (pinb j : Nat) : Bool :=
  pressed pinb j &&
    (clicks j (countPress j (reached s pinb j)) || resets j (countPress j (reached s pinb j)))

/-- No button is read pressed on 50 ticks in a row: `ps` lists the port
values of consecutive ticks and `c` is the number of ticks in a row on which
button `i` was read pressed just before them. -/
def shortPresses (i : Nat) : Nat → List Nat → Bool
  | _, [] => true
  | c, p :: rest =>
    if pressed p i then decide (c + 1 < DEBOUNCE_TIME) && shortPresses i (c + 1) rest
    else shortPresses i 0 rest

/-- The run of the tick handler on each port value of `ps` in turn. -/
def ticks (s : State) (ps : List Nat) : State :=
  ps.foldl TIM0_COMPA_vect s

/-- An idle state in which button 1 has been read pressed on 49 ticks in a
row and button 0 on none. -/
def idleAlmostClick : State :=
  { score0 := 20, score1 := 12, ms := 1000, stateTime := 0,
    runstate := RUN_IDLE, brightness := DIM_BRIGHT,
    pressedTime0 := 0, pressedTime1 := 49 }

/-- A burst of bounces: button 0 read pressed on 49 ticks, released on one
and pressed again on 49; then button 1 read pressed on two separate ticks. -/
def bounces : List Nat :=
  List.replicate 49 0b010 ++ [0b110] ++ List.replicate 49 0b010 ++ [0b100, 0b110, 0b110, 0b100]

end V4

namespace V0

/-- A state with side 0 active at score 50 and a long click of button 1
latched. -/
def leftActiveLong : State :=
  { buttons0 := BTN_RELEASED, buttons1 := BTN_LONGCLICK, score0 := 50, score1 := 12,
    runstate := RUN_LEFT, brightness := NORMAL_BRIGHT, stateTime := 4000,
    pressedTimes0 := 0, pressedTimes1 := 0 }

/-- An idle state with a long click of button 1 latched. -/
def idleLong : State :=
  { buttons0 := BTN_RELEASED, buttons1 := BTN_LONGCLICK, score0 := 20, score1 := 12,
    runstate := RUN_IDLE, brightness := DIM_BRIGHT, stateTime := 0,
    pressedTimes0 := 0, pressedTimes1 := 0 }

end V0

namespace V4

/-- The brightness goes with the run state: dim when idle, normal when a
side is active. -/
def coherent (s : State) : Prop :=
  (s.runstate = RUN_IDLE ∧ s.brightness = DIM_BRIGHT) ∨
  ((s.runstate = RUN_LEFT ∨ s.runstate = RUN_RIGHT) ∧ s.brightness = NORMAL_BRIGHT)

instance (s : State) : Decidable (coherent s) := by
  unfold coherent
  infer_instance

end V4

namespace V0

/-- The brightness goes with the run state: dim when idle, normal when a
side is active. -/
def coherent (s : State) : Prop :=
  (s.runstate = RUN_IDLE ∧ s.brightness = DIM_BRIGHT) ∨
  ((s.runstate = RUN_LEFT ∨ s.runstate = RUN_RIGHT) ∧ s.brightness = NORMAL_BRIGHT)

instance (s : State) : Decidable (coherent s) := by
  unfold coherent
  infer_instance

end V0

/-! ## The two-wire bus at the level of the lines -/

namespace Bus

/-- One write of a level on one line of the port. -/
structure LineWrite where
  line : Nat
  level : Bool
  deriving DecidableEq, Repr

/-- Bit `k` of `b`. -/
def bit (b k : Nat) : Nat := b / 2 ^ k % 2

/-- What a receiver on the bus samples: the level of the data line `dat` at
each rising edge of the clock line `clk`, in order. `c` and `d` are the
levels of the clock and of the data line before the writes. -/
def sample (clk dat : Nat) : Bool → Bool → List LineWrite → List Bool
  | _, _, [] => []
  | c, d, w :: rest =>
    if w.line = clk then
      if w.level && !c then d :: sample clk dat true d rest
      else sample clk dat w.level d rest
    else if w.line = dat then sample clk dat c w.level rest
    else sample clk dat c d rest

/-- The number whose bits are `bits`, least significant first. -/
def assemble : List Bool → Nat
  | [] => 0
  | x :: rest => (if x then 1 else 0) + 2 * assemble rest

end Bus

namespace TM1637

/-! ## src/0/include/TM1637.h: the pins -/

/-- Level `HIGH` of Arduino.h. -/
def HIGH : Nat := 1
/-- Level `LOW` of Arduino.h. -/
def LOW : Nat := 0
/-- Mode `INPUT` of Arduino.h. -/
def INPUT : Nat := 0
/-- Mode `OUTPUT` of Arduino.h. -/
def OUTPUT : Nat := 1

/-- A call the driver makes on its pins. -/
inductive PinOp where
  | digitalWrite (pin val : Nat)
  | pinMode (pin mode : Nat)
  | digitalRead (pin : Nat)
  | delayMicroseconds (us : Nat)
  deriving DecidableEq, Repr

/-- The method `_bitDelay()`. -/
def _bitDelay : List PinOp := [.delayMicroseconds 50]

/-- The method `_start()`, for the template parameters `CLK_PIN`, `DIO_PIN`. -/
def _start (CLK_PIN DIO_PIN : Nat) : List PinOp :=
  [.digitalWrite CLK_PIN HIGH, .digitalWrite DIO_PIN HIGH,
   .digitalWrite DIO_PIN LOW, .digitalWrite CLK_PIN LOW]

/-- The method `_stop()`. -/
def _stop (CLK_PIN DIO_PIN : Nat) : List PinOp :=
  [.digitalWrite CLK_PIN LOW, .digitalWrite DIO_PIN LOW,
   .digitalWrite CLK_PIN HIGH, .digitalWrite DIO_PIN HIGH]

/-- Lines 162-167: the `for` loop of `_writeByte` with `n` iterations left
and `data` still to shift out. -/
def shiftOut (CLK_PIN DIO_PIN : Nat) : Nat → Nat → List PinOp
  | _, 0 => []
  | data, n + 1 =>
    [.digitalWrite CLK_PIN LOW, .digitalWrite DIO_PIN (data &&& 0x01),
     .digitalWrite CLK_PIN HIGH] ++ shiftOut CLK_PIN DIO_PIN (data >>> 1) n

/-- Lines 168-183: what `_writeByte` does after the eight bits, where `read`
is what `digitalRead(DIO_PIN)` returns: the calls made and the `ack`
returned. -/
def waitAck (CLK_PIN DIO_PIN : Nat) (read : Nat) : List PinOp × Bool :=
  let ack : Bool := read != 0
  ([.digitalWrite CLK_PIN LOW, .digitalWrite DIO_PIN HIGH, .digitalWrite CLK_PIN HIGH,
    .pinMode DIO_PIN INPUT] ++ _bitDelay ++ [.digitalRead DIO_PIN] ++
   (if !ack then [.pinMode DIO_PIN OUTPUT, .digitalWrite DIO_PIN LOW] else []) ++
   _bitDelay ++ [.pinMode DIO_PIN OUTPUT] ++ _bitDelay, ack)

/-- The method `_writeByte(uint8_t data)`: the calls made on the pins and the
`ack` returned, where `read` is what `digitalRead(DIO_PIN)` returns. -/
def _writeByte (CLK_PIN DIO_PIN : Nat) (data : Nat) (read : Nat) : List PinOp × Bool :=
  (shiftOut CLK_PIN DIO_PIN data 8 ++ (waitAck CLK_PIN DIO_PIN read).1,
   (waitAck CLK_PIN DIO_PIN read).2)

/-- The method `display(const uint8_t *segments)` at the level of the calls
it makes, for a display whose stored brightness is `brightness`; a read past
the end of `segments` reads as `0` here. -/
def display (brightness : Nat) (segments : List Nat) : List BusOp :=
  [.start, .writeByte ADDR_AUTO, .stop, .start, .writeByte STARTADDR] ++
  (List.range 4).map (fun i => BusOp.writeByte (segments.getD i 0)) ++
  [.stop, .start, .writeByte (0x88 ||| brightness), .stop]

/-- The calls made on the pins by a sequence of calls of `_start`, `_stop`
and `_writeByte`; `reads j` is what `digitalRead` returns in the `j`-th call
of `_writeByte`, and `k` is the number of such calls made before. -/
def pins (CLK_PIN DIO_PIN : Nat) (reads : Nat → Nat) : Nat → List BusOp → List PinOp
  | _, [] => []
  | k, .start :: rest => _start CLK_PIN DIO_PIN ++ pins CLK_PIN DIO_PIN reads k rest
  | k, .stop :: rest => _stop CLK_PIN DIO_PIN ++ pins CLK_PIN DIO_PIN reads k rest
  | k, .writeByte data :: rest =>
    (_writeByte CLK_PIN DIO_PIN data (reads k)).1 ++ pins CLK_PIN DIO_PIN reads (k + 1) rest

/-- The line writes of a call on the pins: `digitalWrite` drives its pin high
unless the value is `LOW`. -/
def lineWrites : PinOp → List Bus.LineWrite
  | .digitalWrite pin val => [⟨pin, val != LOW⟩]
  | _ => []

end TM1637

namespace V4

/-! ## src/4/src/main.cpp: the display on the port (lines 71-147) -/

/-- Port bit of the clock line. -/
def TM_CLK_PIN : Nat := PB3
/-- Port bit of the data line. -/
def TM_DIO_PIN : Nat := PB4

/-- An access of the display code to the registers of port B:
`PORTB |= bits`, `PORTB &= ~bits`, `DDRB |= bits`, `DDRB &= ~bits`, a read of
`PINB`, and `_delay_us`. -/
inductive PortOp where
  | setPORTB (bits : Nat)
  | clrPORTB (bits : Nat)
  | setDDRB (bits : Nat)
  | clrDDRB (bits : Nat)
  | readPINB
  | _delay_us (us : Nat)
  deriving DecidableEq, Repr

/-- The function `_bitDelay()`. -/
def _bitDelay : List PortOp := [._delay_us 50]

/-- The function `_start()`. -/
def _start : List PortOp :=
  [.setPORTB ((1 <<< TM_CLK_PIN) ||| (1 <<< TM_DIO_PIN)),
   .clrPORTB (1 <<< TM_DIO_PIN), .clrPORTB (1 <<< TM_CLK_PIN)]

/-- The function `_stop()`. -/
def _stop : List PortOp :=
  [.clrPORTB ((1 <<< TM_CLK_PIN) ||| (1 <<< TM_DIO_PIN)),
   .setPORTB (1 <<< TM_CLK_PIN), .setPORTB (1 <<< TM_DIO_PIN)]

/-- Lines 96-107: the `for` loop of `_writeByte` with `n` iterations left and
`data` still to shift out. -/
def shiftOut : Nat → Nat → List PortOp
  | _, 0 => []
  | data, n + 1 =>
    [.clrPORTB (1 <<< TM_CLK_PIN),
     (if data &&& 0x01 ≠ 0 then .setPORTB (1 <<< TM_DIO_PIN) else .clrPORTB (1 <<< TM_DIO_PIN)),
     .setPORTB (1 <<< TM_CLK_PIN)] ++ shiftOut (data >>> 1) n

/-- Lines 108-128: what `_writeByte` does after the eight bits, where `pinb`
is the value read from `PINB`. -/
def waitAck (pinb : Nat) : List PortOp :=
  [.clrPORTB (1 <<< TM_CLK_PIN), .setPORTB (1 <<< TM_DIO_PIN), .setPORTB (1 <<< TM_CLK_PIN),
   .clrDDRB (1 <<< TM_DIO_PIN), .clrPORTB (1 <<< TM_DIO_PIN)] ++ _bitDelay ++ [.readPINB] ++
  (if (pinb >>> TM_DIO_PIN) &&& 0x01 = 0 then [.setDDRB (1 <<< TM_DIO_PIN)] else []) ++
  _bitDelay ++ [.setDDRB (1 <<< TM_DIO_PIN)] ++ _bitDelay

/-- The function `_writeByte(uint8_t data)`, where `pinb` is the value read
from `PINB`. -/
def _writeByte (data : Nat) (pinb : Nat) : List PortOp :=
  shiftOut data 8 ++ waitAck pinb

/-- The function `display(const uint8_t *segments)` at the level of the calls
it makes, with the global `brightness`; a read past the end of `segments`
reads as `0` here. -/
def display (brightness : Nat) (segments : List Nat) : List TM1637.BusOp :=
  [.start, .writeByte 0x40, .stop, .start, .writeByte 0xC0] ++
  (List.range 4).map (fun i => TM1637.BusOp.writeByte (segments.getD i 0)) ++
  [.stop, .start, .writeByte (0x88 ||| brightness), .stop]

/-- The register accesses made by a sequence of calls of `_start`, `_stop`
and `_writeByte`; `reads j` is the value read from `PINB` in the `j`-th call
of `_writeByte`, and `k` is the number of such calls made before. -/
def ports (reads : Nat → Nat) : Nat → List TM1637.BusOp → List PortOp
  | _, [] => []
  | k, .start :: rest => _start ++ ports reads k rest
  | k, .stop :: rest => _stop ++ ports reads k rest
  | k, .writeByte data :: rest => _writeByte data (reads k) ++ ports reads (k + 1) rest

/-- The line writes of a register access: a write to `PORTB` writes the
level on each line whose bit is in `bits`, listed from bit 0 up; the clock
line (bit 3) comes before the data line (bit 4). -/
def lineWrites : PortOp → List Bus.LineWrite
  | .setPORTB bits => ((List.range 8).filter (fun k => bits.testBit k)).map (fun k => ⟨k, true⟩)
  | .clrPORTB bits => ((List.range 8).filter (fun k => bits.testBit k)).map (fun k => ⟨k, false⟩)
  | _ => []

end V4

namespace Bus

/-- The line writes that shift out the `n` low bits of `b`, least significant
first: for each bit the clock is written low, the data line is written to
the bit, and the clock is written high. -/
def bitWrites (clk dat b n : Nat) : List LineWrite :=
  (List.range n).flatMap (fun k => [⟨clk, false⟩, ⟨dat, decide (bit b k = 1)⟩, ⟨clk, true⟩])

end Bus


namespace V4

/-! ## src/4/src/main.cpp: the timeout across a wrap of the tick counter -/

/-- A state with side 0 active whose last click was at tick 65000 and whose
tick counter has wrapped since and stands at 1500: 2036 ticks have elapsed. -/
def wrappedLate : State :=
  { score0 := 20, score1 := 20, ms := 1500, stateTime := 65000,
    runstate := RUN_LEFT, brightness := NORMAL_BRIGHT,
    pressedTime0 := 0, pressedTime1 := 0 }

/-- The same with the tick counter at 1000: 1536 ticks have elapsed. -/
def wrappedEarly : State :=
  { score0 := 20, score1 := 20, ms := 1000, stateTime := 65000,
    runstate := RUN_LEFT, brightness := NORMAL_BRIGHT,
    pressedTime0 := 0, pressedTime1 := 0 }

/-! ## src/4/src/main.cpp: the program with its array accesses checked -/

/-- Read of `score[idx]` with the bounds of `score[2]` checked: `none` for an
index outside `0 .. 1`. The index is an `int` in the source. -/
def scoreAt (s : State) (idx : Int) : Option Nat :=
  if idx = 0 then some s.score0 else if idx = 1 then some s.score1 else none

/-- Write of `score[idx] = v` with the bounds checked. -/
def scorePut (s : State) (idx : Int) (v : Nat) : Option State :=
  if idx = 0 then some { s with score0 := v }
  else if idx = 1 then some { s with score1 := v } else none

/-- The index expression `runstate - RUN_LEFT` of lines 53-57, evaluated in
`int` as the source does: it is `-1` for `RUN_IDLE`. -/
def scoreIndex (s : State) : Int := (s.runstate : Int) - (RUN_LEFT : Int)

/-- Read of `pressedTime[i]` with the bounds of `pressedTime[2]` checked. -/
def pressedAt (s : State) (i : Nat) : Option Nat :=
  if i = 0 then some s.pressedTime0 else if i = 1 then some s.pressedTime1 else none

/-- Write of `pressedTime[i] = v` with the bounds checked. -/
def pressedPut (s : State) (i : Nat) (v : Nat) : Option State :=
  if i = 0 then some { s with pressedTime0 := v }
  else if i = 1 then some { s with pressedTime1 := v } else none

/-- Read of `BTN_PINS[i]` with the bounds of `BTN_PINS[2]` checked. -/
def btnPinAt (i : Nat) : Option Nat :=
  if i = 0 then some PB2 else if i = 1 then some PB1 else none

/-- Lines 49-61 with the accesses to `score` checked. The index
`runstate - RUN_LEFT` is evaluated in the branch for `runstate != RUN_IDLE`
only. -/
def clickChecked (s : State) (i : Nat) : Option State :=
  (if s.runstate = RUN_IDLE then
      some { s with runstate := RUN_LEFT + i, brightness := NORMAL_BRIGHT }
    else if i ≠ 0 then
      (scoreAt s (scoreIndex s)).bind (fun v =>
        if v < 99 then scorePut s (scoreIndex s) ((v + 1) % 256) else some s)
    else
      (scoreAt s (scoreIndex s)).bind (fun v =>
        if v ≠ 0 then scorePut s (scoreIndex s) (v - 1) else some s)).map
    (fun s1 => { s1 with stateTime := millis s1 })

/-- Lines 40-41 with the accesses to `pressedTime` checked. -/
def countPressChecked (i : Nat) (s : State) : Option State :=
  (pressedAt s i).bind (fun p => if p < 0xFFFF then pressedPut s i (p + 1) else some s)

/-- Lines 42-64 with the accesses to `pressedTime[i]` and `score` checked;
`pressedTime[0]` has a constant index. -/
def heldChecked (i : Nat) (s : State) : Option State :=
  (pressedAt s i).bind (fun p =>
    if p ≥ DEBOUNCE_TIME then
      if i ≠ 0 ∧ getPressed s 0 ≥ DEBOUNCE_TIME then
        some { s with score0 := MAX_SCORE, score1 := MAX_SCORE,
                      runstate := RUN_IDLE, brightness := DIM_BRIGHT }
      else if clickDue p then clickChecked s i
      else some s
    else some s)

/-- Lines 39-67 with the array accesses checked. -/
def buttonChecked (pinb : Nat) (i : Nat) (s : State) : Option State :=
  (btnPinAt i).bind (fun pin =>
    if pinb &&& (1 <<< pin) == 0 then (countPressChecked i s).bind (heldChecked i)
    else pressedPut s i 0)

/-- The tick handler with its array accesses checked. -/
def tickChecked (s : State) (pinb : Nat) : Option State :=
  (buttonChecked pinb 0 (countTick s)).bind (buttonChecked pinb 1)

/-- Write of `segments[idx] = v` with the bounds of the array checked. -/
def segmentPut (segments : List Nat) (idx v : Nat) : Option (List Nat) :=
  if idx < segments.length then some (segments.set idx v) else none

/-- Lines 190-203 with the reads of `score` and `DIGITS` and the writes of
`segments` checked. -/
def renderSideChecked (s : State) (uptime i : Nat) (segments : List Nat) :
    Option (List Nat) :=
  if draw s.runstate uptime i then
    (scoreAt s (i : Int)).bind (fun v =>
      if v ≠ 0 then
        (DIGITS.get? (v / 10)).bind (fun hi =>
          (segmentPut segments (i * 2) hi).bind (fun seg1 =>
            (DIGITS.get? (v % 10)).bind (fun lo =>
              segmentPut seg1 (i * 2 + 1) (lo ||| DOT))))
      else
        (segmentPut segments (i * 2) MINUS).bind (fun seg1 =>
          segmentPut seg1 (i * 2 + 1) (MINUS ||| DOT)))
  else
    (segmentPut segments (i * 2) 0).bind (fun seg1 => segmentPut seg1 (i * 2 + 1) DOT)

/-- Lines 183-204 with the array accesses checked. -/
def renderChecked (s : State) (uptime : Nat) : Option (List Nat) :=
  (renderSideChecked s uptime 0 [0, 0, 0, 0]).bind (renderSideChecked s uptime 1)

/-- One step of the program with its array accesses checked: `none` when an
access is out of bounds. A main-loop iteration applies the timeout and
renders the frame for the `uptime` read at its start. -/
def stepChecked (s : State) : Step → Option State
  | .tick pinb => tickChecked s pinb
  | .loop => (renderChecked (mainLoop s) (millis s)).map (fun _ => mainLoop s)

/-- A sequence of steps with the array accesses checked, first step first. -/
def runChecked (s : State) : List Step → Option State
  | [] => some s
  | st :: rest => (stepChecked s st).bind (fun s1 => runChecked s1 rest)

end V4

namespace Bus

/-- The writes of `ws` that are made on the line `line`, in order. -/
def onLine (line : Nat) (ws : List LineWrite) : List LineWrite :=
  ws.filter (fun w => decide (w.line = line))

/-- What a receiver samples during the transfer of the byte `b`: its 8 bits,
least significant first, then the level the sender has put on the data line
for the clock pulse of the acknowledgment, which is high. -/
def byteSamples (b : Nat) : List Bool :=
  (List.range 8).map (fun k => decide (bit b k = 1)) ++ [true]

/-- What a receiver samples from the first byte of a frame `s0 s1 s2 s3` sent
with brightness `br` to the last STOP: the transfers of `0x40`, of `0xC0`
and the four segment bytes, and of `0x88 | br`, each command closed by the
low data line at the rising clock edge of its STOP. -/
def frameSamples (br s0 s1 s2 s3 : Nat) : List Bool :=
  byteSamples 0x40 ++ [false] ++
  byteSamples 0xC0 ++ byteSamples s0 ++ byteSamples s1 ++ byteSamples s2 ++ byteSamples s3 ++
  [false] ++
  byteSamples (0x88 ||| br) ++ [false]

end Bus

/-! ## Scores stay within 0 .. 99 -/

namespace V4

theorem click_score_le (s : State) (i : Nat) (h0 : s.score0 ≤ 99) (h1 : s.score1 ≤ 99) :
    (click s i).score0 ≤ 99 ∧ (click s i).score1 ≤ 99 := by
  unfold click millis setScore getScore
  constructor <;> (split_ifs <;> simp_all <;> omega)

theorem setPressed_score (s : State) (i v : Nat) :
    (setPressed s i v).score0 = s.score0 ∧ (setPressed s i v).score1 = s.score1 := by
  unfold setPressed; split_ifs <;> exact ⟨rfl, rfl⟩

theorem countPress_score (i : Nat) (s : State) :
    (countPress i s).score0 = s.score0 ∧ (countPress i s).score1 = s.score1 := by
  unfold countPress; split_ifs
  · exact setPressed_score s i _
  · exact ⟨rfl, rfl⟩

theorem held_score_le (i : Nat) (s : State) (h0 : s.score0 ≤ 99) (h1 : s.score1 ≤ 99) :
    (held i s).score0 ≤ 99 ∧ (held i s).score1 ≤ 99 := by
  unfold held
  split_ifs
  · simp [MAX_SCORE]
  · exact click_score_le s i h0 h1
  · exact ⟨h0, h1⟩
  · exact ⟨h0, h1⟩

theorem button_score_le (pinb i : Nat) (s : State) (h0 : s.score0 ≤ 99) (h1 : s.score1 ≤ 99) :
    (button pinb i s).score0 ≤ 99 ∧ (button pinb i s).score1 ≤ 99 := by
  unfold button
  split_ifs
  · apply held_score_le
    · rw [(countPress_score i s).1]; exact h0
    · rw [(countPress_score i s).2]; exact h1
  · rw [(setPressed_score s i 0).1, (setPressed_score s i 0).2]; exact ⟨h0, h1⟩

theorem step_score_le (s : State) (st : Step) (h0 : s.score0 ≤ 99) (h1 : s.score1 ≤ 99) :
    (step s st).score0 ≤ 99 ∧ (step s st).score1 ≤ 99 := by
  cases st with
  | tick pinb =>
    have ha := button_score_le pinb 0 (countTick s) h0 h1
    exact button_score_le pinb 1 _ ha.1 ha.2
  | loop =>
    show (mainLoop s).score0 ≤ 99 ∧ (mainLoop s).score1 ≤ 99
    unfold mainLoop
    split_ifs <;> exact ⟨h0, h1⟩

theorem run_score_le (steps : List Step) (s : State) (h0 : s.score0 ≤ 99) (h1 : s.score1 ≤ 99) :
    (run s steps).score0 ≤ 99 ∧ (run s steps).score1 ≤ 99 := by
  induction steps generalizing s with
  | nil => exact ⟨h0, h1⟩
  | cons st rest ih =>
    have hs := step_score_le s st h0 h1
    exact ih (step s st) hs.1 hs.2

end V4

namespace V0

theorem setButtons_score (s : State) (i v : Nat) :
    (setButtons s i v).score0 = s.score0 ∧ (setButtons s i v).score1 = s.score1 := by
  unfold setButtons; split_ifs <;> exact ⟨rfl, rfl⟩

theorem setPressedTimes_score (s : State) (i v : Nat) :
    (setPressedTimes s i v).score0 = s.score0 ∧ (setPressedTimes s i v).score1 = s.score1 := by
  unfold setPressedTimes; split_ifs <;> exact ⟨rfl, rfl⟩

theorem latch_score (time i : Nat) (s : State) :
    (latch time i s).score0 = s.score0 ∧ (latch time i s).score1 = s.score1 := by
  unfold latch; split_ifs
  · exact setButtons_score s i _
  · exact setButtons_score s i _
  · exact ⟨rfl, rfl⟩

theorem edit_score_le (i : Nat) (s : State) (h0 : s.score0 ≤ 99) (h1 : s.score1 ≤ 99) :
    (edit i s).score0 ≤ 99 ∧ (edit i s).score1 ≤ 99 := by
  unfold edit setScore getScore MAX_SCORE
  constructor <;> (split_ifs <;> simp_all <;> omega)

theorem event_score_le (uptime i : Nat) (s : State) (h0 : s.score0 ≤ 99) (h1 : s.score1 ≤ 99) :
    (event uptime i s).score0 ≤ 99 ∧ (event uptime i s).score1 ≤ 99 := by
  unfold event
  split_ifs
  · rw [(setButtons_score _ i _).1, (setButtons_score _ i _).2]; exact ⟨h0, h1⟩
  · rw [(setButtons_score _ i _).1, (setButtons_score _ i _).2]; exact edit_score_le i s h0 h1
  · exact ⟨h0, h1⟩

theorem edge_score (pinb now i : Nat) (s : State) :
    (edge pinb now i s).score0 = s.score0 ∧ (edge pinb now i s).score1 = s.score1 := by
  unfold edge
  split_ifs
  · rw [(setPressedTimes_score _ i _).1, (setPressedTimes_score _ i _).2]
    exact latch_score _ i s
  · exact ⟨rfl, rfl⟩
  · exact setPressedTimes_score s i _
  · exact ⟨rfl, rfl⟩

theorem step0_score_le (s : State) (st : Step) (h0 : s.score0 ≤ 99) (h1 : s.score1 ≤ 99) :
    (step s st).score0 ≤ 99 ∧ (step s st).score1 ≤ 99 := by
  cases st with
  | isr pinb now =>
    show (edge pinb now 1 (edge pinb now 0 s)).score0 ≤ 99 ∧
      (edge pinb now 1 (edge pinb now 0 s)).score1 ≤ 99
    rw [(edge_score pinb now 1 _).1, (edge_score pinb now 1 _).2,
      (edge_score pinb now 0 _).1, (edge_score pinb now 0 _).2]
    exact ⟨h0, h1⟩
  | loop uptime =>
    have ha := event_score_le uptime 0 s h0 h1
    have hb := event_score_le uptime 1 _ ha.1 ha.2
    show (timeout uptime _).score0 ≤ 99 ∧ (timeout uptime _).score1 ≤ 99
    unfold timeout
    split_ifs <;> exact hb

theorem run0_score_le (steps : List Step) (s : State) (h0 : s.score0 ≤ 99) (h1 : s.score1 ≤ 99) :
    (run s steps).score0 ≤ 99 ∧ (run s steps).score1 ≤ 99 := by
  induction steps generalizing s with
  | nil => exact ⟨h0, h1⟩
  | cons st rest ih =>
    have hs := step0_score_le s st h0 h1
    exact ih (step s st) hs.1 hs.2

end V0

/-- C1: a click handled while side `k` is active moves the score `sc` of that
side, for every `sc` in `0 .. 99`: button 1 sets it to `min (sc + 1) 99` and
button 0 sets it to `max (sc - 1) 0`, both in the click branch of the tick
handler of `src/4` and in the event branch of the loop of `src/0` (on a latch
holding `BTN_CLICK`). At 99 the increment leaves 99, at 0 the decrement
leaves 0. -/
theorem click_moves_score_within_bounds (s4 : V4.State) (s0 : V0.State) (uptime k sc : Nat)
    (hk : k < 2) (hsc : sc ≤ 99)
    (hr4 : s4.runstate = V4.RUN_LEFT + k) (hs4 : V4.getScore s4 k = sc)
    (hr0 : s0.runstate = V0.RUN_LEFT + k) (hs0 : V0.getScore s0 k = sc) :
    V4.getScore (V4.click s4 1) k = min (sc + 1) 99 ∧
    (V4.getScore (V4.click s4 0) k : Int) = max ((sc : Int) - 1) 0 ∧
    V0.getScore (V0.event uptime 1 (V0.setButtons s0 1 V0.BTN_CLICK)) k = min (sc + 1) 99 ∧
    (V0.getScore (V0.event uptime 0 (V0.setButtons s0 0 V0.BTN_CLICK)) k : Int)
      = max ((sc : Int) - 1) 0 := by
  have hk' : k = 0 ∨ k = 1 := by omega
  refine ⟨?_, ?_, ?_, ?_⟩
  · rcases hk' with rfl | rfl <;>
      simp [V4.click, V4.getScore, V4.setScore, V4.millis, V4.RUN_LEFT, V4.RUN_IDLE, hr4] at hs4 ⊢ <;>
      split_ifs <;> simp_all <;> omega
  · rcases hk' with rfl | rfl <;>
      simp [V4.click, V4.getScore, V4.setScore, V4.millis, V4.RUN_LEFT, V4.RUN_IDLE, hr4] at hs4 ⊢ <;>
      split_ifs <;> simp_all <;> omega
  · rcases hk' with rfl | rfl <;>
      simp [V0.event, V0.edit, V0.getScore, V0.setScore, V0.setButtons, V0.getButtons, V0.BTN_CLICK,
        V0.BTN_RELEASED, V0.RUN_LEFT, V0.RUN_IDLE, hr0] at hs0 ⊢ <;>
      split_ifs <;> simp_all <;> omega
  · rcases hk' with rfl | rfl <;>
      simp [V0.event, V0.edit, V0.getScore, V0.setScore, V0.setButtons, V0.getButtons, V0.BTN_CLICK,
        V0.BTN_RELEASED, V0.RUN_LEFT, V0.RUN_IDLE, hr0] at hs0 ⊢ <;>
      split_ifs <;> simp_all <;> omega

/-- C1 at a concrete input: side 0 active with score 99. -/
theorem click_moves_score_within_bounds_witness :
    V4.getScore (V4.click { V4.init with runstate := 1, score0 := 99 } 1) 0 = min (99 + 1) 99 ∧
    (V4.getScore (V4.click { V4.init with runstate := 1, score0 := 99 } 0) 0 : Int)
      = max ((99 : Int) - 1) 0 ∧
    V0.getScore (V0.event 7 1
      (V0.setButtons { V0.init with runstate := 1, score0 := 99 } 1 V0.BTN_CLICK)) 0
      = min (99 + 1) 99 ∧
    (V0.getScore (V0.event 7 0
      (V0.setButtons { V0.init with runstate := 1, score0 := 99 } 0 V0.BTN_CLICK)) 0 : Int)
      = max ((99 : Int) - 1) 0 :=
  click_moves_score_within_bounds { V4.init with runstate := 1, score0 := 99 }
    { V0.init with runstate := 1, score0 := 99 } 7 0 99 (by decide) (by decide) rfl rfl rfl rfl

/-- C2: from the initial state, after every sequence of steps both scores lie
in `0 .. 99`: tick-handler runs on arbitrary port values and main-loop
iterations in `src/4`, pin-change handler runs and loop calls at arbitrary
times in `src/0`. -/
theorem scores_stay_in_range (steps4 : List V4.Step) (steps0 : List V0.Step) :
    (V4.run V4.init steps4).score0 ≤ 99 ∧ (V4.run V4.init steps4).score1 ≤ 99 ∧
    (V0.run V0.init steps0).score0 ≤ 99 ∧ (V0.run V0.init steps0).score1 ≤ 99 := by
  have h4 := V4.run_score_le steps4 V4.init (by decide) (by decide)
  have h0 := V0.run0_score_le steps0 V0.init (by decide) (by decide)
  exact ⟨h4.1, h4.2, h0.1, h0.2⟩

/-! ## The tick handler: counters, reset, clicks -/

namespace V4

theorem click_pressedTime (s : State) (i : Nat) :
    (click s i).pressedTime0 = s.pressedTime0 ∧ (click s i).pressedTime1 = s.pressedTime1 := by
  unfold click setScore
  constructor <;> (split_ifs <;> rfl)

theorem held_pressedTime (i : Nat) (s : State) :
    (held i s).pressedTime0 = s.pressedTime0 ∧ (held i s).pressedTime1 = s.pressedTime1 := by
  unfold held
  split_ifs
  · exact ⟨rfl, rfl⟩
  · exact click_pressedTime s i
  · exact ⟨rfl, rfl⟩
  · exact ⟨rfl, rfl⟩

theorem held_one_reset (s : State) (h0 : DEBOUNCE_TIME ≤ s.pressedTime0)
    (h1 : DEBOUNCE_TIME ≤ s.pressedTime1) :
    held 1 s = { s with score0 := MAX_SCORE, score1 := MAX_SCORE,
                        runstate := RUN_IDLE, brightness := DIM_BRIGHT } := by
  unfold held getPressed
  simp [h0, h1]

end V4

/-- C3: the reset gesture of `src/4`. From every prior state, when a run of
the tick handler reads both button lines pressed and leaves both press
counters at the debounce time (50) or above, it returns with both scores at
`MAX_SCORE` (20), the run state idle and the brightness dim (2), whatever
button 0 did earlier in the same run. -/
theorem both_held_resets (s : V4.State) (pinb : Nat)
    (hb0 : V4.pressed pinb 0 = true) (hb1 : V4.pressed pinb 1 = true)
    (hp0 : V4.DEBOUNCE_TIME ≤ (V4.TIM0_COMPA_vect s pinb).pressedTime0)
    (hp1 : V4.DEBOUNCE_TIME ≤ (V4.TIM0_COMPA_vect s pinb).pressedTime1) :
    (V4.TIM0_COMPA_vect s pinb).score0 = V4.MAX_SCORE ∧
    (V4.TIM0_COMPA_vect s pinb).score1 = V4.MAX_SCORE ∧
    (V4.TIM0_COMPA_vect s pinb).runstate = V4.RUN_IDLE ∧
    (V4.TIM0_COMPA_vect s pinb).brightness = V4.DIM_BRIGHT := by
  unfold V4.TIM0_COMPA_vect V4.button at hp0 hp1 ⊢
  simp only [hb0, hb1, if_true] at hp0 hp1 ⊢
  rw [(V4.held_pressedTime 1 _).1] at hp0
  rw [(V4.held_pressedTime 1 _).2] at hp1
  rw [V4.held_one_reset _ hp0 hp1]
  exact ⟨rfl, rfl, rfl, rfl⟩

/-- C3 at a concrete input: side 0 active with other scores, both counters at
49 and both lines low, so that button 0 emits its click in the same run. -/
theorem both_held_resets_witness :
    (V4.TIM0_COMPA_vect V4.bothAlmostHeld 0).score0 = V4.MAX_SCORE ∧
    (V4.TIM0_COMPA_vect V4.bothAlmostHeld 0).score1 = V4.MAX_SCORE ∧
    (V4.TIM0_COMPA_vect V4.bothAlmostHeld 0).runstate = V4.RUN_IDLE ∧
    (V4.TIM0_COMPA_vect V4.bothAlmostHeld 0).brightness = V4.DIM_BRIGHT :=
  both_held_resets V4.bothAlmostHeld 0 (by decide) (by decide) (by decide) (by decide)

/-! ## Time since the last click, and the way back to idle -/

namespace V4

theorem setPressed_frame (s : State) (i v : Nat) :
    (setPressed s i v).ms = s.ms ∧ (setPressed s i v).stateTime = s.stateTime ∧
    (setPressed s i v).runstate = s.runstate := by
  unfold setPressed; split_ifs <;> exact ⟨rfl, rfl, rfl⟩

theorem countPress_frame (i : Nat) (s : State) :
    (countPress i s).ms = s.ms ∧ (countPress i s).stateTime = s.stateTime ∧
    (countPress i s).runstate = s.runstate := by
  unfold countPress; split_ifs
  · exact setPressed_frame s i _
  · exact ⟨rfl, rfl, rfl⟩

theorem click_time (s : State) (i : Nat) :
    (click s i).ms = s.ms ∧ (click s i).stateTime = s.ms := by
  unfold click millis setScore
  constructor <;> (split_ifs <;> rfl)

theorem click_runstate (s : State) (i : Nat) (h : s.runstate ≠ RUN_IDLE) :
    (click s i).runstate = s.runstate := by
  unfold click millis setScore
  split_ifs <;> first | rfl | contradiction

theorem held_ms (i : Nat) (s : State) : (held i s).ms = s.ms := by
  unfold held
  split_ifs
  · rfl
  · exact (click_time s i).1
  · rfl
  · rfl

theorem held_stateTime (i : Nat) (s : State) :
    (held i s).stateTime = if clicks i s then s.ms else s.stateTime := by
  unfold held clicks
  by_cases h1 : getPressed s i ≥ DEBOUNCE_TIME
  · by_cases h2 : i ≠ 0 ∧ getPressed s 0 ≥ DEBOUNCE_TIME
    · simp [h1, h2]
    · by_cases h3 : clickDue (getPressed s i) = true
      · simp only [h1, h2, h3, if_true, if_false, decide_True, decide_False, Bool.not_false,
          Bool.and_self]
        exact (click_time s i).2
      · simp [h1, h2, h3]
  · simp [h1]

theorem button_ms (pinb i : Nat) (s : State) : (button pinb i s).ms = s.ms := by
  unfold button
  split_ifs
  · rw [held_ms, (countPress_frame i s).1]
  · exact (setPressed_frame s i 0).1

theorem button_stateTime (pinb i : Nat) (s : State) :
    (button pinb i s).stateTime =
      if (pressed pinb i && clicks i (countPress i s)) = true then s.ms else s.stateTime := by
  unfold button
  by_cases hp : pressed pinb i = true
  · simp only [hp, if_true, Bool.true_and]
    rw [held_stateTime, (countPress_frame i s).1, (countPress_frame i s).2.1]
  · simp only [hp, if_false, Bool.false_and]
    simpa using (setPressed_frame s i 0).2.1

theorem tick_ms (s : State) (pinb : Nat) :
    (TIM0_COMPA_vect s pinb).ms = (s.ms + 1) % 65536 := by
  unfold TIM0_COMPA_vect
  rw [button_ms, button_ms]
  rfl

theorem tick_stateTime (s : State) (pinb : Nat) :
    (TIM0_COMPA_vect s pinb).stateTime =
      if tickClicks s pinb = true then (s.ms + 1) % 65536 else s.stateTime := by
  unfold TIM0_COMPA_vect tickClicks
  rw [button_stateTime, button_stateTime, button_ms]
  have hm : (countTick s).ms = (s.ms + 1) % 65536 := rfl
  have hst : (countTick s).stateTime = s.stateTime := rfl
  rw [hm, hst]
  by_cases h0 : (pressed pinb 0 && clicks 0 (countPress 0 (countTick s))) = true
  · simp [h0]
  · by_cases h1 : (pressed pinb 1 &&
        clicks 1 (countPress 1 (button pinb 0 (countTick s)))) = true
    · simp [h0, h1]
    · simp [h0, h1]

theorem held_zero_runstate (s : State) (h : s.runstate ≠ RUN_IDLE) :
    (held 0 s).runstate = s.runstate := by
  unfold held
  split_ifs with h1 h2 h3
  · exact absurd rfl h2.1
  · exact click_runstate s 0 h
  · rfl
  · rfl

theorem held_one_runstate (s : State) (h : s.runstate ≠ RUN_IDLE)
    (hidle : (held 1 s).runstate = RUN_IDLE) :
    DEBOUNCE_TIME ≤ s.pressedTime0 ∧ DEBOUNCE_TIME ≤ s.pressedTime1 := by
  unfold held at hidle
  split_ifs at hidle with h1 h2 h3
  · exact ⟨by simpa [getPressed] using h2.2, by simpa [getPressed] using h1⟩
  · rw [click_runstate s 1 h] at hidle; exact absurd hidle h
  · exact absurd hidle h
  · exact absurd hidle h

theorem button_zero_runstate (pinb : Nat) (s : State) (h : s.runstate ≠ RUN_IDLE) :
    (button pinb 0 s).runstate = s.runstate := by
  unfold button
  split_ifs
  · rw [held_zero_runstate _ (by rw [(countPress_frame 0 s).2.2]; exact h),
      (countPress_frame 0 s).2.2]
  · exact (setPressed_frame s 0 0).2.2

theorem button_zero_released (pinb : Nat) (s : State) (h : pressed pinb 0 = false) :
    (button pinb 0 s).pressedTime0 = 0 := by
  unfold button setPressed
  simp [h]

theorem countPress_one_pressedTime0 (s : State) :
    (countPress 1 s).pressedTime0 = s.pressedTime0 := by
  unfold countPress setPressed
  split_ifs <;> simp_all

/-- A run of the tick handler takes an active scoreboard to idle only by the
reset: both lines read pressed and both counters end at the debounce time or
above. -/
theorem tick_idle_only_by_reset (s : State) (pinb : Nat) (h : s.runstate ≠ RUN_IDLE)
    (hidle : (TIM0_COMPA_vect s pinb).runstate = RUN_IDLE) :
    pressed pinb 0 = true ∧ pressed pinb 1 = true ∧
    DEBOUNCE_TIME ≤ (TIM0_COMPA_vect s pinb).pressedTime0 ∧
    DEBOUNCE_TIME ≤ (TIM0_COMPA_vect s pinb).pressedTime1 := by
  unfold TIM0_COMPA_vect at hidle ⊢
  have hc : (countTick s).runstate ≠ RUN_IDLE := h
  have ha : (button pinb 0 (countTick s)).runstate ≠ RUN_IDLE := by
    rw [button_zero_runstate pinb (countTick s) hc]; exact hc
  have hz := button_zero_released pinb (countTick s)
  generalize button pinb 0 (countTick s) = a at ha hidle hz ⊢
  unfold button at hidle ⊢
  by_cases hp1 : pressed pinb 1 = true
  · simp only [hp1, if_true] at hidle ⊢
    have hb : (countPress 1 a).runstate ≠ RUN_IDLE := by
      rw [(countPress_frame 1 a).2.2]; exact ha
    have hr := held_one_runstate _ hb hidle
    rw [(held_pressedTime 1 _).1, (held_pressedTime 1 _).2]
    refine ⟨?_, trivial, hr.1, hr.2⟩
    by_contra hp0
    have := hz (by simpa using hp0)
    rw [countPress_one_pressedTime0, this] at hr
    exact absurd hr.1 (by decide)
  · rw [if_neg hp1, (setPressed_frame a 1 0).2.2] at hidle
    exact absurd hidle ha

theorem mainLoop_idle_iff (s : State) (h : s.runstate ≠ RUN_IDLE) :
    (mainLoop s).runstate = RUN_IDLE ↔
      STATE_DURATION ≤ (s.ms + 65536 - s.stateTime) % 65536 := by
  unfold mainLoop millis
  by_cases hd : (s.ms + 65536 - s.stateTime) % 65536 ≥ STATE_DURATION
  · simp [h, hd]
  · simp only [ge_iff_le] at hd
    simp [h, hd]

theorem mainLoop_time (s : State) :
    (mainLoop s).ms = s.ms ∧ (mainLoop s).stateTime = s.stateTime := by
  unfold mainLoop
  split_ifs <;> exact ⟨rfl, rfl⟩

theorem step_timed (s : State) (e : Nat) (st : Step) (h : timed s e) :
    timed (step s st) (elapsedStep s e st) := by
  obtain ⟨h1, h2, h3⟩ := h
  cases st with
  | tick pinb =>
    show timed (TIM0_COMPA_vect s pinb) (if tickClicks s pinb then 0 else e + 1)
    unfold timed
    rw [tick_ms, tick_stateTime]
    by_cases hc : tickClicks s pinb = true
    · rw [if_pos hc, if_pos hc]
      refine ⟨by omega, by omega, by omega⟩
    · rw [if_neg hc, if_neg hc]
      refine ⟨by omega, h2, by omega⟩
  | loop =>
    show timed (mainLoop s) e
    unfold timed
    rw [(mainLoop_time s).1, (mainLoop_time s).2]
    exact ⟨h1, h2, h3⟩

theorem run_timed (steps : List Step) (s : State) (e : Nat) (h : timed s e) :
    timed (run s steps) (elapsed s e steps) := by
  induction steps generalizing s e with
  | nil => exact h
  | cons st rest ih => exact ih (step s st) (elapsedStep s e st) (step_timed s e st h)

theorem run_append (s : State) (a b : List Step) : run s (a ++ b) = run (run s a) b := by
  unfold run
  exact List.foldl_append _ _ _ _

theorem elapsed_append (a b : List Step) (s : State) (e : Nat) :
    elapsed s e (a ++ b) = elapsed (run s a) (elapsed s e a) b := by
  induction a generalizing s e with
  | nil => rfl
  | cons st rest ih => exact ih (step s st) (elapsedStep s e st)

theorem released_tick (s : State) :
    TIM0_COMPA_vect s 6 = { s with ms := (s.ms + 1) % 65536, pressedTime0 := 0, pressedTime1 := 0 } ∧
    tickClicks s 6 = false := by
  have h0 : pressed 6 0 = false := by decide
  have h1 : pressed 6 1 = false := by decide
  constructor
  · unfold TIM0_COMPA_vect button
    rw [h0, h1]
    rfl
  · unfold tickClicks
    rw [h0, h1]
    rfl

theorem released_ticks (n : Nat) (s : State) (e : Nat) (hms : s.ms < 65536) :
    (run s (List.replicate n (Step.tick 6))).ms = (s.ms + n) % 65536 ∧
    (run s (List.replicate n (Step.tick 6))).stateTime = s.stateTime ∧
    (run s (List.replicate n (Step.tick 6))).runstate = s.runstate ∧
    elapsed s e (List.replicate n (Step.tick 6)) = e + n := by
  induction n generalizing s e with
  | zero => exact ⟨(Nat.mod_eq_of_lt hms).symm, rfl, rfl, rfl⟩
  | succ n ih =>
    have hstep : step s (Step.tick 6) = TIM0_COMPA_vect s 6 := rfl
    have hrun : run s (List.replicate (n + 1) (Step.tick 6))
        = run (TIM0_COMPA_vect s 6) (List.replicate n (Step.tick 6)) := rfl
    have hel : elapsed s e (List.replicate (n + 1) (Step.tick 6))
        = elapsed (TIM0_COMPA_vect s 6) (e + 1) (List.replicate n (Step.tick 6)) := by
      show elapsed (step s (Step.tick 6)) (elapsedStep s e (Step.tick 6)) _ = _
      have : elapsedStep s e (Step.tick 6) = e + 1 := by
        show (if tickClicks s 6 then 0 else e + 1) = e + 1
        rw [(released_tick s).2]; rfl
      rw [this, hstep]
    rw [hrun, hel, (released_tick s).1]
    have := ih { s with ms := (s.ms + 1) % 65536, pressedTime0 := 0, pressedTime1 := 0 } (e + 1)
      (Nat.mod_lt _ (by decide))
    obtain ⟨i1, i2, i3, i4⟩ := this
    refine ⟨?_, i2, i3, ?_⟩
    · rw [i1]; show ((s.ms + 1) % 65536 + n) % 65536 = (s.ms + (n + 1)) % 65536
      omega
    · rw [i4]; omega

end V4

set_option maxRecDepth 100000 in
theorem V4.pressLeft_run :
    V4.run V4.init V4.pressLeft
      = { V4.init with ms := 50, stateTime := 50, runstate := 1, brightness := 4,
                       pressedTime0 := 50 } ∧
    V4.elapsed V4.init 0 V4.pressLeft = 0 := by
  constructor <;> decide

set_option maxRecDepth 100000 in
theorem V4.pressBoth_run :
    (V4.run V4.init (V4.pressLeft ++ V4.pressBoth)).runstate = V4.RUN_LEFT ∧
    V4.elapsed V4.init 0 (V4.pressLeft ++ V4.pressBoth) = 49 ∧
    (V4.step (V4.run V4.init (V4.pressLeft ++ V4.pressBoth)) (V4.Step.tick 0)).runstate
      = V4.RUN_IDLE := by
  refine ⟨?_, ?_, ?_⟩ <;> decide

theorem V4.mainLoop_early (s : V4.State)
    (h : (s.ms + 65536 - s.stateTime) % 65536 < V4.STATE_DURATION) : V4.mainLoop s = s := by
  unfold V4.mainLoop V4.millis
  rw [if_neg]
  intro hc
  exact absurd hc.2 (by omega)

/-- C4 as stated fails twice. From the initial state, 50 ticks of button 0
activate side 0; with button 1 then held too, the 50th further tick resets
the scoreboard to idle although only 49 ticks had elapsed since the click.
And after 65536 ticks without a click the 16-bit difference is 0 again, so a
main-loop iteration leaves the side active although 65536 ticks elapsed. -/
theorem idle_reentry_counterexample :
    ((V4.run V4.init (V4.pressLeft ++ V4.pressBoth)).runstate = V4.RUN_LEFT ∧
      V4.elapsed V4.init 0 (V4.pressLeft ++ V4.pressBoth) = 49 ∧
      (V4.step (V4.run V4.init (V4.pressLeft ++ V4.pressBoth)) (V4.Step.tick 0)).runstate
        = V4.RUN_IDLE) ∧
    ((V4.run V4.init (V4.pressLeft ++ V4.releasedLong)).runstate = V4.RUN_LEFT ∧
      V4.elapsed V4.init 0 (V4.pressLeft ++ V4.releasedLong) = 65536 ∧
      (V4.step (V4.run V4.init (V4.pressLeft ++ V4.releasedLong)) V4.Step.loop).runstate
        = V4.RUN_LEFT) := by
  refine ⟨V4.pressBoth_run, ?_⟩
  obtain ⟨ha, he⟩ := V4.pressLeft_run
  have hr := V4.released_ticks 65536 (V4.run V4.init V4.pressLeft) 0 (by rw [ha]; decide)
  have hl : V4.releasedLong = List.replicate 65536 (V4.Step.tick 6) := rfl
  rw [← hl] at hr
  obtain ⟨r1, r2, r3, r4⟩ := hr
  have h3 : (V4.run V4.init (V4.pressLeft ++ V4.releasedLong)).runstate = V4.RUN_LEFT := by
    rw [V4.run_append, r3, ha]; rfl
  refine ⟨h3, ?_, ?_⟩
  · rw [V4.elapsed_append, he, r4]
  · show (V4.mainLoop _).runstate = V4.RUN_LEFT
    rw [V4.mainLoop_early _ ?_]
    · exact h3
    · rw [V4.run_append, r1, r2, ha]
      decide

/-- C4, amended. Over every sequence of tick-handler and main-loop steps of
`src/4` from the initial state that ends with a side active: a main-loop
iteration puts the run state back to idle if and only if the number of ticks
elapsed since the last click, taken modulo `2 ^ 16` as the 16-bit counter
does, is at least 2000 (so never below 2000 ticks, always from 2000 to 65535
ticks); and a tick-handler run puts it back to idle only by the reset, with
both lines read pressed and both press counters at 50 or more. -/
theorem idle_reentered_by_timeout_or_reset (steps : List V4.Step)
    (hact : (V4.run V4.init steps).runstate ≠ V4.RUN_IDLE) :
    ((V4.step (V4.run V4.init steps) V4.Step.loop).runstate = V4.RUN_IDLE ↔
      V4.STATE_DURATION ≤ V4.elapsed V4.init 0 steps % 65536) ∧
    (V4.elapsed V4.init 0 steps < V4.STATE_DURATION →
      V4.step (V4.run V4.init steps) V4.Step.loop = V4.run V4.init steps) ∧
    (V4.STATE_DURATION ≤ V4.elapsed V4.init 0 steps → V4.elapsed V4.init 0 steps < 65536 →
      (V4.step (V4.run V4.init steps) V4.Step.loop).runstate = V4.RUN_IDLE) ∧
    (∀ pinb, (V4.step (V4.run V4.init steps) (V4.Step.tick pinb)).runstate = V4.RUN_IDLE →
      V4.pressed pinb 0 = true ∧ V4.pressed pinb 1 = true ∧
      V4.DEBOUNCE_TIME ≤ (V4.step (V4.run V4.init steps) (V4.Step.tick pinb)).pressedTime0 ∧
      V4.DEBOUNCE_TIME ≤ (V4.step (V4.run V4.init steps) (V4.Step.tick pinb)).pressedTime1) := by
  have ht : V4.timed (V4.run V4.init steps) (V4.elapsed V4.init 0 steps) :=
    V4.run_timed steps V4.init 0 ⟨by decide, by decide, by decide⟩
  obtain ⟨-, -, h3⟩ := ht
  have hiff := V4.mainLoop_idle_iff (V4.run V4.init steps) hact
  rw [h3] at hiff
  refine ⟨hiff, ?_, ?_, ?_⟩
  · intro hlt
    apply V4.mainLoop_early
    rw [h3]
    exact lt_of_le_of_lt (Nat.mod_le _ _) hlt
  · intro hge hlt
    apply hiff.2
    rw [Nat.mod_eq_of_lt hlt]
    exact hge
  · intro pinb hidle
    exact V4.tick_idle_only_by_reset _ pinb hact hidle

/-- C4, amended, at a concrete run: 50 ticks of button 0 from the initial
state, which leave side 0 active with no tick elapsed since the click, so
that a main-loop iteration changes nothing. -/
theorem idle_reentered_by_timeout_or_reset_witness :
    (V4.run V4.init V4.pressLeft).runstate ≠ V4.RUN_IDLE ∧
    V4.elapsed V4.init 0 V4.pressLeft < V4.STATE_DURATION ∧
    V4.step (V4.run V4.init V4.pressLeft) V4.Step.loop = V4.run V4.init V4.pressLeft :=
  have hact : (V4.run V4.init V4.pressLeft).runstate ≠ V4.RUN_IDLE := by
    rw [V4.pressLeft_run.1]; decide
  have hlt : V4.elapsed V4.init 0 V4.pressLeft < V4.STATE_DURATION := by
    rw [V4.pressLeft_run.2]; decide
  ⟨hact, hlt, (idle_reentered_by_timeout_or_reset V4.pressLeft hact).2.1 hlt⟩

/-! ## One active side at a time -/

namespace V4

theorem held_one_runstate_cases (s : State) (h : s.runstate ≠ RUN_IDLE) :
    (held 1 s).runstate = s.runstate ∨ (held 1 s).runstate = RUN_IDLE := by
  unfold held
  split_ifs
  · exact Or.inr rfl
  · exact Or.inl (click_runstate s 1 h)
  · exact Or.inl rfl
  · exact Or.inl rfl

theorem tick_runstate_cases (s : State) (pinb : Nat) (h : s.runstate ≠ RUN_IDLE) :
    (TIM0_COMPA_vect s pinb).runstate = s.runstate ∨
    (TIM0_COMPA_vect s pinb).runstate = RUN_IDLE := by
  unfold TIM0_COMPA_vect
  have hc : (countTick s).runstate = s.runstate := rfl
  have ha : (button pinb 0 (countTick s)).runstate = s.runstate := by
    rw [button_zero_runstate pinb (countTick s) h, hc]
  generalize button pinb 0 (countTick s) = a at ha ⊢
  unfold button
  split_ifs
  · have hb : (countPress 1 a).runstate = s.runstate := by rw [(countPress_frame 1 a).2.2, ha]
    rcases held_one_runstate_cases (countPress 1 a) (by rw [hb]; exact h) with h1 | h1
    · exact Or.inl (by rw [h1, hb])
    · exact Or.inr h1
  · exact Or.inl (by rw [(setPressed_frame a 1 0).2.2, ha])

theorem step_runstate_cases (s : State) (st : Step) (h : s.runstate ≠ RUN_IDLE) :
    (step s st).runstate = s.runstate ∨ (step s st).runstate = RUN_IDLE := by
  cases st with
  | tick pinb => exact tick_runstate_cases s pinb h
  | loop =>
    show (mainLoop s).runstate = s.runstate ∨ (mainLoop s).runstate = RUN_IDLE
    unfold mainLoop
    split_ifs
    · exact Or.inr rfl
    · exact Or.inl rfl

theorem click_active (s : State) (k i : Nat) (hk : k < 2) (hi : i < 2)
    (hr : s.runstate = RUN_LEFT + k) (hs : getScore s k ≤ 99) :
    (click s i).runstate = RUN_LEFT + k ∧
    getScore (click s i) (1 - k) = getScore s (1 - k) ∧
    getScore (click s i) k = if i = 1 then min (getScore s k + 1) 99 else getScore s k - 1 := by
  have hk' : k = 0 ∨ k = 1 := by omega
  have hi' : i = 0 ∨ i = 1 := by omega
  simp only [RUN_LEFT] at hr
  rcases hk' with rfl | rfl <;> rcases hi' with rfl | rfl <;>
    simp [click, getScore, setScore, millis, RUN_LEFT, RUN_IDLE, hr] at hs ⊢ <;>
    split_ifs <;> simp_all <;> omega

end V4

namespace V0

theorem setButtons_runstate (s : State) (i v : Nat) :
    (setButtons s i v).runstate = s.runstate := by
  unfold setButtons; split_ifs <;> rfl

theorem setPressedTimes_runstate (s : State) (i v : Nat) :
    (setPressedTimes s i v).runstate = s.runstate := by
  unfold setPressedTimes; split_ifs <;> rfl

theorem edge_runstate (pinb now i : Nat) (s : State) :
    (edge pinb now i s).runstate = s.runstate := by
  unfold edge latch
  split_ifs <;> simp only [setPressedTimes_runstate, setButtons_runstate]

theorem edit_runstate (i : Nat) (s : State) : (edit i s).runstate = s.runstate := by
  unfold edit setScore
  split_ifs <;> rfl

theorem event_runstate (uptime i : Nat) (s : State) (h : s.runstate ≠ RUN_IDLE) :
    (event uptime i s).runstate = s.runstate := by
  unfold event
  split_ifs
  · show (setButtons _ i _).runstate = _
    rw [setButtons_runstate]
    exact edit_runstate i s
  · rfl

theorem step0_runstate_cases (s : State) (st : Step) (h : s.runstate ≠ RUN_IDLE) :
    (step s st).runstate = s.runstate ∨ (step s st).runstate = RUN_IDLE := by
  cases st with
  | isr pinb now =>
    left
    show (edge pinb now 1 (edge pinb now 0 s)).runstate = s.runstate
    rw [edge_runstate, edge_runstate]
  | loop uptime =>
    show (timeout uptime (event uptime 1 (event uptime 0 s))).runstate = s.runstate ∨
      (timeout uptime (event uptime 1 (event uptime 0 s))).runstate = RUN_IDLE
    have h0 : (event uptime 0 s).runstate = s.runstate := event_runstate uptime 0 s h
    have h1 : (event uptime 1 (event uptime 0 s)).runstate = s.runstate := by
      rw [event_runstate uptime 1 _ (by rw [h0]; exact h), h0]
    unfold timeout
    split_ifs
    · exact Or.inr rfl
    · exact Or.inl h1

theorem event_active (uptime : Nat) (s : State) (k i : Nat) (hk : k < 2) (hi : i < 2)
    (hr : s.runstate = RUN_LEFT + k) (hs : getScore s k ≤ 99)
    (hb : getButtons s i ≠ BTN_RELEASED) :
    (event uptime i s).runstate = RUN_LEFT + k ∧
    getScore (event uptime i s) (1 - k) = getScore s (1 - k) ∧
    getScore (event uptime i s) k =
      if getButtons s i = BTN_CLICK then
        if i = 1 then min (getScore s k + 1) 99 else getScore s k - 1
      else if i = 1 then MAX_SCORE else 0 := by
  have hk' : k = 0 ∨ k = 1 := by omega
  have hi' : i = 0 ∨ i = 1 := by omega
  simp only [RUN_LEFT] at hr
  rcases hk' with rfl | rfl <;> rcases hi' with rfl | rfl <;>
    simp [event, edit, getScore, setScore, setButtons, getButtons, RUN_LEFT, RUN_IDLE, hr,
      BTN_RELEASED, BTN_CLICK, MAX_SCORE] at hs hb ⊢ <;>
    split_ifs <;> simp_all <;> omega

theorem loop_idle_both (uptime : Nat) (t : State) (hr : t.runstate = RUN_IDLE)
    (h0 : t.buttons0 ≠ BTN_RELEASED) (h1 : t.buttons1 ≠ BTN_RELEASED) (hs : t.score0 ≤ 99) :
    (loop t uptime).runstate = RUN_LEFT ∧ (loop t uptime).score1 = t.score1 ∧
    (loop t uptime).score0 =
      if t.buttons1 = BTN_CLICK then min (t.score0 + 1) 99 else MAX_SCORE := by
  simp [loop, timeout, event, edit, activate, getScore, setScore, setButtons, getButtons,
    RUN_LEFT, RUN_IDLE, hr, BTN_RELEASED, BTN_CLICK, MAX_SCORE, STATE_DURATION] at h0 h1 ⊢
  simp [h0, h1]
  split_ifs <;> simp_all <;> omega

end V0

/-- C5: at most one side is active at a time. An event handled while side `k`
is active, from either button `i`, is applied to the score of side `k` (a
click moves it by one within `0 .. 99`; in `src/0` a long click sets it to
20 or 0), leaves the run state at side `k` and leaves the score of the other
side as it was; this holds for the click branch of `src/4` and for the event
branch of `src/0`. In `src/0`, a loop call on an idle scoreboard with both
latches set activates side 0 with the event of button 0 and applies the event
of button 1 to the score of side 0. No step of either program takes the run
state from one active side to the other. -/
theorem second_button_edits_active_side (s4 : V4.State) (s0 t : V0.State) (k i uptime : Nat)
    (hk : k < 2) (hi : i < 2)
    (hr4 : s4.runstate = V4.RUN_LEFT + k) (hs4 : V4.getScore s4 k ≤ 99)
    (hr0 : s0.runstate = V0.RUN_LEFT + k) (hs0 : V0.getScore s0 k ≤ 99)
    (hb : V0.getButtons s0 i ≠ V0.BTN_RELEASED)
    (ht : t.runstate = V0.RUN_IDLE) (ht0 : t.buttons0 ≠ V0.BTN_RELEASED)
    (ht1 : t.buttons1 ≠ V0.BTN_RELEASED) (hts : t.score0 ≤ 99) :
    ((V4.click s4 i).runstate = V4.RUN_LEFT + k ∧
      V4.getScore (V4.click s4 i) (1 - k) = V4.getScore s4 (1 - k) ∧
      V4.getScore (V4.click s4 i) k =
        if i = 1 then min (V4.getScore s4 k + 1) 99 else V4.getScore s4 k - 1) ∧
    (∀ st, (V4.step s4 st).runstate = V4.RUN_LEFT + k ∨ (V4.step s4 st).runstate = V4.RUN_IDLE) ∧
    ((V0.event uptime i s0).runstate = V0.RUN_LEFT + k ∧
      V0.getScore (V0.event uptime i s0) (1 - k) = V0.getScore s0 (1 - k) ∧
      V0.getScore (V0.event uptime i s0) k =
        if V0.getButtons s0 i = V0.BTN_CLICK then
          if i = 1 then min (V0.getScore s0 k + 1) 99 else V0.getScore s0 k - 1
        else if i = 1 then V0.MAX_SCORE else 0) ∧
    (∀ st, (V0.step s0 st).runstate = V0.RUN_LEFT + k ∨ (V0.step s0 st).runstate = V0.RUN_IDLE) ∧
    ((V0.loop t uptime).runstate = V0.RUN_LEFT ∧ (V0.loop t uptime).score1 = t.score1 ∧
      (V0.loop t uptime).score0 =
        if t.buttons1 = V0.BTN_CLICK then min (t.score0 + 1) 99 else V0.MAX_SCORE) := by
  have ha4 : s4.runstate ≠ V4.RUN_IDLE := by rw [hr4]; unfold V4.RUN_LEFT V4.RUN_IDLE; omega
  have ha0 : s0.runstate ≠ V0.RUN_IDLE := by rw [hr0]; unfold V0.RUN_LEFT V0.RUN_IDLE; omega
  refine ⟨V4.click_active s4 k i hk hi hr4 hs4, ?_, V0.event_active uptime s0 k i hk hi hr0 hs0 hb,
    ?_, V0.loop_idle_both uptime t ht ht0 ht1 hts⟩
  · intro st
    rw [← hr4]
    exact V4.step_runstate_cases s4 st ha4
  · intro st
    rw [← hr0]
    exact V0.step0_runstate_cases s0 st ha0

/-- C5 at concrete inputs: side 1 active and a click of button 0 in both
programs; both latches set on an idle scoreboard in `src/0`. -/
theorem second_button_edits_active_side_witness :
    (V4.click V4.rightActive 0).runstate = V4.RUN_LEFT + 1 ∧
    V4.getScore (V4.click V4.rightActive 0) 1 = 11 ∧
    (V0.event 4100 0 V0.rightActiveClick).runstate = V0.RUN_LEFT + 1 ∧
    V0.getScore (V0.event 4100 0 V0.rightActiveClick) 1 = 11 ∧
    (V0.loop V0.idleBothLatched 4100).runstate = V0.RUN_LEFT ∧
    (V0.loop V0.idleBothLatched 4100).score0 = 21 :=
  have h := second_button_edits_active_side V4.rightActive V0.rightActiveClick V0.idleBothLatched
    1 0 4100 (by decide) (by decide) rfl (by decide) rfl (by decide) (by decide) rfl
    (by decide) (by decide) (by decide)
  ⟨h.1.1, h.1.2.2, h.2.2.1.1, h.2.2.1.2.2, h.2.2.2.2.1, h.2.2.2.2.2.2⟩

/-! ## The display driver: digits and numbers -/

namespace TM1637

theorem digitToSegments_digit (d : Int) (h0 : 0 ≤ d) (h1 : d < 10) :
    digitToSegments d < 128 ∧ digitToSegments d ≠ 0 ∧ digitToSegments d ≠ MINUS ∧
    digitToSegments d ≠ 0x50 ∧ decodeDigit (digitToSegments d) = some d.toNat := by
  interval_cases d <;> decide

theorem pack_eq (a b c d : Nat) (hb : b < 256) (hc : c < 256) (hd : d < 256) :
    ((a <<< 24 ||| b <<< 16) ||| c <<< 8) ||| d = 16777216 * a + 65536 * b + 256 * c + d := by
  rw [Nat.shiftLeft_eq, Nat.shiftLeft_eq, Nat.shiftLeft_eq]
  have e1 : a * 2 ^ 24 ||| b * 2 ^ 16 = 2 ^ 24 * a + 2 ^ 16 * b := by
    rw [Nat.mul_comm a, Nat.mul_comm b]
    exact (Nat.mul_add_lt_is_or (by omega) a).symm
  have e2 : (2 ^ 24 * a + 2 ^ 16 * b) ||| c * 2 ^ 8 = 2 ^ 16 * (2 ^ 8 * a + b) + 2 ^ 8 * c := by
    have : 2 ^ 24 * a + 2 ^ 16 * b = 2 ^ 16 * (2 ^ 8 * a + b) := by ring
    rw [this, Nat.mul_comm c]
    exact (Nat.mul_add_lt_is_or (by omega) _).symm
  have e3 : (2 ^ 16 * (2 ^ 8 * a + b) + 2 ^ 8 * c) ||| d
      = 2 ^ 8 * (2 ^ 8 * (2 ^ 8 * a + b) + c) + d := by
    have : 2 ^ 16 * (2 ^ 8 * a + b) + 2 ^ 8 * c = 2 ^ 8 * (2 ^ 8 * (2 ^ 8 * a + b) + c) := by ring
    rw [this]
    exact (Nat.mul_add_lt_is_or (by omega) _).symm
  rw [e1, e2, e3]
  ring

theorem display32_pack (br a b c d : Nat) (ha : a < 256) (hb : b < 256) (hc : c < 256)
    (hd : d < 256) :
    display32 br (16777216 * a + 65536 * b + 256 * c + d) = sends br d c b a := by
  have h0 : (16777216 * a + 65536 * b + 256 * c + d) >>> (8 * 0) % 256 = d := by
    rw [Nat.shiftRight_eq_div_pow]; omega
  have h1 : (16777216 * a + 65536 * b + 256 * c + d) >>> (8 * 1) % 256 = c := by
    rw [Nat.shiftRight_eq_div_pow]; omega
  have h2 : (16777216 * a + 65536 * b + 256 * c + d) >>> (8 * 2) % 256 = b := by
    rw [Nat.shiftRight_eq_div_pow]; omega
  have h3 : (16777216 * a + 65536 * b + 256 * c + d) >>> (8 * 3) % 256 = a := by
    rw [Nat.shiftRight_eq_div_pow]; omega
  show [BusOp.start, .writeByte ADDR_AUTO, .stop, .start, .writeByte STARTADDR,
    .writeByte _, .writeByte _, .writeByte _, .writeByte _,
    .stop, .start, .writeByte (0x88 ||| br), .stop] = _
  rw [h0, h1, h2, h3]
  rfl

theorem or_shift_ite (c : Prop) [Decidable c] (x y k : Nat) :
    (if c then x ||| (y <<< k) else x) = x ||| ((if c then y else 0) <<< k) := by
  split_ifs <;> simp

theorem or_ite (c : Prop) [Decidable c] (x y : Nat) :
    (if c then x ||| y else x) = x ||| (if c then y else 0) := by
  split_ifs <;> simp

/-- The segment byte of a digit position: the pattern of `d` when the position
is shown, blank otherwise. -/
theorem slot_lt (c : Prop) [Decidable c] (d : Int) (h0 : 0 ≤ d) (h1 : d < 10) :
    (if c then digitToSegments d else 0) < 256 := by
  have := (digitToSegments_digit d h0 h1).1
  split_ifs <;> omega

/-- The word built for a number `v` in `0 .. 9999`. -/
theorem displayNumData_nonneg (v : Int) (lz : Bool) (h0 : 0 ≤ v) (h1 : v ≤ 9999) :
    displayNumData v lz =
      16777216 * digitToSegments (v % 10) +
      65536 * (if lz = true ∨ 10 ≤ v then digitToSegments (v / 10 % 10) else 0) +
      256 * (if lz = true ∨ 100 ≤ v then digitToSegments (v / 100 % 10) else 0) +
      (if lz = true ∨ 1000 ≤ v then digitToSegments (v / 1000 % 10) else 0) := by
  have hr : ¬ (v < -999 ∨ v > 9999) := by omega
  have hm : ¬ v < 0 := by omega
  unfold displayNumData
  simp only [hr, hm, if_false, decide_False, Bool.false_eq_true]
  rw [@Int.tdiv_eq_ediv v 10 h0 (by decide), @Int.tdiv_eq_ediv (v / 10) 10 (by omega) (by decide),
    @Int.tdiv_eq_ediv (v / 10 / 10) 10 (by omega) (by decide),
    @Int.tmod_eq_emod v 10 h0 (by decide), @Int.tmod_eq_emod (v / 10) 10 (by omega) (by decide),
    @Int.tmod_eq_emod (v / 10 / 10) 10 (by omega) (by decide),
    @Int.tmod_eq_emod (v / 10 / 10 / 10) 10 (by omega) (by decide)]
  have e1 : v / 10 / 10 = v / 100 := by omega
  have e2 : v / 100 / 10 = v / 1000 := by omega
  rw [e1, e2]
  have c1 : (lz = true ∨ v / 10 ≠ 0) ↔ (lz = true ∨ 10 ≤ v) := by
    constructor <;> (rintro (h | h); exact Or.inl h; exact Or.inr (by omega))
  have c2 : (lz = true ∨ v / 100 ≠ 0) ↔ (lz = true ∨ 100 ≤ v) := by
    constructor <;> (rintro (h | h); exact Or.inl h; exact Or.inr (by omega))
  have c3 : (lz = true ∨ v / 1000 ≠ 0) ↔ (lz = true ∨ 1000 ≤ v) := by
    constructor <;> (rintro (h | h); exact Or.inl h; exact Or.inr (by omega))
  simp only [c1, c2, c3]
  rw [or_shift_ite, or_shift_ite, or_ite]
  exact pack_eq _ _ _ _ (slot_lt _ _ (by omega) (by omega)) (slot_lt _ _ (by omega) (by omega))
    (slot_lt _ _ (by omega) (by omega))

/-- The word built for a number `v` in `-999 .. -1`, with `a` its absolute
value. -/
theorem displayNumData_neg (v : Int) (lz : Bool) (h0 : -999 ≤ v) (h1 : v < 0) :
    displayNumData v lz =
      16777216 * digitToSegments (-v % 10) +
      65536 * (if lz = true ∨ 10 ≤ -v then digitToSegments (-v / 10 % 10) else 0) +
      256 * (if lz = true ∨ 100 ≤ -v then digitToSegments (-v / 100 % 10) else 0) +
      MINUS := by
  have hr : ¬ (v < -999 ∨ v > 9999) := by omega
  unfold displayNumData
  simp only [hr, h1, if_false, if_true, decide_True]
  rw [@Int.tdiv_eq_ediv (-v) 10 (by omega) (by decide),
    @Int.tdiv_eq_ediv (-v / 10) 10 (by omega) (by decide),
    @Int.tmod_eq_emod (-v) 10 (by omega) (by decide),
    @Int.tmod_eq_emod (-v / 10) 10 (by omega) (by decide),
    @Int.tmod_eq_emod (-v / 10 / 10) 10 (by omega) (by decide)]
  have e1 : -v / 10 / 10 = -v / 100 := by omega
  rw [e1]
  have c1 : (lz = true ∨ -v / 10 ≠ 0) ↔ (lz = true ∨ 10 ≤ -v) := by
    constructor <;> (rintro (h | h); exact Or.inl h; exact Or.inr (by omega))
  have c2 : (lz = true ∨ -v / 100 ≠ 0) ↔ (lz = true ∨ 100 ≤ -v) := by
    constructor <;> (rintro (h | h); exact Or.inl h; exact Or.inr (by omega))
  simp only [c1, c2]
  rw [or_shift_ite, or_shift_ite]
  exact pack_eq _ _ _ _ (slot_lt _ _ (by omega) (by omega)) (slot_lt _ _ (by omega) (by omega))
    (by decide)

/-- The command sequence of `displayNum` for `v` in `0 .. 9999`. -/
theorem displayNum_nonneg (br : Nat) (v : Int) (lz : Bool) (h0 : 0 ≤ v) (h1 : v ≤ 9999) :
    displayNum br v lz = sends br
      (if lz = true ∨ 1000 ≤ v then digitToSegments (v / 1000 % 10) else 0)
      (if lz = true ∨ 100 ≤ v then digitToSegments (v / 100 % 10) else 0)
      (if lz = true ∨ 10 ≤ v then digitToSegments (v / 10 % 10) else 0)
      (digitToSegments (v % 10)) := by
  unfold displayNum
  rw [displayNumData_nonneg v lz h0 h1]
  exact display32_pack br _ _ _ _
    (by have := (digitToSegments_digit (v % 10) (by omega) (by omega)).1; omega)
    (slot_lt _ _ (by omega) (by omega)) (slot_lt _ _ (by omega) (by omega))
    (slot_lt _ _ (by omega) (by omega))

/-- The command sequence of `displayNum` for `v` in `-999 .. -1`. -/
theorem displayNum_neg (br : Nat) (v : Int) (lz : Bool) (h0 : -999 ≤ v) (h1 : v < 0) :
    displayNum br v lz = sends br MINUS
      (if lz = true ∨ 100 ≤ -v then digitToSegments (-v / 100 % 10) else 0)
      (if lz = true ∨ 10 ≤ -v then digitToSegments (-v / 10 % 10) else 0)
      (digitToSegments (-v % 10)) := by
  unfold displayNum
  rw [displayNumData_neg v lz h0 h1]
  exact display32_pack br _ _ _ _
    (by have := (digitToSegments_digit (-v % 10) (by omega) (by omega)).1; omega)
    (slot_lt _ _ (by omega) (by omega)) (slot_lt _ _ (by omega) (by omega))
    (by decide)

end TM1637

namespace TM1637

theorem slot_decode (c : Prop) [Decidable c] (d : Int) (h0 : 0 ≤ d) (h1 : d < 10)
    (hz : ¬ c → d = 0) :
    decodeDigit (if c then digitToSegments d else 0) = some d.toNat ∧
    (if c then digitToSegments d else 0) ≠ MINUS := by
  have hd := digitToSegments_digit d h0 h1
  split_ifs with hc
  · exact ⟨hd.2.2.2.2, hd.2.2.1⟩
  · rw [hz hc]; exact ⟨by decide, by decide⟩

theorem frame_sends (br s0 s1 s2 s3 : Nat) : frame (sends br s0 s1 s2 s3) = [s0, s1, s2, s3] :=
  rfl

theorem decodeFrame_digits (s0 s1 s2 s3 d0 d1 d2 d3 : Nat) (h : s0 ≠ MINUS)
    (e0 : decodeDigit s0 = some d0) (e1 : decodeDigit s1 = some d1)
    (e2 : decodeDigit s2 = some d2) (e3 : decodeDigit s3 = some d3) :
    decodeFrame [s0, s1, s2, s3] = some ((1000 * d0 + 100 * d1 + 10 * d2 + d3 : Nat) : Int) := by
  simp only [decodeFrame, if_neg h, e0, e1, e2, e3]

theorem decodeFrame_minus (s1 s2 s3 d1 d2 d3 : Nat)
    (e1 : decodeDigit s1 = some d1) (e2 : decodeDigit s2 = some d2)
    (e3 : decodeDigit s3 = some d3) :
    decodeFrame [MINUS, s1, s2, s3] = some (-((100 * d1 + 10 * d2 + d3 : Nat) : Int)) := by
  simp only [decodeFrame, if_true, e1, e2, e3]

theorem decode_nonneg (br : Nat) (v : Int) (lz : Bool) (h0 : 0 ≤ v) (h1 : v ≤ 9999) :
    decodeFrame (frame (displayNum br v lz)) = some v := by
  rw [displayNum_nonneg br v lz h0 h1, frame_sends]
  have d0 := digitToSegments_digit (v % 10) (by omega) (by omega)
  have d1 := slot_decode (lz = true ∨ 10 ≤ v) (v / 10 % 10) (by omega) (by omega)
    (by intro hc; have : ¬ 10 ≤ v := fun h => hc (Or.inr h); omega)
  have d2 := slot_decode (lz = true ∨ 100 ≤ v) (v / 100 % 10) (by omega) (by omega)
    (by intro hc; have : ¬ 100 ≤ v := fun h => hc (Or.inr h); omega)
  have d3 := slot_decode (lz = true ∨ 1000 ≤ v) (v / 1000 % 10) (by omega) (by omega)
    (by intro hc; have : ¬ 1000 ≤ v := fun h => hc (Or.inr h); omega)
  rw [decodeFrame_digits _ _ _ _ _ _ _ _ d3.2 d3.1 d2.1 d1.1 d0.2.2.2.2]
  congr 1
  omega

theorem decode_neg (br : Nat) (v : Int) (lz : Bool) (h0 : -999 ≤ v) (h1 : v < 0) :
    decodeFrame (frame (displayNum br v lz)) = some v := by
  rw [displayNum_neg br v lz h0 h1, frame_sends]
  have d0 := digitToSegments_digit (-v % 10) (by omega) (by omega)
  have d1 := slot_decode (lz = true ∨ 10 ≤ -v) (-v / 10 % 10) (by omega) (by omega)
    (by intro hc; have : ¬ 10 ≤ -v := fun h => hc (Or.inr h); omega)
  have d2 := slot_decode (lz = true ∨ 100 ≤ -v) (-v / 100 % 10) (by omega) (by omega)
    (by intro hc; have : ¬ 100 ≤ -v := fun h => hc (Or.inr h); omega)
  rw [decodeFrame_minus _ _ _ _ _ _ d2.1 d1.1 d0.2.2.2.2]
  congr 1
  omega

end TM1637

/-- C6 as stated fails at 10: `digitToSegments(10)` is the blank byte `0x00`,
not the minus pattern `0x40`. -/
theorem digitToSegments_counterexample :
    TM1637.digitToSegments 10 = 0x00 ∧ TM1637.digitToSegments 10 ≠ 0x40 := by
  decide

/-- C6, amended: `digitToSegments` is total on every `int8_t` value `d`. The
digits 0 to 9 map to the patterns 0x3F, 0x06, 0x5B, 0x4F, 0x66, 0x6D, 0x7D,
0x07, 0x7F, 0x6F; every negative value maps to the minus pattern 0x40; every
value of 10 or more maps to the blank byte 0x00. -/
theorem digitToSegments_values (d : Int) (hlo : -128 ≤ d) (hhi : d ≤ 127) :
    (d < 0 → TM1637.digitToSegments d = 0x40) ∧
    (10 ≤ d → TM1637.digitToSegments d = 0x00) ∧
    (0 ≤ d → d < 10 → TM1637.digitToSegments d =
      [0x3F, 0x06, 0x5B, 0x4F, 0x66, 0x6D, 0x7D, 0x07, 0x7F, 0x6F].getD d.toNat 0) ∧
    (List.range 10).map (fun n => TM1637.digitToSegments (n : Int)) =
      [0x3F, 0x06, 0x5B, 0x4F, 0x66, 0x6D, 0x7D, 0x07, 0x7F, 0x6F] := by
  refine ⟨?_, ?_, ?_, by decide⟩
  · intro h
    unfold TM1637.digitToSegments
    rw [if_pos h]; rfl
  · intro h
    unfold TM1637.digitToSegments
    rw [if_neg (by omega), if_neg (by omega)]
  · intro h0 h1
    interval_cases d <;> decide

/-- C6, amended, at the values -1, 10 and 7. -/
theorem digitToSegments_values_witness :
    TM1637.digitToSegments (-1) = 0x40 ∧ TM1637.digitToSegments 10 = 0x00 ∧
    TM1637.digitToSegments 7 = 0x07 :=
  ⟨(digitToSegments_values (-1) (by decide) (by decide)).1 (by decide),
   (digitToSegments_values 10 (by decide) (by decide)).2.1 (by decide),
   (digitToSegments_values 7 (by decide) (by decide)).2.2.1 (by decide) (by decide)⟩

/-- C7: for every `v` in `0 .. 9999`, `displayNum(v, false)` sends the frame
whose position 3 (sent last, the rightmost digit) is the pattern of `v mod 10`
and whose position `k` in 0, 1, 2 is the pattern of the digit
`(v / 10 ^ (3 - k)) mod 10` if `v ≥ 10 ^ (3 - k)` and the blank byte `0x00`
otherwise; position 0 is the first byte sent after the start address. -/
theorem displayNum_suppresses_leading_zeros (br : Nat) (v : Int) (h0 : 0 ≤ v) (h1 : v ≤ 9999) :
    TM1637.displayNum br v false = TM1637.sends br
      (if 1000 ≤ v then TM1637.digitToSegments (v / 1000 % 10) else 0x00)
      (if 100 ≤ v then TM1637.digitToSegments (v / 100 % 10) else 0x00)
      (if 10 ≤ v then TM1637.digitToSegments (v / 10 % 10) else 0x00)
      (TM1637.digitToSegments (v % 10)) := by
  have h := TM1637.displayNum_nonneg br v false h0 h1
  simpa using h

/-- C7 at the literal cases 0, 7, 42 and 9999. -/
theorem displayNum_suppresses_leading_zeros_witness :
    TM1637.displayNum 2 0 false = TM1637.sends 2 0x00 0x00 0x00 0x3F ∧
    TM1637.displayNum 2 7 false = TM1637.sends 2 0x00 0x00 0x00 0x07 ∧
    TM1637.displayNum 2 42 false = TM1637.sends 2 0x00 0x00 0x66 0x5B ∧
    TM1637.displayNum 2 9999 false = TM1637.sends 2 0x6F 0x6F 0x6F 0x6F :=
  ⟨displayNum_suppresses_leading_zeros 2 0 (by decide) (by decide),
   displayNum_suppresses_leading_zeros 2 7 (by decide) (by decide),
   displayNum_suppresses_leading_zeros 2 42 (by decide) (by decide),
   displayNum_suppresses_leading_zeros 2 9999 (by decide) (by decide)⟩

/-- C8: for every negative `v` in `-999 .. -1` and either flag, `displayNum`
sends the minus pattern `0x40` in position 0 and the hundreds, tens and units
of `|v|` in positions 1, 2, 3; the hundreds and the tens are blank (`0x00`)
when they are leading zeros and the flag is off, and are shown (a leading
zero as the pattern of 0) when the flag is on. -/
theorem displayNum_negative (br : Nat) (v : Int) (lz : Bool) (h0 : -999 ≤ v) (h1 : v ≤ -1) :
    TM1637.displayNum br v lz = TM1637.sends br 0x40
      (if lz = true ∨ 100 ≤ |v| then TM1637.digitToSegments (|v| / 100 % 10) else 0x00)
      (if lz = true ∨ 10 ≤ |v| then TM1637.digitToSegments (|v| / 10 % 10) else 0x00)
      (TM1637.digitToSegments (|v| % 10)) := by
  have ha : |v| = -v := abs_of_neg (by omega)
  rw [ha]
  exact TM1637.displayNum_neg br v lz h0 (by omega)

/-- C8 at the literal case -5, with the flag off and with the flag on. -/
theorem displayNum_negative_witness :
    TM1637.displayNum 2 (-5) false = TM1637.sends 2 0x40 0x00 0x00 0x6D ∧
    TM1637.displayNum 2 (-5) true = TM1637.sends 2 0x40 0x3F 0x3F 0x6D :=
  ⟨displayNum_negative 2 (-5) false (by decide) (by decide),
   displayNum_negative 2 (-5) true (by decide) (by decide)⟩

namespace TM1637

theorem displayNum_over (br : Nat) (v : Int) (lz : Bool) (hv : v < -999 ∨ v > 9999) :
    displayNum br v lz = sends br 0x3F 0x1C 0x79 0x50 := by
  unfold displayNum displayNumData
  rw [if_pos hv]
  rfl

theorem frame_in_range_last (br : Nat) (w : Int) (lz : Bool) (h0 : -999 ≤ w) (h1 : w ≤ 9999) :
    ∃ s0 s1 s2 s3, frame (displayNum br w lz) = [s0, s1, s2, s3] ∧ s3 ≠ 0x50 := by
  by_cases hn : w < 0
  · rw [displayNum_neg br w lz h0 hn, frame_sends]
    exact ⟨_, _, _, _, rfl, (digitToSegments_digit (-w % 10) (by omega) (by omega)).2.2.2.1⟩
  · rw [displayNum_nonneg br w lz (by omega) h1, frame_sends]
    exact ⟨_, _, _, _, rfl, (digitToSegments_digit (w % 10) (by omega) (by omega)).2.2.2.1⟩

end TM1637

/-- C9: for every `v` below -999 or above 9999 and either flag, `displayNum`
sends the fixed frame `0x3F, 0x1C, 0x79, 0x50` (left to right), and no `w` in
`-999 .. 9999` with any flag makes it send that frame. -/
theorem displayNum_out_of_range (br : Nat) (v : Int) (lz : Bool) (hv : v < -999 ∨ 9999 < v) :
    TM1637.displayNum br v lz = TM1637.sends br 0x3F 0x1C 0x79 0x50 ∧
    TM1637.frame (TM1637.displayNum br v lz) = [0x3F, 0x1C, 0x79, 0x50] ∧
    ∀ (w : Int) (lz' : Bool), -999 ≤ w → w ≤ 9999 →
      TM1637.frame (TM1637.displayNum br w lz') ≠ TM1637.frame (TM1637.displayNum br v lz) := by
  have h := TM1637.displayNum_over br v lz hv
  refine ⟨h, by rw [h]; rfl, ?_⟩
  intro w lz' h0 h1 heq
  obtain ⟨s0, s1, s2, s3, hf, hne⟩ := TM1637.frame_in_range_last br w lz' h0 h1
  rw [h, hf, TM1637.frame_sends] at heq
  simp only [List.cons.injEq] at heq
  exact hne heq.2.2.2.1

/-- C9 at the literal cases 10000 and -1000. -/
theorem displayNum_out_of_range_witness :
    TM1637.frame (TM1637.displayNum 2 10000 false) = [0x3F, 0x1C, 0x79, 0x50] ∧
    TM1637.frame (TM1637.displayNum 2 (-1000) true) = [0x3F, 0x1C, 0x79, 0x50] :=
  ⟨(displayNum_out_of_range 2 10000 false (by decide)).2.1,
   (displayNum_out_of_range 2 (-1000) true (by decide)).2.1⟩

/-- C10: the round trip of `displayNum`. Reading a frame with `decodeFrame`
(a blank position is no digit, the minus pattern in the leftmost position is
a negative sign, a digit pattern is its digit) gives back `v` from the frame
that `displayNum(v, flag)` sends, for every `v` in `-999 .. 9999` and either
flag; hence for a fixed flag two numbers of that range that send the same
frame are equal. -/
theorem displayNum_round_trip (br : Nat) (v : Int) (lz : Bool) (h0 : -999 ≤ v) (h1 : v ≤ 9999) :
    TM1637.decodeFrame (TM1637.frame (TM1637.displayNum br v lz)) = some v ∧
    ∀ w : Int, -999 ≤ w → w ≤ 9999 →
      TM1637.frame (TM1637.displayNum br w lz) = TM1637.frame (TM1637.displayNum br v lz) →
      w = v := by
  have hdec : ∀ u : Int, -999 ≤ u → u ≤ 9999 →
      TM1637.decodeFrame (TM1637.frame (TM1637.displayNum br u lz)) = some u := by
    intro u hu0 hu1
    by_cases hn : u < 0
    · exact TM1637.decode_neg br u lz hu0 hn
    · exact TM1637.decode_nonneg br u lz (by omega) hu1
  refine ⟨hdec v h0 h1, ?_⟩
  intro w hw0 hw1 heq
  have h := hdec w hw0 hw1
  rw [heq, hdec v h0 h1] at h
  exact (Option.some.inj h).symm

/-- C10 at the number -40 with the flag off: the frame sent is read back
as -40. -/
theorem displayNum_round_trip_witness :
    TM1637.decodeFrame (TM1637.frame (TM1637.displayNum 2 (-40) false)) = some (-40) :=
  (displayNum_round_trip 2 (-40) false (by decide) (by decide)).1

/-! ## The render step: blinking and solid sides -/

theorem phaseTicks_add (a b u : Nat) :
    phaseTicks u (a + b) = phaseTicks u a + phaseTicks (u + a) b := by
  induction a generalizing u with
  | zero => simp [phaseTicks]
  | succ a ih =>
    have h : a + 1 + b = (a + b) + 1 := by omega
    rw [h]
    simp only [phaseTicks]
    rw [ih (u + 1)]
    have h2 : u + 1 + a = u + (a + 1) := by omega
    rw [h2]
    omega

set_option maxRecDepth 100000 in
theorem phaseTicks_zero : phaseTicks 0 500 = 250 := by decide

theorem phaseTicks_window (u : Nat) : phaseTicks u 500 = 250 := by
  induction u with
  | zero => exact phaseTicks_zero
  | succ u ih =>
    have h1 : phaseTicks u (1 + 500) = phaseTicks u 1 + phaseTicks (u + 1) 500 :=
      phaseTicks_add 1 500 u
    have h2 : phaseTicks u (500 + 1) = phaseTicks u 500 + phaseTicks (u + 500) 1 :=
      phaseTicks_add 500 1 u
    have h3 : phaseTicks u 1 = if u % 500 < 250 then 1 else 0 := by simp [phaseTicks]
    have h4 : phaseTicks (u + 500) 1 = if u % 500 < 250 then 1 else 0 := by
      simp [phaseTicks]
    have h5 : (1 + 500 : Nat) = 500 + 1 := rfl
    rw [h5, h2, ih, h3, h4] at h1
    omega

namespace V4

theorem draw_active (i u : Nat) : draw (RUN_LEFT + i) u i = decide (u % 500 < 250) := by
  simp [draw]

theorem drawnTicks_no_wrap (i n u : Nat) (h : u + n ≤ 65536) :
    drawnTicks (RUN_LEFT + i) i u n = phaseTicks u n := by
  induction n generalizing u with
  | zero => rfl
  | succ n ih =>
    simp only [drawnTicks, phaseTicks, draw_active, decide_eq_true_eq]
    by_cases hn : n = 0
    · subst hn; rfl
    · rw [Nat.mod_eq_of_lt (show u + 1 < 65536 by omega), ih (u + 1) (by omega)]

end V4

namespace V0

theorem draw_active0 (i u : Nat) : draw (RUN_LEFT + i) u i = decide (u % 500 < 250) := by
  simp [draw]

theorem drawnTicks0_no_wrap (i n u : Nat) (h : u + n ≤ 4294967296) :
    drawnTicks (RUN_LEFT + i) i u n = phaseTicks u n := by
  induction n generalizing u with
  | zero => rfl
  | succ n ih =>
    simp only [drawnTicks, phaseTicks, draw_active0, decide_eq_true_eq]
    by_cases hn : n = 0
    · subst hn; rfl
    · rw [Nat.mod_eq_of_lt (show u + 1 < 4294967296 by omega), ih (u + 1) (by omega)]

end V0

namespace V4

theorem renderSide_zero_shape (s : State) (u : Nat) :
    ∃ a0 a1, renderSide s u 0 [0, 0, 0, 0] = [a0, a1, 0, 0] := by
  unfold renderSide
  split_ifs <;> exact ⟨_, _, rfl⟩

theorem cells_eq (s : State) (u i : Nat) (hi : i < 2) :
    cells s u i =
      if draw s.runstate u i = true then
        if getScore s i ≠ 0 then
          (DIGITS.getD (getScore s i / 10) 0, DIGITS.getD (getScore s i % 10) 0 ||| DOT)
        else (MINUS, MINUS ||| DOT)
      else (0, DOT) := by
  have hi' : i = 0 ∨ i = 1 := by omega
  obtain ⟨a0, a1, ha⟩ := renderSide_zero_shape s u
  rcases hi' with rfl | rfl
  · unfold cells render
    rw [ha]
    have hb : ∃ b0 b1, renderSide s u 1 [a0, a1, 0, 0] = [a0, a1, b0, b1] := by
      unfold renderSide
      split_ifs <;> exact ⟨_, _, rfl⟩
    obtain ⟨b0, b1, hb⟩ := hb
    rw [hb]
    show (a0, a1) = _
    unfold renderSide at ha
    split_ifs at ha ⊢ <;> (cases ha; rfl)
  · unfold cells render
    rw [ha]
    unfold renderSide
    split_ifs <;> rfl

theorem digit_pattern (d : Nat) (h : d < 10) :
    TM1637.decodeDigit (DIGITS.getD d 0) = some d ∧ DIGITS.getD d 0 < 128 ∧
    DIGITS.getD d 0 ≠ 0 ∧
    DIGITS.getD d 0 = TM1637.digitToSegments (d : Int) ∧
    128 ≤ (DIGITS.getD d 0 ||| DOT) ∧ (DIGITS.getD d 0 ||| DOT) - 128 = DIGITS.getD d 0 := by
  interval_cases d <;> decide

end V4

namespace V0

theorem renderSide_inactive (t : State) (u i : Nat) (h : t.runstate ≠ RUN_LEFT + i) :
    renderSide t u i =
      if getScore t i ≠ 0 then
        [(i * 2, TM1637.digitToSegments ((getScore t i / 10 : Nat) : Int)),
         (i * 2 + 1, TM1637.digitToSegments ((getScore t i % 10 : Nat) : Int) ||| TM1637.DOT)]
      else [(i * 2, TM1637.MINUS), (i * 2 + 1, TM1637.MINUS ||| TM1637.DOT)] := by
  unfold renderSide draw
  simp [h]

end V0

set_option maxRecDepth 100000 in
theorem V4.drawnTicks_across_wrap :
    V4.drawnTicks (V4.RUN_LEFT + 0) 0 65500 500 = 286 ∧
    V0.drawnTicks (V0.RUN_LEFT + 0) 0 4294967000 500 = 454 := by
  constructor <;> decide

/-- C11 as stated fails for a window that crosses the wrap of the counter. In
`src/4` the 500 ticks from counter value 65500 on draw the active side on 286
ticks (36 before the wrap, then the 250 from 0 on); in `src/0` the 500
milliseconds from 4294967000 on draw it on 454. -/
theorem blink_window_counterexample :
    V4.drawnTicks (V4.RUN_LEFT + 0) 0 65500 500 = 286 ∧
    V4.drawnTicks (V4.RUN_LEFT + 0) 0 65500 500 ≠ 250 ∧
    V0.drawnTicks (V0.RUN_LEFT + 0) 0 4294967000 500 = 454 :=
  ⟨V4.drawnTicks_across_wrap.1, by rw [V4.drawnTicks_across_wrap.1]; decide,
   V4.drawnTicks_across_wrap.2⟩

/-- C11, amended: while side `i` stays active, over any window of 500
consecutive ticks that does not cross the wrap of the tick counter (16 bits
in `src/4`, 32 bits in `src/0`), the side is drawn on exactly 250 ticks, those
with `uptime % 500 < 250`, and is not drawn on the other 250; drawn, its two
bytes are the solid pair of its score, and not drawn they are the blank pair
`0x00`, `0x80`. -/
theorem blink_duty_cycle (s : V4.State) (t : V0.State) (i u v : Nat) (hi : i < 2)
    (hs : s.runstate = V4.RUN_LEFT + i) (ht : t.runstate = V0.RUN_LEFT + i)
    (hu : u + 500 ≤ 65536) (hv : v + 500 ≤ 4294967296) :
    V4.drawnTicks s.runstate i u 500 = 250 ∧
    V0.drawnTicks t.runstate i v 500 = 250 ∧
    (∀ x, V4.draw s.runstate x i = true ↔ x % 500 < 250) ∧
    (∀ x, V0.draw t.runstate x i = true ↔ x % 500 < 250) ∧
    (∀ x, x % 500 < 250 → V4.cells s x i =
      if V4.getScore s i ≠ 0 then
        (V4.DIGITS.getD (V4.getScore s i / 10) 0, V4.DIGITS.getD (V4.getScore s i % 10) 0 ||| 0x80)
      else (0x40, 0x40 ||| 0x80)) ∧
    (∀ x, ¬ x % 500 < 250 → V4.cells s x i = (0x00, 0x80)) ∧
    (∀ x, ¬ x % 500 < 250 → V0.renderSide t x i = [(i * 2, 0x00), (i * 2 + 1, 0x80)]) := by
  have d4 : ∀ x, V4.draw s.runstate x i = true ↔ x % 500 < 250 := by
    intro x; rw [hs, V4.draw_active]; simp
  have d0 : ∀ x, V0.draw t.runstate x i = true ↔ x % 500 < 250 := by
    intro x; rw [ht, V0.draw_active0]; simp
  refine ⟨?_, ?_, d4, d0, ?_, ?_, ?_⟩
  · rw [hs, V4.drawnTicks_no_wrap i 500 u hu]; exact phaseTicks_window u
  · rw [ht, V0.drawnTicks0_no_wrap i 500 v hv]; exact phaseTicks_window v
  · intro x hx
    rw [V4.cells_eq s x i hi, if_pos ((d4 x).2 hx)]
    rfl
  · intro x hx
    rw [V4.cells_eq s x i hi, if_neg (fun h => hx ((d4 x).1 h))]
    rfl
  · intro x hx
    unfold V0.renderSide
    rw [if_neg (fun h => hx ((d0 x).1 h))]
    rfl

/-- C11, amended, at a concrete input: side 1 active with score 12, window of
500 ticks from counter value 1000 on. -/
theorem blink_duty_cycle_witness :
    V4.drawnTicks V4.rightActive.runstate 1 1000 500 = 250 ∧
    V4.cells V4.rightActive 1300 1 = (0x00, 0x80) :=
  have h := blink_duty_cycle V4.rightActive V0.rightActiveClick 1 1000 1000 (by decide) rfl rfl
    (by decide) (by decide)
  ⟨h.1, h.2.2.2.2.2.1 1300 (by decide)⟩

/-- C12: in the render step of `src/4`, the two bytes of a side `i` that is
not the active side (both sides when idle) depend only on `score[i]`, whatever
the tick: for score 0 they are the double minus `0x40`, `0xC0`; for a score
`sc` in `1 .. 99` they are the pattern of `sc / 10` and the pattern of
`sc % 10` with the dot bit `0x80`, and read back as `sc`. The render loop of
`src/0` passes the same two bytes to the display. -/
theorem inactive_side_renders_solid (s s' : V4.State) (t : V0.State) (u u' i : Nat)
    (hi : i < 2)
    (hna : s.runstate ≠ V4.RUN_LEFT + i) (hna' : s'.runstate ≠ V4.RUN_LEFT + i)
    (hsame : V4.getScore s' i = V4.getScore s i)
    (ht : t.runstate ≠ V0.RUN_LEFT + i) (hts : V0.getScore t i = V4.getScore s i) :
    V4.cells s' u' i = V4.cells s u i ∧
    (V4.getScore s i ≤ 99 →
      V0.renderSide t u i = [(i * 2, (V4.cells s u i).1), (i * 2 + 1, (V4.cells s u i).2)]) ∧
    (V4.getScore s i = 0 → V4.cells s u i = (0x40, 0xC0)) ∧
    (1 ≤ V4.getScore s i → V4.getScore s i ≤ 99 →
      V4.cells s u i =
        (TM1637.digitToSegments ((V4.getScore s i / 10 : Nat) : Int),
         TM1637.digitToSegments ((V4.getScore s i % 10 : Nat) : Int) ||| 0x80) ∧
      TM1637.decodePair (V4.cells s u i) = some (V4.getScore s i)) := by
  have hd : ∀ (r : V4.State) (x : Nat), r.runstate ≠ V4.RUN_LEFT + i →
      V4.draw r.runstate x i = true := by
    intro r x hr; unfold V4.draw; simp [hr]
  have hc : ∀ (r : V4.State) (x : Nat), r.runstate ≠ V4.RUN_LEFT + i →
      V4.cells r x i =
        if V4.getScore r i ≠ 0 then
          (V4.DIGITS.getD (V4.getScore r i / 10) 0,
           V4.DIGITS.getD (V4.getScore r i % 10) 0 ||| V4.DOT)
        else (V4.MINUS, V4.MINUS ||| V4.DOT) := by
    intro r x hr
    rw [V4.cells_eq r x i hi, if_pos (hd r x hr)]
  refine ⟨by rw [hc s' u' hna', hc s u hna, hsame], ?_, ?_, ?_⟩
  · intro h2
    rw [V0.renderSide_inactive t u i ht, hc s u hna, hts]
    by_cases hz : V4.getScore s i = 0
    · rw [hz]; rfl
    · rw [if_pos hz, if_pos hz,
        (V4.digit_pattern (V4.getScore s i / 10) (by omega)).2.2.2.1,
        (V4.digit_pattern (V4.getScore s i % 10) (by omega)).2.2.2.1]
      rfl
  · intro hz
    rw [hc s u hna, hz]; rfl
  · intro h1 h2
    have hz : V4.getScore s i ≠ 0 := by omega
    have p1 := V4.digit_pattern (V4.getScore s i / 10) (by omega)
    have p0 := V4.digit_pattern (V4.getScore s i % 10) (by omega)
    rw [hc s u hna, if_pos hz]
    refine ⟨by rw [p1.2.2.2.1, p0.2.2.2.1]; rfl, ?_⟩
    unfold TM1637.decodePair
    show (if V4.DIGITS.getD (V4.getScore s i % 10) 0 ||| V4.DOT < 128 then none else
      match TM1637.decodeDigit (V4.DIGITS.getD (V4.getScore s i / 10) 0),
        TM1637.decodeDigit ((V4.DIGITS.getD (V4.getScore s i % 10) 0 ||| V4.DOT) - 128) with
      | some d1, some d0 => some (10 * d1 + d0)
      | _, _ => none) = _
    rw [if_neg (by have := p0.2.2.2.2.1; omega), p0.2.2.2.2.2, p1.1, p0.1]
    show some _ = some _
    congr 1
    omega

/-- C12 at a concrete input: side 0 of a state with side 1 active, score 20,
at ticks 300 and 0. -/
theorem inactive_side_renders_solid_witness :
    V4.cells V4.rightActive 300 0 = (0x5B, 0x3F ||| 0x80) ∧
    TM1637.decodePair (V4.cells V4.rightActive 300 0) = some 20 :=
  (inactive_side_renders_solid V4.rightActive V4.rightActive V0.rightActiveClick 300 0 0
    (by decide) (by decide) (by decide) rfl (by decide) rfl).2.2.2 (by decide) (by decide)

/-! ## Activation of a side -/

namespace V4

theorem held_of_clicks (i : Nat) (s : State) (h : clicks i s = true) : held i s = click s i := by
  unfold clicks at h
  simp only [Bool.and_eq_true, decide_eq_true_eq, Bool.not_eq_true', decide_eq_false_iff_not] at h
  unfold held
  rw [if_pos h.1.1, if_neg h.1.2, if_pos h.2]

theorem held_of_quiet (i : Nat) (s : State) (hc : clicks i s = false) (hr : resets i s = false) :
    held i s = s := by
  unfold held
  by_cases h1 : getPressed s i ≥ DEBOUNCE_TIME
  · by_cases h2 : i ≠ 0 ∧ getPressed s 0 ≥ DEBOUNCE_TIME
    · unfold resets at hr
      simp [h1, h2] at hr
    · rw [if_pos h1, if_neg h2]
      unfold clicks at hc
      simp only [h1, h2, decide_True, decide_False, Bool.not_false, Bool.true_and] at hc
      rw [hc]
      rfl
  · rw [if_neg h1]

theorem button_of_quiet (pinb j : Nat) (s : State)
    (h : (pressed pinb j && (clicks j (countPress j s) || resets j (countPress j s))) = false) :
    (button pinb j s).runstate = s.runstate ∧ (button pinb j s).brightness = s.brightness ∧
    (button pinb j s).stateTime = s.stateTime ∧ (button pinb j s).ms = s.ms ∧
    (button pinb j s).score0 = s.score0 ∧ (button pinb j s).score1 = s.score1 := by
  unfold button
  by_cases hp : pressed pinb j = true
  · rw [hp] at h
    simp only [Bool.true_and, Bool.or_eq_false_iff] at h
    rw [if_pos hp, held_of_quiet j _ h.1 h.2]
    unfold countPress setPressed
    split_ifs <;> exact ⟨rfl, rfl, rfl, rfl, rfl, rfl⟩
  · rw [if_neg hp]
    unfold setPressed
    split_ifs <;> exact ⟨rfl, rfl, rfl, rfl, rfl, rfl⟩

theorem click_idle (s : State) (i : Nat) (h : s.runstate = RUN_IDLE) :
    (click s i).runstate = RUN_LEFT + i ∧ (click s i).brightness = NORMAL_BRIGHT ∧
    (click s i).stateTime = s.ms ∧ (click s i).ms = s.ms ∧
    (click s i).score0 = s.score0 ∧ (click s i).score1 = s.score1 := by
  unfold click millis
  rw [if_pos h]
  exact ⟨rfl, rfl, rfl, rfl, rfl, rfl⟩

theorem button_of_click_idle (pinb j : Nat) (s : State) (h : s.runstate = RUN_IDLE)
    (hc : (pressed pinb j && clicks j (countPress j s)) = true) :
    (button pinb j s).runstate = RUN_LEFT + j ∧ (button pinb j s).brightness = NORMAL_BRIGHT ∧
    (button pinb j s).stateTime = s.ms ∧ (button pinb j s).ms = s.ms ∧
    (button pinb j s).score0 = s.score0 ∧ (button pinb j s).score1 = s.score1 := by
  simp only [Bool.and_eq_true] at hc
  unfold button
  rw [if_pos hc.1, held_of_clicks j _ hc.2]
  have hf := countPress_frame j s
  have hsc := countPress_score j s
  have hi := click_idle (countPress j s) j (by rw [hf.2.2]; exact h)
  rw [hf.1, hsc.1, hsc.2] at hi
  exact hi

end V4

namespace V4

theorem tick_activates (s : State) (pinb i : Nat) (hi : i < 2) (hidle : s.runstate = RUN_IDLE)
    (hclick : clicksAt s pinb i = true) (hquiet : emits s pinb (1 - i) = false) :
    (TIM0_COMPA_vect s pinb).runstate = RUN_LEFT + i ∧
    (TIM0_COMPA_vect s pinb).brightness = NORMAL_BRIGHT ∧
    (TIM0_COMPA_vect s pinb).stateTime = (TIM0_COMPA_vect s pinb).ms ∧
    (TIM0_COMPA_vect s pinb).ms = (s.ms + 1) % 65536 ∧
    (TIM0_COMPA_vect s pinb).score0 = s.score0 ∧
    (TIM0_COMPA_vect s pinb).score1 = s.score1 := by
  have hi' : i = 0 ∨ i = 1 := by omega
  have hc : (countTick s).runstate = RUN_IDLE := hidle
  unfold clicksAt at hclick
  unfold emits at hquiet
  unfold TIM0_COMPA_vect
  rcases hi' with rfl | rfl
  · have h0 := button_of_click_idle pinb 0 (countTick s) hc hclick
    have h1 := button_of_quiet pinb 1 (button pinb 0 (countTick s)) hquiet
    obtain ⟨a1, a2, a3, a4, a5, a6⟩ := h0
    obtain ⟨b1, b2, b3, b4, b5, b6⟩ := h1
    rw [b1, b2, b3, b4, b5, b6, a1, a2, a3, a4, a5, a6]
    exact ⟨rfl, rfl, rfl, rfl, rfl, rfl⟩
  · have h0 := button_of_quiet pinb 0 (countTick s) hquiet
    obtain ⟨a1, a2, a3, a4, a5, a6⟩ := h0
    have h1 := button_of_click_idle pinb 1 (button pinb 0 (countTick s)) (by rw [a1]; exact hc)
      hclick
    obtain ⟨b1, b2, b3, b4, b5, b6⟩ := h1
    rw [b1, b2, b3, b4, b5, b6, a4, a5, a6]
    exact ⟨rfl, rfl, rfl, rfl, rfl, rfl⟩

end V4

namespace V0

theorem loop_activates (t : State) (uptime i : Nat) (hi : i < 2) (hidle : t.runstate = RUN_IDLE)
    (hev : getButtons t i ≠ BTN_RELEASED) (hother : getButtons t (1 - i) = BTN_RELEASED) :
    (loop t uptime).runstate = RUN_LEFT + i ∧
    (loop t uptime).brightness = NORMAL_BRIGHT ∧
    (loop t uptime).stateTime = uptime ∧
    (loop t uptime).score0 = t.score0 ∧
    (loop t uptime).score1 = t.score1 := by
  have hi' : i = 0 ∨ i = 1 := by omega
  rcases hi' with rfl | rfl
  · simp only [getButtons, if_true, if_false, show ¬ (1 - 0 = 0) by decide] at hev hother
    simp [loop, timeout, event, activate, setButtons, getButtons, hidle, hev, hother,
      RUN_LEFT, RUN_IDLE, STATE_DURATION, setBrightness, NORMAL_BRIGHT]
  · simp only [getButtons, if_true, if_false, show ¬ (1 = 0) by decide,
      show (1 - 1 = 0) by decide] at hev hother
    simp [loop, timeout, event, activate, setButtons, getButtons, hidle, hev, hother,
      RUN_LEFT, RUN_IDLE, STATE_DURATION, setBrightness, NORMAL_BRIGHT]

end V0

/-- C13: the transition from idle to active. In `src/4`, when a run of the
tick handler starts idle, button `i` emits a click and the other button
produces no event, the handler returns with the run state at side `i`
(button 0 left, button 1 right), the brightness normal (4), `stateTime` at the
current tick and both scores as they were. In `src/0`, a call of `loop()`
that starts idle with an event latched for button `i` and none for the other
button does the same, with `stateTime` at the time read by the call. -/
theorem first_event_activates_side (s : V4.State) (t : V0.State) (pinb uptime i : Nat)
    (hi : i < 2)
    (hidle4 : s.runstate = V4.RUN_IDLE)
    (hclick : V4.clicksAt s pinb i = true) (hquiet : V4.emits s pinb (1 - i) = false)
    (hidle0 : t.runstate = V0.RUN_IDLE)
    (hev : V0.getButtons t i ≠ V0.BTN_RELEASED)
    (hother : V0.getButtons t (1 - i) = V0.BTN_RELEASED) :
    ((V4.TIM0_COMPA_vect s pinb).runstate = V4.RUN_LEFT + i ∧
      (V4.TIM0_COMPA_vect s pinb).brightness = 4 ∧
      (V4.TIM0_COMPA_vect s pinb).stateTime = (V4.TIM0_COMPA_vect s pinb).ms ∧
      (V4.TIM0_COMPA_vect s pinb).ms = (s.ms + 1) % 65536 ∧
      (V4.TIM0_COMPA_vect s pinb).score0 = s.score0 ∧
      (V4.TIM0_COMPA_vect s pinb).score1 = s.score1) ∧
    ((V0.loop t uptime).runstate = V0.RUN_LEFT + i ∧
      (V0.loop t uptime).brightness = 4 ∧
      (V0.loop t uptime).stateTime = uptime ∧
      (V0.loop t uptime).score0 = t.score0 ∧
      (V0.loop t uptime).score1 = t.score1) :=
  ⟨V4.tick_activates s pinb i hi hidle4 hclick hquiet,
   V0.loop_activates t uptime i hi hidle0 hev hother⟩

/-- C13 at concrete inputs: in `src/4` the 50th tick in a row with button 1
pressed on an idle scoreboard; in `src/0` a latched long click of button 1. -/
theorem first_event_activates_side_witness :
    (V4.TIM0_COMPA_vect V4.idleAlmostClick 0b100).runstate = V4.RUN_RIGHT ∧
    (V4.TIM0_COMPA_vect V4.idleAlmostClick 0b100).stateTime = 1001 ∧
    (V0.loop V0.idleLong 4100).runstate = V0.RUN_RIGHT ∧
    (V0.loop V0.idleLong 4100).score0 = 20 :=
  have h := first_event_activates_side V4.idleAlmostClick V0.idleLong 0b100 4100 1 (by decide)
    rfl (by decide) (by decide) rfl (by decide) (by decide)
  ⟨h.1.1, h.1.2.2.1.trans h.1.2.2.2.1, h.2.1, h.2.2.2.2.1⟩

/-! ## Long clicks and the classification of presses (src/0) -/

namespace V0

theorem event_long (uptime : Nat) (s : State) (k i : Nat) (hk : k < 2) (hi : i < 2)
    (hr : s.runstate = RUN_LEFT + k) (hb : getButtons s i = BTN_LONGCLICK) :
    getScore (event uptime i s) k = (if i = 1 then MAX_SCORE else 0) ∧
    getScore (event uptime i s) (1 - k) = getScore s (1 - k) ∧
    (event uptime i s).runstate = RUN_LEFT + k := by
  have hk' : k = 0 ∨ k = 1 := by omega
  have hi' : i = 0 ∨ i = 1 := by omega
  have hne : getButtons s i ≠ BTN_RELEASED := by rw [hb]; decide
  have hnc : getButtons s i ≠ BTN_CLICK := by rw [hb]; decide
  have hidle : s.runstate ≠ RUN_IDLE := by rw [hr]; unfold RUN_LEFT RUN_IDLE; omega
  have he : event uptime i s =
      setButtons { (setScore s (s.runstate - RUN_LEFT) (if i ≠ 0 then MAX_SCORE else 0)) with
        stateTime := uptime } i BTN_RELEASED := by
    unfold event
    rw [if_pos hne, if_neg hidle]
    unfold edit
    rw [if_neg hnc]
  have hidx : s.runstate - RUN_LEFT = k := by rw [hr]; unfold RUN_LEFT; omega
  rw [he, hidx]
  rcases hk' with rfl | rfl <;> rcases hi' with rfl | rfl <;>
    exact ⟨rfl, rfl, hr⟩

end V0

/-- C14 as stated fails for the increment button: with side 0 active at score
50, the long click of button 1 sets the score to `MAX_SCORE`, 20, not to the
99 at which a click stops incrementing. -/
theorem long_click_counterexample :
    V0.leftActiveLong.runstate = V0.RUN_LEFT + 0 ∧
    V0.getButtons V0.leftActiveLong 1 = V0.BTN_LONGCLICK ∧
    V0.getScore (V0.event 4100 1 V0.leftActiveLong) 0 = 20 ∧
    V0.getScore (V0.event 4100 1 V0.leftActiveLong) 0 ≠ 99 := by
  decide

/-- C14, amended: in `src/0`, handling a long click while side `k` is active
sets `score[k]` to 0 if it comes from button 0 and to `MAX_SCORE`, the 20 both
scores start from, if it comes from button 1; the score of the other side and
the run state are unchanged. -/
theorem long_click_sets_score (s : V0.State) (uptime k i : Nat) (hk : k < 2) (hi : i < 2)
    (hr : s.runstate = V0.RUN_LEFT + k) (hb : V0.getButtons s i = V0.BTN_LONGCLICK) :
    V0.getScore (V0.event uptime i s) k = (if i = 1 then 20 else 0) ∧
    V0.getScore (V0.event uptime i s) (1 - k) = V0.getScore s (1 - k) ∧
    (V0.event uptime i s).runstate = V0.RUN_LEFT + k ∧
    V0.MAX_SCORE = 20 :=
  ⟨(V0.event_long uptime s k i hk hi hr hb).1, (V0.event_long uptime s k i hk hi hr hb).2.1,
   (V0.event_long uptime s k i hk hi hr hb).2.2, rfl⟩

/-- C14, amended, at a concrete input: side 0 active at score 50, long click
of button 1. -/
theorem long_click_sets_score_witness :
    V0.getScore (V0.event 4100 1 V0.leftActiveLong) 0 = 20 ∧
    V0.getScore (V0.event 4100 1 V0.leftActiveLong) 1 = 12 :=
  ⟨(long_click_sets_score V0.leftActiveLong 4100 0 1 (by decide) (by decide) rfl rfl).1,
   (long_click_sets_score V0.leftActiveLong 4100 0 1 (by decide) (by decide) rfl rfl).2.1⟩

namespace V0

theorem get_set_other (s : State) (i j v : Nat) (hi : i < 2) (hj : j < 2) (hij : i ≠ j) :
    getButtons (setPressedTimes s j v) i = getButtons s i ∧
    getPressedTimes (setPressedTimes s j v) i = getPressedTimes s i ∧
    getButtons (setButtons s j v) i = getButtons s i ∧
    getPressedTimes (setButtons s j v) i = getPressedTimes s i := by
  have hi' : i = 0 ∨ i = 1 := by omega
  have hj' : j = 0 ∨ j = 1 := by omega
  rcases hi' with rfl | rfl <;> rcases hj' with rfl | rfl
  · exact absurd rfl hij
  · exact ⟨rfl, rfl, rfl, rfl⟩
  · exact ⟨rfl, rfl, rfl, rfl⟩
  · exact absurd rfl hij

theorem edge_other (pinb now i j : Nat) (s : State) (hi : i < 2) (hj : j < 2) (hij : i ≠ j) :
    getButtons (edge pinb now j s) i = getButtons s i ∧
    getPressedTimes (edge pinb now j s) i = getPressedTimes s i := by
  have g := fun (r : State) (v : Nat) => get_set_other r i j v hi hj hij
  unfold edge latch
  split_ifs
  · rw [(g _ 0).1, (g _ 0).2.1, (g s _).2.2.1, (g s _).2.2.2]; exact ⟨rfl, rfl⟩
  · rw [(g _ 0).1, (g _ 0).2.1, (g s _).2.2.1, (g s _).2.2.2]; exact ⟨rfl, rfl⟩
  · rw [(g _ 0).1, (g _ 0).2.1]; exact ⟨rfl, rfl⟩
  · exact ⟨rfl, rfl⟩
  · rw [(g _ now).1, (g _ now).2.1]; exact ⟨rfl, rfl⟩
  · exact ⟨rfl, rfl⟩

theorem get_set_fields (s : State) (i v : Nat) :
    getButtons (setPressedTimes s i v) i = getButtons s i ∧
    getPressedTimes (setPressedTimes s i v) i = v ∧
    getButtons (setButtons s i v) i = v ∧
    getPressedTimes (setButtons s i v) i = getPressedTimes s i := by
  unfold setPressedTimes setButtons getButtons getPressedTimes
  by_cases h : i = 0
  · simp [h]
  · simp [h]

theorem latch_own (d i : Nat) (s : State) :
    getButtons (latch d i s) i =
      (if d ≥ LONGCLICK_TIME then BTN_LONGCLICK
       else if d ≥ DEBOUNCE_TIME then BTN_CLICK else getButtons s i) ∧
    getPressedTimes (latch d i s) i = getPressedTimes s i := by
  unfold latch
  split_ifs
  · exact ⟨(get_set_fields s i _).2.2.1, (get_set_fields s i _).2.2.2⟩
  · exact ⟨(get_set_fields s i _).2.2.1, (get_set_fields s i _).2.2.2⟩
  · exact ⟨rfl, rfl⟩

theorem edge_own (pinb now i : Nat) (s : State) :
    getPressedTimes (edge pinb now i s) i =
      (if pinb &&& (1 <<< BTN_PINS i) ≠ 0 then 0
       else if getPressedTimes s i = 0 then now else getPressedTimes s i) ∧
    getButtons (edge pinb now i s) i =
      (if pinb &&& (1 <<< BTN_PINS i) ≠ 0 ∧ getPressedTimes s i ≠ 0 then
        if (now + 4294967296 - getPressedTimes s i) % 4294967296 ≥ LONGCLICK_TIME then
          BTN_LONGCLICK
        else if (now + 4294967296 - getPressedTimes s i) % 4294967296 ≥ DEBOUNCE_TIME then
          BTN_CLICK
        else getButtons s i
       else getButtons s i) := by
  unfold edge
  by_cases h1 : pinb &&& (1 <<< BTN_PINS i) ≠ 0
  · by_cases h2 : getPressedTimes s i ≠ 0
    · have h12 : pinb &&& (1 <<< BTN_PINS i) ≠ 0 ∧ getPressedTimes s i ≠ 0 := ⟨h1, h2⟩
      simp only [if_pos h1, if_pos h2, if_pos h12]
      rw [(get_set_fields _ i 0).2.1, (get_set_fields _ i 0).1]
      exact ⟨rfl, (latch_own _ i s).1⟩
    · have h12 : ¬ (pinb &&& (1 <<< BTN_PINS i) ≠ 0 ∧ getPressedTimes s i ≠ 0) :=
        fun h => h2 h.2
      simp only [if_pos h1, if_neg h2, if_neg h12]
      exact ⟨not_not.mp h2, trivial⟩
  · have h12 : ¬ (pinb &&& (1 <<< BTN_PINS i) ≠ 0 ∧ getPressedTimes s i ≠ 0) :=
      fun h => h1 h.1
    by_cases h3 : getPressedTimes s i = 0
    · simp only [if_neg h1, if_pos h3, if_neg h12]
      exact ⟨(get_set_fields s i now).2.1, (get_set_fields s i now).1⟩
    · simp only [if_neg h1, if_neg h3, if_neg h12]
      exact ⟨trivial, trivial⟩

/-- What the pin-change handler does to the fields of button `i`. -/
theorem isr_button (s : State) (pinb now i : Nat) (hi : i < 2) :
    getPressedTimes (PCINT0_vect s pinb now) i =
      (if pinb &&& (1 <<< BTN_PINS i) ≠ 0 then 0
       else if getPressedTimes s i = 0 then now else getPressedTimes s i) ∧
    getButtons (PCINT0_vect s pinb now) i =
      (if pinb &&& (1 <<< BTN_PINS i) ≠ 0 ∧ getPressedTimes s i ≠ 0 then
        if (now + 4294967296 - getPressedTimes s i) % 4294967296 ≥ LONGCLICK_TIME then
          BTN_LONGCLICK
        else if (now + 4294967296 - getPressedTimes s i) % 4294967296 ≥ DEBOUNCE_TIME then
          BTN_CLICK
        else getButtons s i
       else getButtons s i) := by
  have hi' : i = 0 ∨ i = 1 := by omega
  unfold PCINT0_vect
  rcases hi' with rfl | rfl
  · rw [(edge_other pinb now 0 1 _ (by decide) (by decide) (by decide)).1,
      (edge_other pinb now 0 1 _ (by decide) (by decide) (by decide)).2]
    exact edge_own pinb now 0 s
  · have h := edge_own pinb now 1 (edge pinb now 0 s)
    rw [(edge_other pinb now 1 0 s (by decide) (by decide) (by decide)).1,
      (edge_other pinb now 1 0 s (by decide) (by decide) (by decide)).2] at h
    exact h

/-- A press of button `i` whose press edge is handled at a time `p` other
than 0 and whose release edge is handled at time `r` is latched by its
32-bit duration: long click from 500, click from 50, nothing below. -/
theorem press_release_classified (s : State) (pinbP pinbR p r i : Nat) (hi : i < 2)
    (h0 : getPressedTimes s i = 0)
    (hP : pinbP &&& (1 <<< BTN_PINS i) = 0) (hR : pinbR &&& (1 <<< BTN_PINS i) ≠ 0)
    (hp : p ≠ 0) :
    getButtons (PCINT0_vect (PCINT0_vect s pinbP p) pinbR r) i =
      if (r + 4294967296 - p) % 4294967296 ≥ LONGCLICK_TIME then BTN_LONGCLICK
      else if (r + 4294967296 - p) % 4294967296 ≥ DEBOUNCE_TIME then BTN_CLICK
      else getButtons s i := by
  have hP1 : ¬ pinbP &&& (1 <<< BTN_PINS i) ≠ 0 := not_not.mpr hP
  have hP2 : ¬ (pinbP &&& (1 <<< BTN_PINS i) ≠ 0 ∧ getPressedTimes s i ≠ 0) := fun h => hP1 h.1
  have h1 := isr_button s pinbP p i hi
  simp only [if_neg hP1, if_pos h0, if_neg hP2] at h1
  have hR2 : pinbR &&& (1 <<< BTN_PINS i) ≠ 0 ∧ p ≠ 0 := ⟨hR, hp⟩
  have h2 := isr_button (PCINT0_vect s pinbP p) pinbR r i hi
  rw [h1.1, h1.2] at h2
  simp only [if_pos hR2] at h2
  exact h2.2

/-- A press of button `i` whose press edge is handled at time 0 is not
recorded: whenever its release edge is handled, the latch is left as it
was. -/
theorem press_at_zero_lost (s : State) (pinbP pinbR r i : Nat) (hi : i < 2)
    (h0 : getPressedTimes s i = 0)
    (hP : pinbP &&& (1 <<< BTN_PINS i) = 0) :
    getButtons (PCINT0_vect (PCINT0_vect s pinbP 0) pinbR r) i = getButtons s i := by
  have hP1 : ¬ pinbP &&& (1 <<< BTN_PINS i) ≠ 0 := not_not.mpr hP
  have hP2 : ¬ (pinbP &&& (1 <<< BTN_PINS i) ≠ 0 ∧ getPressedTimes s i ≠ 0) := fun h => hP1 h.1
  have h1 := isr_button s pinbP 0 i hi
  simp only [if_neg hP1, if_pos h0, if_neg hP2] at h1
  have hR2 : ¬ (pinbR &&& (1 <<< BTN_PINS i) ≠ 0 ∧ (0 : Nat) ≠ 0) := fun h => h.2 rfl
  have h2 := isr_button (PCINT0_vect s pinbP 0) pinbR r i hi
  rw [h1.1, h1.2] at h2
  simp only [if_neg hR2] at h2
  exact h2.2

end V0

/-- C15 fails on the code at press time 0. From the initial state, button 0
is read pressed by the pin-change handler at `millis() = 0` and read released
at `millis() = 600`: the duration is 600, at least 500, and the latch of
button 0 is still `BTN_RELEASED`, not `BTN_LONGCLICK`, because the recorded
press time 0 also means "not pressed". The same press handled at time 1 is
latched as a long click. -/
theorem press_edge_at_zero_not_latched :
    (600 + 4294967296 - 0) % 4294967296 ≥ V0.LONGCLICK_TIME ∧
    (V0.PCINT0_vect V0.init 0b010 0).pressedTimes0 = 0 ∧
    (V0.run V0.init [V0.Step.isr 0b010 0, V0.Step.isr 0b110 600]).buttons0 = V0.BTN_RELEASED ∧
    (V0.run V0.init [V0.Step.isr 0b010 1, V0.Step.isr 0b110 601]).buttons0 = V0.BTN_LONGCLICK := by
  decide

/-! ## Press counters: bounces and held buttons (src/4) -/

namespace V4

theorem getPressed_countPress (i : Nat) (s : State) :
    getPressed (countPress i s) i =
      if getPressed s i < 0xFFFF then getPressed s i + 1 else getPressed s i := by
  unfold countPress
  split_ifs with h
  · unfold setPressed getPressed
    split_ifs <;> rfl
  · rfl

theorem countPress_zero_fields (s : State) :
    (countPress 0 s).pressedTime0 =
      (if s.pressedTime0 < 0xFFFF then s.pressedTime0 + 1 else s.pressedTime0) ∧
    (countPress 0 s).pressedTime1 = s.pressedTime1 := by
  unfold countPress
  by_cases h : getPressed s 0 < 0xFFFF
  · have h2 : s.pressedTime0 < 0xFFFF := h
    rw [if_pos h, if_pos h2]; exact ⟨rfl, rfl⟩
  · have h2 : ¬ s.pressedTime0 < 0xFFFF := h
    rw [if_neg h, if_neg h2]; exact ⟨rfl, rfl⟩

theorem countPress_one_fields (s : State) :
    (countPress 1 s).pressedTime1 =
      (if s.pressedTime1 < 0xFFFF then s.pressedTime1 + 1 else s.pressedTime1) ∧
    (countPress 1 s).pressedTime0 = s.pressedTime0 := by
  unfold countPress
  by_cases h : getPressed s 1 < 0xFFFF
  · have h2 : s.pressedTime1 < 0xFFFF := h
    rw [if_pos h, if_pos h2]; exact ⟨rfl, rfl⟩
  · have h2 : ¬ s.pressedTime1 < 0xFFFF := h
    rw [if_neg h, if_neg h2]; exact ⟨rfl, rfl⟩

theorem button_zero_counters (pinb : Nat) (s : State) :
    (button pinb 0 s).pressedTime0 =
      (if pressed pinb 0 = true then
        if s.pressedTime0 < 0xFFFF then s.pressedTime0 + 1 else s.pressedTime0
       else 0) ∧
    (button pinb 0 s).pressedTime1 = s.pressedTime1 := by
  unfold button
  by_cases hp : pressed pinb 0 = true
  · rw [if_pos hp, if_pos hp, (held_pressedTime 0 _).1, (held_pressedTime 0 _).2]
    exact countPress_zero_fields s
  · rw [if_neg hp, if_neg hp]
    exact ⟨rfl, rfl⟩

theorem button_one_counters (pinb : Nat) (s : State) :
    (button pinb 1 s).pressedTime1 =
      (if pressed pinb 1 = true then
        if s.pressedTime1 < 0xFFFF then s.pressedTime1 + 1 else s.pressedTime1
       else 0) ∧
    (button pinb 1 s).pressedTime0 = s.pressedTime0 := by
  unfold button
  by_cases hp : pressed pinb 1 = true
  · rw [if_pos hp, if_pos hp, (held_pressedTime 1 _).1, (held_pressedTime 1 _).2]
    exact countPress_one_fields s
  · rw [if_neg hp, if_neg hp]
    exact ⟨rfl, rfl⟩

/-- The press counters after a run of the tick handler: a button read
pressed counts one more tick, up to `0xFFFF`; a button read released starts
again from 0. -/
theorem tick_counters (s : State) (pinb : Nat) :
    (TIM0_COMPA_vect s pinb).pressedTime0 =
      (if pressed pinb 0 = true then
        if s.pressedTime0 < 0xFFFF then s.pressedTime0 + 1 else s.pressedTime0
       else 0) ∧
    (TIM0_COMPA_vect s pinb).pressedTime1 =
      (if pressed pinb 1 = true then
        if s.pressedTime1 < 0xFFFF then s.pressedTime1 + 1 else s.pressedTime1
       else 0) := by
  unfold TIM0_COMPA_vect
  have h0 := button_zero_counters pinb (countTick s)
  have h1 := button_one_counters pinb (button pinb 0 (countTick s))
  rw [h1.1, h1.2, h0.1, h0.2]
  exact ⟨rfl, rfl⟩

theorem held_below (i : Nat) (s : State) (h : getPressed s i < DEBOUNCE_TIME) : held i s = s := by
  unfold held
  rw [if_neg (by omega)]

theorem button_below (pinb i : Nat) (s : State)
    (h : pressed pinb i = true → getPressed (countPress i s) i < DEBOUNCE_TIME) :
    (button pinb i s).score0 = s.score0 ∧ (button pinb i s).score1 = s.score1 ∧
    (button pinb i s).runstate = s.runstate ∧ (button pinb i s).brightness = s.brightness ∧
    (button pinb i s).stateTime = s.stateTime := by
  unfold button
  split_ifs with hp
  · rw [held_below i _ (h hp)]
    unfold countPress setPressed
    split_ifs <;> exact ⟨rfl, rfl, rfl, rfl, rfl⟩
  · unfold setPressed
    split_ifs <;> exact ⟨rfl, rfl, rfl, rfl, rfl⟩

/-- A run of the tick handler that leaves both press counters below the
debounce time changes no score, nor the run state, the brightness or
`stateTime`. -/
theorem tick_below (s : State) (pinb : Nat)
    (h0 : pressed pinb 0 = true → s.pressedTime0 + 1 < DEBOUNCE_TIME)
    (h1 : pressed pinb 1 = true → s.pressedTime1 + 1 < DEBOUNCE_TIME) :
    (TIM0_COMPA_vect s pinb).score0 = s.score0 ∧ (TIM0_COMPA_vect s pinb).score1 = s.score1 ∧
    (TIM0_COMPA_vect s pinb).runstate = s.runstate ∧
    (TIM0_COMPA_vect s pinb).brightness = s.brightness ∧
    (TIM0_COMPA_vect s pinb).stateTime = s.stateTime := by
  unfold TIM0_COMPA_vect
  have a := button_below pinb 0 (countTick s) (by
    intro hp
    rw [getPressed_countPress]
    have := h0 hp
    show (if s.pressedTime0 < 0xFFFF then s.pressedTime0 + 1 else s.pressedTime0) < DEBOUNCE_TIME
    unfold DEBOUNCE_TIME at this ⊢
    split_ifs <;> omega)
  have c := button_zero_counters pinb (countTick s)
  have b := button_below pinb 1 (button pinb 0 (countTick s)) (by
    intro hp
    rw [getPressed_countPress]
    have := h1 hp
    show (if (button pinb 0 (countTick s)).pressedTime1 < 0xFFFF then
      (button pinb 0 (countTick s)).pressedTime1 + 1
      else (button pinb 0 (countTick s)).pressedTime1) < DEBOUNCE_TIME
    rw [c.2]
    show (if s.pressedTime1 < 0xFFFF then s.pressedTime1 + 1 else s.pressedTime1) < DEBOUNCE_TIME
    unfold DEBOUNCE_TIME at this ⊢
    split_ifs <;> omega)
  obtain ⟨a1, a2, a3, a4, a5⟩ := a
  obtain ⟨b1, b2, b3, b4, b5⟩ := b
  rw [b1, b2, b3, b4, b5, a1, a2, a3, a4, a5]
  exact ⟨rfl, rfl, rfl, rfl, rfl⟩

theorem ticks_short (ps : List Nat) (s : State)
    (h0 : shortPresses 0 s.pressedTime0 ps = true)
    (h1 : shortPresses 1 s.pressedTime1 ps = true) (k : Nat) :
    (ticks s (ps.take k)).score0 = s.score0 ∧ (ticks s (ps.take k)).score1 = s.score1 ∧
    (ticks s (ps.take k)).runstate = s.runstate ∧
    (ticks s (ps.take k)).brightness = s.brightness ∧
    (ticks s (ps.take k)).stateTime = s.stateTime := by
  induction ps generalizing s k with
  | nil =>
    rw [List.take_nil]
    exact ⟨rfl, rfl, rfl, rfl, rfl⟩
  | cons p rest ih =>
    cases k with
    | zero => exact ⟨rfl, rfl, rfl, rfl, rfl⟩
    | succ k =>
      show (ticks (TIM0_COMPA_vect s p) (rest.take k)).score0 = s.score0 ∧ _
      have hc := tick_counters s p
      simp only [shortPresses] at h0 h1
      have q0 : pressed p 0 = true → s.pressedTime0 + 1 < DEBOUNCE_TIME := by
        intro hp; rw [if_pos hp] at h0
        exact of_decide_eq_true (Bool.and_eq_true _ _ ▸ h0).1
      have q1 : pressed p 1 = true → s.pressedTime1 + 1 < DEBOUNCE_TIME := by
        intro hp; rw [if_pos hp] at h1
        exact of_decide_eq_true (Bool.and_eq_true _ _ ▸ h1).1
      have r0 : shortPresses 0 (TIM0_COMPA_vect s p).pressedTime0 rest = true := by
        rw [hc.1]
        by_cases hp : pressed p 0 = true
        · have := q0 hp
          unfold DEBOUNCE_TIME at this
          rw [if_pos hp] at h0 ⊢
          rw [if_pos (by omega)]
          exact (Bool.and_eq_true _ _ ▸ h0).2
        · rw [if_neg hp] at h0 ⊢; exact h0
      have r1 : shortPresses 1 (TIM0_COMPA_vect s p).pressedTime1 rest = true := by
        rw [hc.2]
        by_cases hp : pressed p 1 = true
        · have := q1 hp
          unfold DEBOUNCE_TIME at this
          rw [if_pos hp] at h1 ⊢
          rw [if_pos (by omega)]
          exact (Bool.and_eq_true _ _ ▸ h1).2
        · rw [if_neg hp] at h1 ⊢; exact h1
      have t := tick_below s p q0 q1
      have hi := ih (TIM0_COMPA_vect s p) r0 r1 k
      obtain ⟨t1, t2, t3, t4, t5⟩ := t
      obtain ⟨i1, i2, i3, i4, i5⟩ := hi
      exact ⟨i1.trans t1, i2.trans t2, i3.trans t3, i4.trans t4, i5.trans t5⟩

end V4

/-- C20: bounce filtering in the tick handler of `src/4`. Over every sequence
of ticks and port values in which no button is read pressed on 50 or more
ticks in a row (the ticks already counted in the press counters of the
starting state included), the tick handler never changes a score, the run
state, the brightness or `stateTime`: after each tick of the sequence they
are what they were at its start. -/
theorem short_presses_change_nothing (s : V4.State) (ps : List Nat) (k : Nat)
    (h0 : V4.shortPresses 0 s.pressedTime0 ps = true)
    (h1 : V4.shortPresses 1 s.pressedTime1 ps = true) :
    (V4.ticks s (ps.take k)).score0 = s.score0 ∧
    (V4.ticks s (ps.take k)).score1 = s.score1 ∧
    (V4.ticks s (ps.take k)).runstate = s.runstate ∧
    (V4.ticks s (ps.take k)).brightness = s.brightness ∧
    (V4.ticks s (ps.take k)).stateTime = s.stateTime :=
  V4.ticks_short ps s h0 h1 k

set_option maxRecDepth 100000 in
theorem V4.bounces_short :
    V4.shortPresses 0 V4.init.pressedTime0 V4.bounces = true ∧
    V4.shortPresses 1 V4.init.pressedTime1 V4.bounces = true := by
  constructor <;> decide

/-- C20 at a concrete input: from the initial state, button 0 read pressed
on 49 ticks, released on one and pressed on 49 more, with short presses of
button 1 after that. -/
theorem short_presses_change_nothing_witness :
    (V4.ticks V4.init (V4.bounces.take 99)).runstate = V4.init.runstate ∧
    (V4.ticks V4.init (V4.bounces.take 99)).stateTime = V4.init.stateTime :=
  have h := short_presses_change_nothing V4.init V4.bounces 99 V4.bounces_short.1
    V4.bounces_short.2
  ⟨h.2.2.1, h.2.2.2.2⟩

namespace V4

theorem clickDue_ge (p : Nat) (h : clickDue p = true) : DEBOUNCE_TIME ≤ p := by
  unfold clickDue at h
  simp only [Bool.or_eq_true, beq_iff_eq, Bool.and_eq_true, decide_eq_true_eq] at h
  unfold DEBOUNCE_TIME HOLD_TIME at *
  omega

theorem clickDue_iff (p : Nat) :
    clickDue p = true ↔ (p = 50 ∨ (500 ≤ p ∧ (p - 500) % 200 = 0)) := by
  unfold clickDue DEBOUNCE_TIME HOLD_TIME REPEAT_TIME
  simp only [Bool.or_eq_true, beq_iff_eq, Bool.and_eq_true, decide_eq_true_eq, ge_iff_le]

theorem clicks_zero (s : State) : clicks 0 s = clickDue s.pressedTime0 := by
  unfold clicks
  have hg : getPressed s 0 = s.pressedTime0 := rfl
  rw [hg]
  by_cases h : clickDue s.pressedTime0 = true
  · have := clickDue_ge _ h
    simp [h, this]
  · simp [h]

theorem clicks_one (s : State) (h0 : s.pressedTime0 = 0) : clicks 1 s = clickDue s.pressedTime1 := by
  unfold clicks
  have hg : getPressed s 1 = s.pressedTime1 := rfl
  have hg0 : getPressed s 0 = s.pressedTime0 := rfl
  rw [hg, hg0, h0]
  by_cases h : clickDue s.pressedTime1 = true
  · have := clickDue_ge _ h
    unfold DEBOUNCE_TIME at this ⊢
    simp [h, this]
  · simp [h]

/-- With only button `i` read pressed, a run of the tick handler emits a
click exactly when one is due at the updated press counter of button `i`. -/
theorem tickClicks_single (s : State) (pinb i : Nat) (hi : i < 2)
    (hp : pressed pinb i = true) (hq : pressed pinb (1 - i) = false) :
    tickClicks s pinb =
      clickDue (if getPressed s i < 0xFFFF then getPressed s i + 1 else getPressed s i) := by
  have hi' : i = 0 ∨ i = 1 := by omega
  unfold tickClicks
  rcases hi' with rfl | rfl
  · have hq1 : pressed pinb 1 = false := hq
    rw [hp, hq1, clicks_zero, (countPress_zero_fields (countTick s)).1]
    simp only [Bool.true_and, Bool.false_and, Bool.or_false]
    rfl
  · have hq0 : pressed pinb 0 = false := hq
    have hz : (countPress 1 (button pinb 0 (countTick s))).pressedTime0 = 0 := by
      rw [(countPress_one_fields _).2, (button_zero_counters pinb (countTick s)).1,
        if_neg (by rw [hq0]; decide)]
    rw [hp, hq0, clicks_one _ hz, (countPress_one_fields _).1,
      (button_zero_counters pinb (countTick s)).2]
    simp only [Bool.true_and, Bool.false_and, Bool.false_or]
    rfl

theorem ticks_snoc (s : State) (ps : List Nat) (p : Nat) :
    ticks s (ps ++ [p]) = TIM0_COMPA_vect (ticks s ps) p := by
  unfold ticks
  rw [List.foldl_append]
  rfl

/-- The press counter of a button held for `n` ticks in a row, from a counter
at 0: it counts the ticks up to `0xFFFF` and stays there. -/
theorem held_counter (s : State) (pinb i n : Nat) (hi : i < 2)
    (hp : pressed pinb i = true) (h0 : getPressed s i = 0) :
    getPressed (ticks s (List.replicate n pinb)) i = min n 65535 := by
  have hi' : i = 0 ∨ i = 1 := by omega
  induction n with
  | zero => simpa [ticks] using h0
  | succ n ih =>
    rw [List.replicate_succ', ticks_snoc]
    have hc := tick_counters (ticks s (List.replicate n pinb)) pinb
    rcases hi' with rfl | rfl
    · have ih' : (ticks s (List.replicate n pinb)).pressedTime0 = min n 65535 := ih
      show (TIM0_COMPA_vect _ pinb).pressedTime0 = _
      rw [hc.1, if_pos hp, ih']
      split_ifs <;> omega
    · have ih' : (ticks s (List.replicate n pinb)).pressedTime1 = min n 65535 := ih
      show (TIM0_COMPA_vect _ pinb).pressedTime1 = _
      rw [hc.2, if_pos hp, ih']
      split_ifs <;> omega

/-- The click schedule of a held button: with only button `i` read pressed,
from a press counter at 0, the tick handler emits a click on the `n`-th tick
in a row exactly when one is due at `min n 65535`. -/
theorem held_schedule (s : State) (pinb i n : Nat) (hi : i < 2)
    (hp : pressed pinb i = true) (hq : pressed pinb (1 - i) = false)
    (h0 : getPressed s i = 0) (hn : 1 ≤ n) :
    tickClicks (ticks s (List.replicate (n - 1) pinb)) pinb = clickDue (min n 65535) := by
  rw [tickClicks_single _ pinb i hi hp hq, held_counter s pinb i (n - 1) hi hp h0]
  congr 1
  split_ifs <;> omega

theorem setPressed_fields (s : State) (i v : Nat) :
    (setPressed s i v).runstate = s.runstate ∧ (setPressed s i v).brightness = s.brightness ∧
    (setPressed s i v).score0 = s.score0 ∧ (setPressed s i v).score1 = s.score1 := by
  unfold setPressed; split_ifs <;> exact ⟨rfl, rfl, rfl, rfl⟩

theorem countPress_fields (i : Nat) (s : State) :
    (countPress i s).runstate = s.runstate ∧ (countPress i s).brightness = s.brightness ∧
    (countPress i s).score0 = s.score0 ∧ (countPress i s).score1 = s.score1 := by
  unfold countPress; split_ifs
  · exact setPressed_fields s i _
  · exact ⟨rfl, rfl, rfl, rfl⟩

theorem getScore_congr (a b : State) (k : Nat) (h0 : a.score0 = b.score0)
    (h1 : a.score1 = b.score1) : getScore a k = getScore b k := by
  unfold getScore
  rw [h0, h1]

/-- A click on an active scoreboard keeps the run state and the brightness,
keeps the score of the other side, and moves the score of the active side
`k`: button 1 adds one below 99, button 0 takes one off above 0. -/
theorem click_edit (s : State) (k i : Nat) (hk : k < 2) (hr : s.runstate = RUN_LEFT + k) :
    (click s i).runstate = s.runstate ∧ (click s i).brightness = s.brightness ∧
    getScore (click s i) (1 - k) = getScore s (1 - k) ∧
    getScore (click s i) k =
      (if i ≠ 0 then (if getScore s k < 99 then getScore s k + 1 else getScore s k)
       else getScore s k - 1) := by
  have hk' : k = 0 ∨ k = 1 := by omega
  simp only [RUN_LEFT] at hr
  by_cases hi : i = 0
  · subst hi
    rcases hk' with rfl | rfl <;>
      simp [click, getScore, setScore, millis, RUN_LEFT, RUN_IDLE, hr] <;>
      split_ifs <;> simp_all
  · rcases hk' with rfl | rfl <;>
      simp [click, getScore, setScore, millis, RUN_LEFT, RUN_IDLE, hr, hi] <;>
      split_ifs <;> simp_all <;> omega

/-- The run of the tick handler when only button 0 is read pressed. -/
theorem tick_single_zero (s : State) (pinb : Nat) (hp : pressed pinb 0 = true)
    (hq : pressed pinb 1 = false) :
    TIM0_COMPA_vect s pinb = setPressed (held 0 (countPress 0 (countTick s))) 1 0 ∧
    tickClicks s pinb = clicks 0 (countPress 0 (countTick s)) := by
  constructor
  · unfold TIM0_COMPA_vect button
    rw [hp, hq]
    rfl
  · unfold tickClicks
    rw [hp, hq]
    simp only [Bool.true_and, Bool.false_and, Bool.or_false]

/-- The run of the tick handler when only button 1 is read pressed. -/
theorem tick_single_one (s : State) (pinb : Nat) (hp : pressed pinb 1 = true)
    (hq : pressed pinb 0 = false) :
    TIM0_COMPA_vect s pinb = held 1 (countPress 1 (setPressed (countTick s) 0 0)) ∧
    tickClicks s pinb = clicks 1 (countPress 1 (setPressed (countTick s) 0 0)) := by
  constructor
  · unfold TIM0_COMPA_vect button
    rw [hp, hq]
    rfl
  · unfold tickClicks button
    rw [hp, hq]
    simp only [Bool.true_and, Bool.false_and, Bool.false_or]
    rfl

/-- What a run of the tick handler does to the run state, the brightness and
the scores when only button `i` is read pressed: if it emits a click, an idle
scoreboard is activated on side `i` and an active one has the score of its
active side moved by one within `0 .. 99`; if it emits none, nothing
changes. -/
theorem tick_single_effect (s : State) (pinb i : Nat) (hi : i < 2)
    (hp : pressed pinb i = true) (hq : pressed pinb (1 - i) = false) :
    (tickClicks s pinb = true → s.runstate = RUN_IDLE →
      (TIM0_COMPA_vect s pinb).runstate = RUN_LEFT + i ∧
      (TIM0_COMPA_vect s pinb).brightness = NORMAL_BRIGHT ∧
      (TIM0_COMPA_vect s pinb).score0 = s.score0 ∧
      (TIM0_COMPA_vect s pinb).score1 = s.score1) ∧
    (tickClicks s pinb = true → ∀ k, k < 2 → s.runstate = RUN_LEFT + k →
      (TIM0_COMPA_vect s pinb).runstate = s.runstate ∧
      (TIM0_COMPA_vect s pinb).brightness = s.brightness ∧
      getScore (TIM0_COMPA_vect s pinb) (1 - k) = getScore s (1 - k) ∧
      getScore (TIM0_COMPA_vect s pinb) k =
        (if i ≠ 0 then (if getScore s k < 99 then getScore s k + 1 else getScore s k)
         else getScore s k - 1)) ∧
    (tickClicks s pinb = false →
      (TIM0_COMPA_vect s pinb).runstate = s.runstate ∧
      (TIM0_COMPA_vect s pinb).brightness = s.brightness ∧
      (TIM0_COMPA_vect s pinb).score0 = s.score0 ∧
      (TIM0_COMPA_vect s pinb).score1 = s.score1) := by
  have hi' : i = 0 ∨ i = 1 := by omega
  rcases hi' with rfl | rfl
  · have hq1 : pressed pinb 1 = false := hq
    obtain ⟨heq, hcl⟩ := tick_single_zero s pinb hp hq1
    have ht := countPress_fields 0 (countTick s)
    have ht' : (countPress 0 (countTick s)).runstate = s.runstate ∧
        (countPress 0 (countTick s)).brightness = s.brightness ∧
        (countPress 0 (countTick s)).score0 = s.score0 ∧
        (countPress 0 (countTick s)).score1 = s.score1 := ht
    rw [heq, hcl]
    have hsp := setPressed_fields (held 0 (countPress 0 (countTick s))) 1 0
    refine ⟨?_, ?_, ?_⟩
    · intro hc hidle
      rw [held_of_clicks 0 _ hc] at hsp ⊢
      have hci := click_idle (countPress 0 (countTick s)) 0 (by rw [ht'.1]; exact hidle)
      rw [hsp.1, hsp.2.1, hsp.2.2.1, hsp.2.2.2, hci.1, hci.2.1, hci.2.2.2.2.1, hci.2.2.2.2.2,
        ht'.2.2.1, ht'.2.2.2]
      exact ⟨rfl, rfl, rfl, rfl⟩
    · intro hc k hk hr
      rw [held_of_clicks 0 _ hc] at hsp ⊢
      have hce := click_edit (countPress 0 (countTick s)) k 0 hk (by rw [ht'.1]; exact hr)
      have hg : ∀ j, getScore (setPressed (click (countPress 0 (countTick s)) 0) 1 0) j =
          getScore (click (countPress 0 (countTick s)) 0) j :=
        fun j => getScore_congr _ _ j hsp.2.2.1 hsp.2.2.2
      have hg' : ∀ j, getScore (countPress 0 (countTick s)) j = getScore s j :=
        fun j => getScore_congr _ _ j ht'.2.2.1 ht'.2.2.2
      rw [hsp.1, hsp.2.1, hg, hg, hce.1, hce.2.1, hce.2.2.1, hce.2.2.2, hg', hg', ht'.1, ht'.2.1]
      exact ⟨rfl, rfl, rfl, rfl⟩
    · intro hc
      have hr : resets 0 (countPress 0 (countTick s)) = false := by
        unfold resets
        simp
      rw [held_of_quiet 0 _ hc hr] at hsp ⊢
      rw [hsp.1, hsp.2.1, hsp.2.2.1, hsp.2.2.2]
      exact ht'
  · have hq0 : pressed pinb 0 = false := hq
    obtain ⟨heq, hcl⟩ := tick_single_one s pinb hp hq0
    have ht := countPress_fields 1 (setPressed (countTick s) 0 0)
    have hs0 := setPressed_fields (countTick s) 0 0
    have ht' : (countPress 1 (setPressed (countTick s) 0 0)).runstate = s.runstate ∧
        (countPress 1 (setPressed (countTick s) 0 0)).brightness = s.brightness ∧
        (countPress 1 (setPressed (countTick s) 0 0)).score0 = s.score0 ∧
        (countPress 1 (setPressed (countTick s) 0 0)).score1 = s.score1 :=
      ⟨ht.1.trans hs0.1, ht.2.1.trans hs0.2.1, ht.2.2.1.trans hs0.2.2.1,
        ht.2.2.2.trans hs0.2.2.2⟩
    rw [heq, hcl]
    refine ⟨?_, ?_, ?_⟩
    · intro hc hidle
      rw [held_of_clicks 1 _ hc]
      have hci := click_idle (countPress 1 (setPressed (countTick s) 0 0)) 1
        (by rw [ht'.1]; exact hidle)
      rw [hci.1, hci.2.1, hci.2.2.2.2.1, hci.2.2.2.2.2, ht'.2.2.1, ht'.2.2.2]
      exact ⟨rfl, rfl, rfl, rfl⟩
    · intro hc k hk hr
      rw [held_of_clicks 1 _ hc]
      have hce := click_edit (countPress 1 (setPressed (countTick s) 0 0)) k 1 hk
        (by rw [ht'.1]; exact hr)
      have hg' : ∀ j, getScore (countPress 1 (setPressed (countTick s) 0 0)) j = getScore s j :=
        fun j => getScore_congr _ _ j ht'.2.2.1 ht'.2.2.2
      rw [hce.1, hce.2.1, hce.2.2.1, hce.2.2.2, hg', hg', ht'.1, ht'.2.1]
      exact ⟨rfl, rfl, rfl, rfl⟩
    · intro hc
      have hz : getPressed (countPress 1 (setPressed (countTick s) 0 0)) 0 = 0 := by
        show (countPress 1 (setPressed (countTick s) 0 0)).pressedTime0 = 0
        rw [(countPress_one_fields _).2]
        rfl
      have hr : resets 1 (countPress 1 (setPressed (countTick s) 0 0)) = false := by
        unfold resets
        rw [hz]
        simp [DEBOUNCE_TIME]
      rw [held_of_quiet 1 _ hc hr]
      exact ht'

set_option maxRecDepth 100000 in
/-- Button 1 read pressed on 49 ticks in a row emits no click yet: from the
initial state the scoreboard is still idle, and from `rightActive` side 1 is
still active with its score at 12. -/
theorem hold_start :
    (ticks init (List.replicate 49 0b100)).runstate = RUN_IDLE ∧
    (ticks rightActive (List.replicate 49 0b100)).runstate = RUN_LEFT + 1 ∧
    getScore (ticks rightActive (List.replicate 49 0b100)) 1 = 12 := by
  refine ⟨?_, ?_, ?_⟩ <;> decide

end V4

/-- C16 as stated fails from the 65535th tick on: the press counter stays at
`0xFFFF`, where no click is due. With button 0 held from the initial state
and button 1 released, the 65700th tick in a row emits no click although
65700 is 500 plus a multiple of 200. -/
theorem hold_repeat_counterexample :
    V4.pressed 0b010 0 = true ∧ V4.pressed 0b010 1 = false ∧
    (500 ≤ 65700 ∧ (65700 - 500) % 200 = 0) ∧
    V4.tickClicks (V4.ticks V4.init (List.replicate (65700 - 1) 0b010)) 0b010 = false := by
  refine ⟨by decide, by decide, by decide, ?_⟩
  rw [V4.held_schedule V4.init 0b010 0 65700 (by decide) (by decide) (by decide) rfl (by decide)]
  decide

/-- C16, amended: the click schedule of a held button in `src/4`. When button
`i` is read pressed on every tick from a press counter at 0 while the other
button is read released, the `n`-th tick in a row emits a click if and only
if `n = 50` or `n ≥ 500` and `(n - 500) mod 200 = 0`, for every `n` from 1 to
65534; the press counter is `n` up to 65535 and stays at `0xFFFF` from the
65535th tick on, and from that tick on no click is emitted. A tick that emits
a click refreshes `stateTime` to the tick counter and either activates side
`i` at normal brightness, scores unchanged, when the scoreboard was idle, or,
when side `k` was active, keeps the run state, the brightness and the other
score and moves the score of side `k` by one (button 1 up below 99, button 0
down above 0). A tick that emits no click leaves `stateTime`, the run state,
the brightness and both scores as they were. -/
theorem hold_repeats_clicks (s : V4.State) (pinb i n : Nat) (hi : i < 2)
    (hp : V4.pressed pinb i = true) (hq : V4.pressed pinb (1 - i) = false)
    (h0 : V4.getPressed s i = 0) (hn : 1 ≤ n) :
    (n < 65535 →
      (V4.tickClicks (V4.ticks s (List.replicate (n - 1) pinb)) pinb = true ↔
        (n = 50 ∨ (500 ≤ n ∧ (n - 500) % 200 = 0)))) ∧
    (65535 ≤ n → V4.tickClicks (V4.ticks s (List.replicate (n - 1) pinb)) pinb = false) ∧
    (V4.tickClicks (V4.ticks s (List.replicate (n - 1) pinb)) pinb = true →
      (V4.ticks s (List.replicate n pinb)).stateTime = (V4.ticks s (List.replicate n pinb)).ms) ∧
    (V4.tickClicks (V4.ticks s (List.replicate (n - 1) pinb)) pinb = false →
      (V4.ticks s (List.replicate n pinb)).stateTime
        = (V4.ticks s (List.replicate (n - 1) pinb)).stateTime) ∧
    V4.getPressed (V4.ticks s (List.replicate n pinb)) i = min n 65535 ∧
    (V4.tickClicks (V4.ticks s (List.replicate (n - 1) pinb)) pinb = true →
      (V4.ticks s (List.replicate (n - 1) pinb)).runstate = V4.RUN_IDLE →
      (V4.ticks s (List.replicate n pinb)).runstate = V4.RUN_LEFT + i ∧
      (V4.ticks s (List.replicate n pinb)).brightness = V4.NORMAL_BRIGHT ∧
      (V4.ticks s (List.replicate n pinb)).score0 =
        (V4.ticks s (List.replicate (n - 1) pinb)).score0 ∧
      (V4.ticks s (List.replicate n pinb)).score1 =
        (V4.ticks s (List.replicate (n - 1) pinb)).score1) ∧
    (V4.tickClicks (V4.ticks s (List.replicate (n - 1) pinb)) pinb = true →
      ∀ k, k < 2 → (V4.ticks s (List.replicate (n - 1) pinb)).runstate = V4.RUN_LEFT + k →
      (V4.ticks s (List.replicate n pinb)).runstate =
        (V4.ticks s (List.replicate (n - 1) pinb)).runstate ∧
      (V4.ticks s (List.replicate n pinb)).brightness =
        (V4.ticks s (List.replicate (n - 1) pinb)).brightness ∧
      V4.getScore (V4.ticks s (List.replicate n pinb)) (1 - k) =
        V4.getScore (V4.ticks s (List.replicate (n - 1) pinb)) (1 - k) ∧
      V4.getScore (V4.ticks s (List.replicate n pinb)) k =
        (if i ≠ 0 then
          (if V4.getScore (V4.ticks s (List.replicate (n - 1) pinb)) k < 99 then
            V4.getScore (V4.ticks s (List.replicate (n - 1) pinb)) k + 1
           else V4.getScore (V4.ticks s (List.replicate (n - 1) pinb)) k)
         else V4.getScore (V4.ticks s (List.replicate (n - 1) pinb)) k - 1)) ∧
    (V4.tickClicks (V4.ticks s (List.replicate (n - 1) pinb)) pinb = false →
      (V4.ticks s (List.replicate n pinb)).runstate =
        (V4.ticks s (List.replicate (n - 1) pinb)).runstate ∧
      (V4.ticks s (List.replicate n pinb)).brightness =
        (V4.ticks s (List.replicate (n - 1) pinb)).brightness ∧
      (V4.ticks s (List.replicate n pinb)).score0 =
        (V4.ticks s (List.replicate (n - 1) pinb)).score0 ∧
      (V4.ticks s (List.replicate n pinb)).score1 =
        (V4.ticks s (List.replicate (n - 1) pinb)).score1) := by
  have hs := V4.held_schedule s pinb i n hi hp hq h0 hn
  have hrep : List.replicate n pinb = List.replicate (n - 1) pinb ++ [pinb] := by
    have : n = (n - 1) + 1 := by omega
    rw [this, List.replicate_succ']
    rfl
  have hst := V4.tick_stateTime (V4.ticks s (List.replicate (n - 1) pinb)) pinb
  have hms := V4.tick_ms (V4.ticks s (List.replicate (n - 1) pinb)) pinb
  have heff := V4.tick_single_effect (V4.ticks s (List.replicate (n - 1) pinb)) pinb i hi hp hq
  have hcnt := V4.held_counter s pinb i n hi hp h0
  have hnext : V4.ticks s (List.replicate n pinb) =
      V4.TIM0_COMPA_vect (V4.ticks s (List.replicate (n - 1) pinb)) pinb := by
    rw [hrep, V4.ticks_snoc]
  refine ⟨?_, ?_, ?_, ?_, hcnt, ?_, ?_, ?_⟩
  · intro hlt
    rw [hs, Nat.min_eq_left (by omega)]
    exact V4.clickDue_iff n
  · intro hge
    rw [hs, Nat.min_eq_right hge]
    decide
  · intro hc
    rw [hnext, hst, hms, if_pos hc]
  · intro hc
    rw [hnext, hst, if_neg (by rw [hc]; decide)]
  · rw [hnext]
    exact heff.1
  · rw [hnext]
    exact heff.2.1
  · rw [hnext]
    exact heff.2.2

/-- C16, amended, at concrete inputs: button 1 held for 50 ticks in a row.
From the initial state the 50th tick emits a click and activates side 1; from
a state with side 1 active at score 12 it moves that score to 13. -/
theorem hold_repeats_clicks_witness :
    V4.tickClicks (V4.ticks V4.init (List.replicate (50 - 1) 0b100)) 0b100 = true ∧
    (V4.ticks V4.init (List.replicate 50 0b100)).runstate = V4.RUN_LEFT + 1 ∧
    V4.getScore (V4.ticks V4.rightActive (List.replicate 50 0b100)) 1 = 13 := by
  have h := hold_repeats_clicks V4.init 0b100 1 50 (by decide) (by decide) (by decide) rfl
    (by decide)
  have g := hold_repeats_clicks V4.rightActive 0b100 1 50 (by decide) (by decide) (by decide)
    rfl (by decide)
  have hc := (h.1 (by decide)).2 (Or.inl rfl)
  have gc := (g.1 (by decide)).2 (Or.inl rfl)
  refine ⟨hc, (h.2.2.2.2.2.1 hc V4.hold_start.1).1, ?_⟩
  have ge := (g.2.2.2.2.2.2.1 gc 1 (by decide) V4.hold_start.2.1).2.2.2
  rw [ge]
  have h12 : V4.getScore (V4.ticks V4.rightActive (List.replicate (50 - 1) 0b100)) 1 = 12 :=
    V4.hold_start.2.2
  rw [h12]
  decide

/-! ## Brightness follows the run state -/

namespace V4

theorem click_coherent (s : State) (i : Nat) (hi : i < 2) (h : coherent s) :
    coherent (click s i) := by
  have hi' : i = 0 ∨ i = 1 := by omega
  unfold click millis
  by_cases hidle : s.runstate = RUN_IDLE
  · rw [if_pos hidle]
    right
    rcases hi' with rfl | rfl
    · exact ⟨Or.inl rfl, rfl⟩
    · exact ⟨Or.inr rfl, rfl⟩
  · rw [if_neg hidle]
    have hset : ∀ idx v, coherent (setScore s idx v) := by
      intro idx v
      unfold setScore
      split_ifs <;> exact h
    have hset2 : ∀ r : State, coherent r → coherent { r with stateTime := r.ms } :=
      fun r hr => hr
    apply hset2
    split_ifs
    · exact hset _ _
    · exact h
    · exact hset _ _
    · exact h

theorem held_coherent (i : Nat) (s : State) (hi : i < 2) (h : coherent s) :
    coherent (held i s) := by
  unfold held
  split_ifs
  · exact Or.inl ⟨rfl, rfl⟩
  · exact click_coherent s i hi h
  · exact h
  · exact h

theorem button_coherent (pinb i : Nat) (s : State) (hi : i < 2) (h : coherent s) :
    coherent (button pinb i s) := by
  unfold button
  split_ifs
  · apply held_coherent _ _ hi
    unfold countPress setPressed
    split_ifs <;> exact h
  · unfold setPressed
    split_ifs <;> exact h

theorem step_coherent (s : State) (st : Step) (h : coherent s) : coherent (step s st) := by
  cases st with
  | tick pinb =>
    exact button_coherent pinb 1 _ (by decide) (button_coherent pinb 0 _ (by decide) h)
  | loop =>
    show coherent (mainLoop s)
    unfold mainLoop
    split_ifs
    · exact Or.inl ⟨rfl, rfl⟩
    · exact h

theorem run_coherent (steps : List Step) (s : State) (h : coherent s) :
    coherent (run s steps) := by
  induction steps generalizing s with
  | nil => exact h
  | cons st rest ih => exact ih (step s st) (step_coherent s st h)

end V4

namespace V0

theorem frame_coherent (s r : State) (h : coherent s) (h1 : r.runstate = s.runstate)
    (h2 : r.brightness = s.brightness) : coherent r := by
  unfold coherent at h ⊢
  rw [h1, h2]
  exact h

theorem event_coherent (uptime i : Nat) (s : State) (hi : i < 2) (h : coherent s) :
    coherent (event uptime i s) := by
  have hi' : i = 0 ∨ i = 1 := by omega
  unfold event
  split_ifs with hb hidle
  · have hb2 : ∀ r : State, (setButtons { r with stateTime := uptime } i BTN_RELEASED).runstate
        = r.runstate ∧
        (setButtons { r with stateTime := uptime } i BTN_RELEASED).brightness = r.brightness := by
      intro r; unfold setButtons; split_ifs <;> exact ⟨rfl, rfl⟩
    apply frame_coherent (activate i s) _ _ (hb2 _).1 (hb2 _).2
    right
    rcases hi' with rfl | rfl
    · exact ⟨Or.inl rfl, rfl⟩
    · exact ⟨Or.inr rfl, rfl⟩
  · have hb2 : ∀ r : State, (setButtons { r with stateTime := uptime } i BTN_RELEASED).runstate
        = r.runstate ∧
        (setButtons { r with stateTime := uptime } i BTN_RELEASED).brightness = r.brightness := by
      intro r; unfold setButtons; split_ifs <;> exact ⟨rfl, rfl⟩
    apply frame_coherent (edit i s) _ _ (hb2 _).1 (hb2 _).2
    apply frame_coherent s _ h (edit_runstate i s)
    unfold edit setScore
    split_ifs <;> rfl
  · exact h

theorem step0_coherent (s : State) (st : Step) (h : coherent s) : coherent (step s st) := by
  cases st with
  | isr pinb now =>
    apply frame_coherent s _ h
    · show (edge pinb now 1 (edge pinb now 0 s)).runstate = s.runstate
      rw [edge_runstate, edge_runstate]
    · show (edge pinb now 1 (edge pinb now 0 s)).brightness = s.brightness
      have hb : ∀ j (r : State), (edge pinb now j r).brightness = r.brightness := by
        intro j r
        unfold edge latch setPressedTimes setButtons
        split_ifs <;> rfl
      rw [hb, hb]
  | loop uptime =>
    show coherent (timeout uptime (event uptime 1 (event uptime 0 s)))
    have h1 := event_coherent uptime 1 _ (by decide) (event_coherent uptime 0 s (by decide) h)
    unfold timeout
    split_ifs
    · exact Or.inl ⟨rfl, rfl⟩
    · exact h1

theorem run0_coherent (steps : List Step) (s : State) (h : coherent s) :
    coherent (run s steps) := by
  induction steps generalizing s with
  | nil => exact h
  | cons st rest ih => exact ih (step s st) (step0_coherent s st h)

end V0

/-- C19: the brightness is a function of the run state. In every state
reached from the initial state by runs of the tick handler and iterations of
the main loop of `src/4`, the brightness is dim (2) exactly when the run state
is idle and normal (4) exactly when the run state is left or right, and it
has no other value. The same holds for every state reached by the pin-change
handler and the loop of `src/0`, whose loop `src/1` and `src/2` repeat. -/
theorem brightness_follows_runstate (steps4 : List V4.Step) (steps0 : List V0.Step) :
    (((V4.run V4.init steps4).brightness = 2 ↔ (V4.run V4.init steps4).runstate = V4.RUN_IDLE) ∧
      ((V4.run V4.init steps4).brightness = 4 ↔
        ((V4.run V4.init steps4).runstate = V4.RUN_LEFT ∨
         (V4.run V4.init steps4).runstate = V4.RUN_RIGHT)) ∧
      ((V4.run V4.init steps4).brightness = 2 ∨ (V4.run V4.init steps4).brightness = 4)) ∧
    (((V0.run V0.init steps0).brightness = 2 ↔ (V0.run V0.init steps0).runstate = V0.RUN_IDLE) ∧
      ((V0.run V0.init steps0).brightness = 4 ↔
        ((V0.run V0.init steps0).runstate = V0.RUN_LEFT ∨
         (V0.run V0.init steps0).runstate = V0.RUN_RIGHT)) ∧
      ((V0.run V0.init steps0).brightness = 2 ∨ (V0.run V0.init steps0).brightness = 4)) := by
  have h4 := V4.run_coherent steps4 V4.init (Or.inl ⟨rfl, rfl⟩)
  have h0 := V0.run0_coherent steps0 V0.init (Or.inl ⟨rfl, rfl⟩)
  unfold V4.coherent V4.RUN_IDLE V4.RUN_LEFT V4.RUN_RIGHT V4.DIM_BRIGHT V4.NORMAL_BRIGHT at h4
  unfold V0.coherent V0.RUN_IDLE V0.RUN_LEFT V0.RUN_RIGHT V0.DIM_BRIGHT V0.NORMAL_BRIGHT at h0
  unfold V4.RUN_IDLE V4.RUN_LEFT V4.RUN_RIGHT V0.RUN_IDLE V0.RUN_LEFT V0.RUN_RIGHT
  constructor
  · generalize (V4.run V4.init steps4).brightness = b at h4 ⊢
    generalize (V4.run V4.init steps4).runstate = r at h4 ⊢
    omega
  · generalize (V0.run V0.init steps0).brightness = b at h0 ⊢
    generalize (V0.run V0.init steps0).runstate = r at h0 ⊢
    omega

/-! ## The display on the bus: frames and bytes -/

/-- C17: the command sequence of a frame. For every frame `s0 s1 s2 s3` and
brightness `b`, `display(frame)` makes exactly the calls START, byte `0x40`,
STOP, START, byte `0xC0`, bytes `s0`, `s1`, `s2`, `s3`, STOP, START, byte
`0x88 | b`, STOP, and on the lines nothing but what these calls do, in this
order; START writes clock high, data high, data low, clock low and STOP writes
clock low, data low, clock high, data high. This holds for the driver of
`TM1637.h` on its pins and for `display` of `src/4` on port B, where START
and STOP write their first two levels in one access to `PORTB`. -/
theorem display_command_sequence (CLK_PIN DIO_PIN b s0 s1 s2 s3 : Nat) (reads : Nat → Nat) :
    (TM1637.display b [s0, s1, s2, s3] =
        [.start, .writeByte 0x40, .stop,
         .start, .writeByte 0xC0, .writeByte s0, .writeByte s1, .writeByte s2, .writeByte s3,
         .stop, .start, .writeByte (0x88 ||| b), .stop] ∧
      TM1637.pins CLK_PIN DIO_PIN reads 0 (TM1637.display b [s0, s1, s2, s3]) =
        TM1637._start CLK_PIN DIO_PIN ++
        (TM1637._writeByte CLK_PIN DIO_PIN 0x40 (reads 0)).1 ++
        TM1637._stop CLK_PIN DIO_PIN ++
        TM1637._start CLK_PIN DIO_PIN ++
        (TM1637._writeByte CLK_PIN DIO_PIN 0xC0 (reads 1)).1 ++
        (TM1637._writeByte CLK_PIN DIO_PIN s0 (reads 2)).1 ++
        (TM1637._writeByte CLK_PIN DIO_PIN s1 (reads 3)).1 ++
        (TM1637._writeByte CLK_PIN DIO_PIN s2 (reads 4)).1 ++
        (TM1637._writeByte CLK_PIN DIO_PIN s3 (reads 5)).1 ++
        TM1637._stop CLK_PIN DIO_PIN ++
        TM1637._start CLK_PIN DIO_PIN ++
        (TM1637._writeByte CLK_PIN DIO_PIN (0x88 ||| b) (reads 6)).1 ++
        TM1637._stop CLK_PIN DIO_PIN ∧
      (TM1637._start CLK_PIN DIO_PIN).flatMap TM1637.lineWrites =
        [⟨CLK_PIN, true⟩, ⟨DIO_PIN, true⟩, ⟨DIO_PIN, false⟩, ⟨CLK_PIN, false⟩] ∧
      (TM1637._stop CLK_PIN DIO_PIN).flatMap TM1637.lineWrites =
        [⟨CLK_PIN, false⟩, ⟨DIO_PIN, false⟩, ⟨CLK_PIN, true⟩, ⟨DIO_PIN, true⟩]) ∧
    (V4.display b [s0, s1, s2, s3] =
        [.start, .writeByte 0x40, .stop,
         .start, .writeByte 0xC0, .writeByte s0, .writeByte s1, .writeByte s2, .writeByte s3,
         .stop, .start, .writeByte (0x88 ||| b), .stop] ∧
      V4.ports reads 0 (V4.display b [s0, s1, s2, s3]) =
        V4._start ++ V4._writeByte 0x40 (reads 0) ++ V4._stop ++
        V4._start ++ V4._writeByte 0xC0 (reads 1) ++
        V4._writeByte s0 (reads 2) ++ V4._writeByte s1 (reads 3) ++
        V4._writeByte s2 (reads 4) ++ V4._writeByte s3 (reads 5) ++ V4._stop ++
        V4._start ++ V4._writeByte (0x88 ||| b) (reads 6) ++ V4._stop ∧
      V4._start = [.setPORTB 0b11000, .clrPORTB 0b10000, .clrPORTB 0b01000] ∧
      V4._stop = [.clrPORTB 0b11000, .setPORTB 0b01000, .setPORTB 0b10000] ∧
      V4._start.flatMap V4.lineWrites =
        [⟨V4.TM_CLK_PIN, true⟩, ⟨V4.TM_DIO_PIN, true⟩, ⟨V4.TM_DIO_PIN, false⟩,
         ⟨V4.TM_CLK_PIN, false⟩] ∧
      V4._stop.flatMap V4.lineWrites =
        [⟨V4.TM_CLK_PIN, false⟩, ⟨V4.TM_DIO_PIN, false⟩, ⟨V4.TM_CLK_PIN, true⟩,
         ⟨V4.TM_DIO_PIN, true⟩]) := by
  refine ⟨⟨rfl, ?_, rfl, rfl⟩, ⟨rfl, ?_, by decide, by decide, by decide, by decide⟩⟩
  · simp only [TM1637.display, TM1637.pins, List.range, List.range.loop, List.map, List.getD,
      List.get?, Option.getD, List.cons_append, List.nil_append, List.append_nil,
      List.append_assoc, TM1637.ADDR_AUTO, TM1637.STARTADDR]
  · simp only [V4.display, V4.ports, List.range, List.range.loop, List.map, List.getD,
      List.get?, Option.getD, List.cons_append, List.nil_append, List.append_nil,
      List.append_assoc]

namespace Bus

theorem bit_of_shift (b k : Nat) : (b >>> k) &&& 0x01 = bit b k := by
  unfold bit
  rw [Nat.shiftRight_eq_div_pow, Nat.and_one_is_mod]

theorem bit_value (b k : Nat) : (if bit b k = 1 then 1 else 0) = bit b k := by
  unfold bit
  split_ifs <;> omega

theorem assemble_bits (b : Nat) (hb : b < 256) :
    assemble ((List.range 8).map (fun k => decide (bit b k = 1))) = b := by
  simp only [List.range, List.range.loop, List.map, assemble, decide_eq_true_eq, bit_value]
  unfold bit
  norm_num
  omega

end Bus

namespace Bus

theorem bit_succ (b k : Nat) : bit (b >>> 1) k = bit b (k + 1) := by
  unfold bit
  rw [Nat.shiftRight_eq_div_pow, Nat.div_div_eq_div_mul, Nat.pow_succ 2 k, Nat.pow_one,
    Nat.mul_comm]

theorem bit_zero (b : Nat) : b &&& 0x01 = bit b 0 := by
  unfold bit
  rw [Nat.and_one_is_mod, Nat.pow_zero, Nat.div_one]

theorem bit_level (b k : Nat) : (bit b k != 0) = decide (bit b k = 1) := by
  have h : bit b k < 2 := by unfold bit; omega
  by_cases h1 : bit b k = 1
  · simp [h1]
  · have h0 : bit b k = 0 := by omega
    simp [h0]

theorem bitWrites_succ (clk dat b n : Nat) :
    bitWrites clk dat b (n + 1) =
      [⟨clk, false⟩, ⟨dat, decide (bit b 0 = 1)⟩, ⟨clk, true⟩] ++ bitWrites clk dat (b >>> 1) n := by
  unfold bitWrites
  rw [List.range_succ_eq_map, List.flatMap_cons, List.flatMap_map]
  simp only [bit_succ]

theorem sample_bitWrites (clk dat b n : Nat) (c d : Bool) (h : clk ≠ dat) :
    sample clk dat c d (bitWrites clk dat b n) = (List.range n).map (fun k => decide (bit b k = 1)) := by
  induction n generalizing b c d with
  | zero => rfl
  | succ n ih =>
    rw [bitWrites_succ, List.range_succ_eq_map, List.map_cons, List.map_map]
    have hd : ¬ dat = clk := fun e => h e.symm
    simp only [List.cons_append, List.nil_append, sample, if_true, if_neg hd, Bool.false_and,
      Bool.true_and, Bool.not_false, Bool.false_eq_true, if_false]
    show _ :: sample clk dat true _ (bitWrites clk dat (b >>> 1) n) = _
    rw [ih]
    congr 1
    apply List.map_congr_left
    intro k _
    simp only [Function.comp, bit_succ, Nat.succ_eq_add_one]

end Bus

namespace TM1637

theorem shiftOut_bits (CLK_PIN DIO_PIN n data : Nat) :
    shiftOut CLK_PIN DIO_PIN data n =
      (List.range n).flatMap (fun k =>
        [.digitalWrite CLK_PIN LOW, .digitalWrite DIO_PIN (Bus.bit data k),
         .digitalWrite CLK_PIN HIGH]) := by
  induction n generalizing data with
  | zero => rfl
  | succ n ih =>
    rw [List.range_succ_eq_map, List.flatMap_cons, List.flatMap_map]
    simp only [shiftOut]
    rw [ih, Bus.bit_zero]
    simp only [Bus.bit_succ]

theorem shiftOut_lines (CLK_PIN DIO_PIN n data : Nat) :
    (shiftOut CLK_PIN DIO_PIN data n).flatMap lineWrites = Bus.bitWrites CLK_PIN DIO_PIN data n := by
  induction n generalizing data with
  | zero => rfl
  | succ n ih =>
    rw [Bus.bitWrites_succ]
    simp only [shiftOut, List.flatMap_append, List.flatMap_cons, List.flatMap_nil, lineWrites,
      List.append_nil, List.cons_append, List.nil_append]
    rw [ih, Bus.bit_zero]
    have hl : (Bus.bit data 0 != LOW) = decide (Bus.bit data 0 = 1) := Bus.bit_level data 0
    rw [hl]
    rfl

theorem shiftOut_length (CLK_PIN DIO_PIN n data : Nat) :
    (shiftOut CLK_PIN DIO_PIN data n).length = 3 * n := by
  induction n generalizing data with
  | zero => rfl
  | succ n ih =>
    simp only [shiftOut, List.length_append, List.length_cons, List.length_nil]
    rw [ih]
    omega

end TM1637

namespace V4

theorem shiftOut_port_bits (n data : Nat) :
    shiftOut data n =
      (List.range n).flatMap (fun k =>
        [.clrPORTB (1 <<< TM_CLK_PIN),
         (if Bus.bit data k ≠ 0 then .setPORTB (1 <<< TM_DIO_PIN)
          else .clrPORTB (1 <<< TM_DIO_PIN)),
         .setPORTB (1 <<< TM_CLK_PIN)]) := by
  induction n generalizing data with
  | zero => rfl
  | succ n ih =>
    rw [List.range_succ_eq_map, List.flatMap_cons, List.flatMap_map]
    simp only [shiftOut]
    rw [ih, Bus.bit_zero]
    simp only [Bus.bit_succ]

theorem shiftOut_port_lines (n data : Nat) :
    (shiftOut data n).flatMap lineWrites = Bus.bitWrites TM_CLK_PIN TM_DIO_PIN data n := by
  induction n generalizing data with
  | zero => rfl
  | succ n ih =>
    rw [Bus.bitWrites_succ]
    have hc : lineWrites (.clrPORTB (1 <<< TM_CLK_PIN)) = [⟨TM_CLK_PIN, false⟩] := by decide
    have hs : lineWrites (.setPORTB (1 <<< TM_CLK_PIN)) = [⟨TM_CLK_PIN, true⟩] := by decide
    have hd : lineWrites (if data &&& 0x01 ≠ 0 then .setPORTB (1 <<< TM_DIO_PIN)
        else .clrPORTB (1 <<< TM_DIO_PIN)) = [⟨TM_DIO_PIN, decide (Bus.bit data 0 = 1)⟩] := by
      rw [Bus.bit_zero, ← Bus.bit_level]
      by_cases h : Bus.bit data 0 ≠ 0
      · rw [if_pos h]
        have : (Bus.bit data 0 != 0) = true := by simpa using h
        rw [this]; decide
      · rw [if_neg h]
        have : (Bus.bit data 0 != 0) = false := by simpa using h
        rw [this]; decide
    simp only [shiftOut, List.flatMap_append, List.flatMap_cons, List.flatMap_nil,
      List.append_nil, List.cons_append, List.nil_append]
    rw [ih, hc, hs, hd]
    rfl

theorem shiftOut_port_length (n data : Nat) : (shiftOut data n).length = 3 * n := by
  induction n generalizing data with
  | zero => rfl
  | succ n ih =>
    simp only [shiftOut, List.length_append, List.length_cons, List.length_nil]
    rw [ih]
    omega

end V4

/-- C18: a byte is sent least significant bit first and without loss. For
every byte `b`, before the clock pulse of the acknowledgment `_writeByte(b)`
does exactly 8 times: clock low, data written to bit `k` of `b`
(`k = 0 .. 7` in this order), clock high. A receiver that samples the data
line at these 8 rising edges of the clock reads the bits of `b` from bit 0
up, and assembling them least significant first gives `b` back. This holds
for `_writeByte` of `TM1637.h` on its two pins and for `_writeByte` of
`src/4` on port B. -/
theorem byte_transfer_lsb_first (CLK_PIN DIO_PIN b read pinb : Nat) (c d : Bool)
    (hpins : CLK_PIN ≠ DIO_PIN) (hb : b < 256) :
    ((TM1637._writeByte CLK_PIN DIO_PIN b read).1 =
        (List.range 8).flatMap (fun k =>
          [.digitalWrite CLK_PIN TM1637.LOW, .digitalWrite DIO_PIN (Bus.bit b k),
           .digitalWrite CLK_PIN TM1637.HIGH]) ++
        (TM1637.waitAck CLK_PIN DIO_PIN read).1 ∧
      (TM1637.waitAck CLK_PIN DIO_PIN read).1.take 3 =
        [.digitalWrite CLK_PIN TM1637.LOW, .digitalWrite DIO_PIN TM1637.HIGH,
         .digitalWrite CLK_PIN TM1637.HIGH] ∧
      Bus.sample CLK_PIN DIO_PIN c d
          (((TM1637._writeByte CLK_PIN DIO_PIN b read).1.take 24).flatMap TM1637.lineWrites) =
        (List.range 8).map (fun k => decide (Bus.bit b k = 1)) ∧
      Bus.assemble (Bus.sample CLK_PIN DIO_PIN c d
          (((TM1637._writeByte CLK_PIN DIO_PIN b read).1.take 24).flatMap TM1637.lineWrites)) =
        b) ∧
    (V4._writeByte b pinb =
        (List.range 8).flatMap (fun k =>
          [.clrPORTB (1 <<< V4.TM_CLK_PIN),
           (if Bus.bit b k ≠ 0 then .setPORTB (1 <<< V4.TM_DIO_PIN)
            else .clrPORTB (1 <<< V4.TM_DIO_PIN)),
           .setPORTB (1 <<< V4.TM_CLK_PIN)]) ++
        V4.waitAck pinb ∧
      (V4.waitAck pinb).take 3 =
        [.clrPORTB (1 <<< V4.TM_CLK_PIN), .setPORTB (1 <<< V4.TM_DIO_PIN),
         .setPORTB (1 <<< V4.TM_CLK_PIN)] ∧
      Bus.sample V4.TM_CLK_PIN V4.TM_DIO_PIN c d
          (((V4._writeByte b pinb).take 24).flatMap V4.lineWrites) =
        (List.range 8).map (fun k => decide (Bus.bit b k = 1)) ∧
      Bus.assemble (Bus.sample V4.TM_CLK_PIN V4.TM_DIO_PIN c d
          (((V4._writeByte b pinb).take 24).flatMap V4.lineWrites)) = b) := by
  have t0 : (TM1637._writeByte CLK_PIN DIO_PIN b read).1.take 24 =
      TM1637.shiftOut CLK_PIN DIO_PIN b 8 := by
    show ((TM1637.shiftOut CLK_PIN DIO_PIN b 8) ++ _).take 24 = _
    exact List.take_left' (TM1637.shiftOut_length CLK_PIN DIO_PIN 8 b)
  have t4 : (V4._writeByte b pinb).take 24 = V4.shiftOut b 8 := by
    show ((V4.shiftOut b 8) ++ _).take 24 = _
    exact List.take_left' (V4.shiftOut_port_length 8 b)
  have s0 := Bus.sample_bitWrites CLK_PIN DIO_PIN b 8 c d hpins
  have s4 := Bus.sample_bitWrites V4.TM_CLK_PIN V4.TM_DIO_PIN b 8 c d (by decide)
  refine ⟨⟨?_, rfl, ?_, ?_⟩, ⟨?_, rfl, ?_, ?_⟩⟩
  · show (TM1637.shiftOut CLK_PIN DIO_PIN b 8) ++ _ = _
    rw [TM1637.shiftOut_bits]
  · rw [t0, TM1637.shiftOut_lines, s0]
  · rw [t0, TM1637.shiftOut_lines, s0]
    exact Bus.assemble_bits b hb
  · show (V4.shiftOut b 8) ++ _ = _
    rw [V4.shiftOut_port_bits]
  · rw [t4, V4.shiftOut_port_lines, s4]
  · rw [t4, V4.shiftOut_port_lines, s4]
    exact Bus.assemble_bits b hb

/-- C18 at a concrete input: the byte `0xC0` on pins 3 and 4. -/
theorem byte_transfer_lsb_first_witness :
    Bus.sample 3 4 false false
        (((TM1637._writeByte 3 4 0xC0 0).1.take 24).flatMap TM1637.lineWrites) =
      [false, false, false, false, false, false, true, true] ∧
    Bus.assemble (Bus.sample V4.TM_CLK_PIN V4.TM_DIO_PIN false false
        (((V4._writeByte 0xC0 0).take 24).flatMap V4.lineWrites)) = 0xC0 :=
  have h := byte_transfer_lsb_first 3 4 0xC0 0 0 false false (by decide) (by decide)
  ⟨h.1.2.2.1, h.2.2.2.2⟩

/-! ## The timeout across a wrap of the tick counter -/

namespace V4

theorem mainLoop_scores (s : State) :
    (mainLoop s).score0 = s.score0 ∧ (mainLoop s).score1 = s.score1 := by
  unfold mainLoop
  split_ifs <;> exact ⟨rfl, rfl⟩

theorem wrapped_difference (n s : Nat) (hs : s < 65536) :
    ((n : Int) - (s : Int)) % 65536 = (((n + 65536 - s) % 65536 : Nat) : Int) := by
  omega

theorem mainLoop_fires (s : State) (h : s.runstate ≠ RUN_IDLE)
    (hd : STATE_DURATION ≤ (s.ms + 65536 - s.stateTime) % 65536) :
    mainLoop s = { s with runstate := RUN_IDLE, brightness := DIM_BRIGHT } := by
  unfold mainLoop millis
  rw [if_pos ⟨h, hd⟩]

theorem elapsed_difference (s e : Nat) (hs : s < 65536) (he : e < 65536) :
    ((s + e) % 65536 + 65536 - s) % 65536 = e := by
  omega

end V4

/-- C21: the timeout is safe across a wrap of the 16-bit tick counter. In
`src/4`, for a state with an active side, tick counter `n` and a 16-bit
`stateTime` `s`, one iteration of the main loop sets the
run state to Idle and the brightness to Dim when `(n - s) mod 2^16` is at
least 2000, leaves the state unchanged when it is less, and so is Idle and
Dim afterwards exactly when `(n - s) mod 2^16 >= 2000`; it changes no score.
Hence if `e < 65536` ticks have elapsed since `s`, so that
`n = (s + e) mod 2^16`, the timeout fires if and only if `e >= 2000`, also
when `n < s`. -/
theorem timeout_wraparound_safe (st : V4.State) (e : Nat)
    (hact : st.runstate ≠ V4.RUN_IDLE) (hs : st.stateTime < 65536) :
    (2000 ≤ ((st.ms : Int) - (st.stateTime : Int)) % 65536 →
      V4.mainLoop st = { st with runstate := V4.RUN_IDLE, brightness := V4.DIM_BRIGHT }) ∧
    (((st.ms : Int) - (st.stateTime : Int)) % 65536 < 2000 → V4.mainLoop st = st) ∧
    ((V4.mainLoop st).runstate = V4.RUN_IDLE ∧ (V4.mainLoop st).brightness = V4.DIM_BRIGHT ↔
      2000 ≤ ((st.ms : Int) - (st.stateTime : Int)) % 65536) ∧
    (V4.mainLoop st).score0 = st.score0 ∧ (V4.mainLoop st).score1 = st.score1 ∧
    (e < 65536 → st.ms = (st.stateTime + e) % 65536 →
      ((V4.mainLoop st).runstate = V4.RUN_IDLE ↔ 2000 ≤ e) ∧
      ((V4.mainLoop st).brightness = V4.DIM_BRIGHT ∧ (V4.mainLoop st).runstate = V4.RUN_IDLE ↔
        2000 ≤ e) ∧
      (e < 2000 → V4.mainLoop st = st)) := by
  have hw := V4.wrapped_difference st.ms st.stateTime hs
  have hfire : 2000 ≤ ((st.ms : Int) - (st.stateTime : Int)) % 65536 →
      V4.mainLoop st = { st with runstate := V4.RUN_IDLE, brightness := V4.DIM_BRIGHT } := by
    intro h
    apply V4.mainLoop_fires st hact
    unfold V4.STATE_DURATION
    omega
  have hkeep : ((st.ms : Int) - (st.stateTime : Int)) % 65536 < 2000 → V4.mainLoop st = st := by
    intro h
    apply V4.mainLoop_early
    unfold V4.STATE_DURATION
    omega
  have hiff : ((V4.mainLoop st).runstate = V4.RUN_IDLE ∧
      (V4.mainLoop st).brightness = V4.DIM_BRIGHT ↔
      2000 ≤ ((st.ms : Int) - (st.stateTime : Int)) % 65536) := by
    constructor
    · intro h
      by_contra hlt
      rw [hkeep (by omega)] at h
      exact hact h.1
    · intro h
      rw [hfire h]
      exact ⟨rfl, rfl⟩
  refine ⟨hfire, hkeep, hiff, (V4.mainLoop_scores st).1, (V4.mainLoop_scores st).2, ?_⟩
  intro he hms
  have hd : (st.ms + 65536 - st.stateTime) % 65536 = e := by
    rw [hms]
    exact V4.elapsed_difference st.stateTime e hs he
  have hde : ((st.ms : Int) - (st.stateTime : Int)) % 65536 = (e : Int) := by
    rw [hw, hd]
  rw [hde] at hiff hkeep
  refine ⟨?_, ?_, ?_⟩
  · constructor
    · intro h
      by_contra hlt
      rw [hkeep (by omega)] at h
      exact hact h
    · intro h
      exact (hiff.mpr (by omega)).1
  · constructor
    · intro h
      have := hiff.mp ⟨h.2, h.1⟩
      omega
    · intro h
      have := hiff.mpr (by omega)
      exact ⟨this.2, this.1⟩
  · intro h
    exact hkeep (by omega)

/-- C21 at two concrete inputs: last click at tick 65000, counter
wrapped to 1500 (2036 ticks elapsed) fires; counter at 1000 (1536 ticks
elapsed) does not. -/
theorem timeout_wraparound_safe_witness :
    ((V4.mainLoop V4.wrappedLate).brightness = V4.DIM_BRIGHT ∧
      (V4.mainLoop V4.wrappedLate).runstate = V4.RUN_IDLE) ∧
    V4.mainLoop V4.wrappedEarly = V4.wrappedEarly :=
  ⟨((timeout_wraparound_safe V4.wrappedLate 2036 (by decide) (by decide)).2.2.2.2.2
      (by decide) (by decide)).2.1.mpr (by decide),
   ((timeout_wraparound_safe V4.wrappedEarly 1536 (by decide) (by decide)).2.2.2.2.2
      (by decide) (by decide)).2.2 (by decide)⟩

/-! ## The acknowledgment read does not change what is sent -/

namespace Bus

theorem sample_clk_low (clk dat : Nat) (c d : Bool) (rest : List LineWrite) :
    sample clk dat c d (⟨clk, false⟩ :: rest) = sample clk dat false d rest := by
  simp [sample]

theorem sample_clk_rise (clk dat : Nat) (d : Bool) (rest : List LineWrite) :
    sample clk dat false d (⟨clk, true⟩ :: rest) = d :: sample clk dat true d rest := by
  simp [sample]

theorem sample_clk_high (clk dat : Nat) (d : Bool) (rest : List LineWrite) :
    sample clk dat true d (⟨clk, true⟩ :: rest) = sample clk dat true d rest := by
  simp [sample]

theorem sample_dat (clk dat : Nat) (c d v : Bool) (rest : List LineWrite) (h : clk ≠ dat) :
    sample clk dat c d (⟨dat, v⟩ :: rest) = sample clk dat c v rest := by
  simp [sample, Ne.symm h]

theorem sample_bits_append (clk dat n : Nat) (h : clk ≠ dat) (b : Nat) (c d : Bool)
    (rest : List LineWrite) :
    sample clk dat c d (bitWrites clk dat b (n + 1) ++ rest) =
      (List.range (n + 1)).map (fun k => decide (bit b k = 1)) ++
        sample clk dat true (decide (bit b n = 1)) rest := by
  induction n generalizing b c d with
  | zero =>
    rw [bitWrites_succ]
    simp only [bitWrites, List.range_zero, List.flatMap_nil, List.append_nil, List.cons_append,
      List.nil_append]
    rw [sample_clk_low, sample_dat _ _ _ _ _ _ h, sample_clk_rise]
    rfl
  | succ n ih =>
    rw [bitWrites_succ, List.append_assoc]
    simp only [List.cons_append, List.nil_append]
    rw [sample_clk_low, sample_dat _ _ _ _ _ _ h, sample_clk_rise, ih,
      List.range_succ_eq_map (n + 1), List.map_cons, List.map_map]
    simp only [bit_succ, Function.comp_def, List.cons_append]

theorem sample_byte_append (clk dat : Nat) (h : clk ≠ dat) (b : Nat) (c d : Bool)
    (rest : List LineWrite) :
    sample clk dat c d (bitWrites clk dat b 8 ++ rest) =
      (List.range 8).map (fun k => decide (bit b k = 1)) ++
        sample clk dat true (decide (bit b 7 = 1)) rest :=
  sample_bits_append clk dat 7 h b c d rest

theorem onLine_append (line : Nat) (xs ys : List LineWrite) :
    onLine line (xs ++ ys) = onLine line xs ++ onLine line ys := by
  unfold onLine
  rw [List.filter_append]

end Bus

namespace TM1637

theorem waitAck_lines (CLK_PIN DIO_PIN read : Nat) :
    (waitAck CLK_PIN DIO_PIN read).1.flatMap lineWrites =
      [⟨CLK_PIN, false⟩, ⟨DIO_PIN, true⟩, ⟨CLK_PIN, true⟩] ++
        (if read = 0 then [⟨DIO_PIN, false⟩] else []) := by
  unfold waitAck
  by_cases hr : read = 0
  · subst hr
    rfl
  · have hb : (read != 0) = true := by simpa using hr
    simp only [hb, if_neg hr]
    rfl

theorem pins_start_lines (CLK_PIN DIO_PIN : Nat) (reads : Nat → Nat) (k : Nat)
    (rest : List BusOp) :
    (pins CLK_PIN DIO_PIN reads k (.start :: rest)).flatMap lineWrites =
      [⟨CLK_PIN, true⟩, ⟨DIO_PIN, true⟩, ⟨DIO_PIN, false⟩, ⟨CLK_PIN, false⟩] ++
        (pins CLK_PIN DIO_PIN reads k rest).flatMap lineWrites := by
  rw [pins, List.flatMap_append]
  rfl

theorem pins_stop_lines (CLK_PIN DIO_PIN : Nat) (reads : Nat → Nat) (k : Nat)
    (rest : List BusOp) :
    (pins CLK_PIN DIO_PIN reads k (.stop :: rest)).flatMap lineWrites =
      [⟨CLK_PIN, false⟩, ⟨DIO_PIN, false⟩, ⟨CLK_PIN, true⟩, ⟨DIO_PIN, true⟩] ++
        (pins CLK_PIN DIO_PIN reads k rest).flatMap lineWrites := by
  rw [pins, List.flatMap_append]
  rfl

theorem pins_byte_lines (CLK_PIN DIO_PIN : Nat) (reads : Nat → Nat) (k data : Nat)
    (rest : List BusOp) :
    (pins CLK_PIN DIO_PIN reads k (.writeByte data :: rest)).flatMap lineWrites =
      Bus.bitWrites CLK_PIN DIO_PIN data 8 ++
        ([⟨CLK_PIN, false⟩, ⟨DIO_PIN, true⟩, ⟨CLK_PIN, true⟩] ++
          ((if reads k = 0 then [⟨DIO_PIN, false⟩] else []) ++
            (pins CLK_PIN DIO_PIN reads (k + 1) rest).flatMap lineWrites)) := by
  rw [pins, List.flatMap_append]
  show (shiftOut CLK_PIN DIO_PIN data 8 ++ (waitAck CLK_PIN DIO_PIN (reads k)).1).flatMap
    lineWrites ++ _ = _
  rw [List.flatMap_append, shiftOut_lines, waitAck_lines, List.append_assoc, List.append_assoc]

theorem sample_start (CLK_PIN DIO_PIN : Nat) (reads : Nat → Nat) (k : Nat) (rest : List BusOp)
    (c d : Bool) (h : CLK_PIN ≠ DIO_PIN) :
    Bus.sample CLK_PIN DIO_PIN c d
        ((pins CLK_PIN DIO_PIN reads k (.start :: rest)).flatMap lineWrites) =
      (if c then [] else [d]) ++
        Bus.sample CLK_PIN DIO_PIN false false
          ((pins CLK_PIN DIO_PIN reads k rest).flatMap lineWrites) := by
  rw [pins_start_lines]
  simp only [List.cons_append, List.nil_append]
  cases c
  · rw [Bus.sample_clk_rise, Bus.sample_dat _ _ _ _ _ _ h, Bus.sample_dat _ _ _ _ _ _ h,
      Bus.sample_clk_low]
    rfl
  · rw [Bus.sample_clk_high, Bus.sample_dat _ _ _ _ _ _ h, Bus.sample_dat _ _ _ _ _ _ h,
      Bus.sample_clk_low]
    rfl

theorem sample_stop (CLK_PIN DIO_PIN : Nat) (reads : Nat → Nat) (k : Nat) (rest : List BusOp)
    (c d : Bool) (h : CLK_PIN ≠ DIO_PIN) :
    Bus.sample CLK_PIN DIO_PIN c d
        ((pins CLK_PIN DIO_PIN reads k (.stop :: rest)).flatMap lineWrites) =
      false :: Bus.sample CLK_PIN DIO_PIN true true
          ((pins CLK_PIN DIO_PIN reads k rest).flatMap lineWrites) := by
  rw [pins_stop_lines]
  simp only [List.cons_append, List.nil_append]
  rw [Bus.sample_clk_low, Bus.sample_dat _ _ _ _ _ _ h, Bus.sample_clk_rise,
    Bus.sample_dat _ _ _ _ _ _ h]

theorem sample_byte (CLK_PIN DIO_PIN : Nat) (reads : Nat → Nat) (k data : Nat)
    (rest : List BusOp) (c d : Bool) (h : CLK_PIN ≠ DIO_PIN) :
    Bus.sample CLK_PIN DIO_PIN c d
        ((pins CLK_PIN DIO_PIN reads k (.writeByte data :: rest)).flatMap lineWrites) =
      Bus.byteSamples data ++ Bus.sample CLK_PIN DIO_PIN true (decide (reads k ≠ 0))
          ((pins CLK_PIN DIO_PIN reads (k + 1) rest).flatMap lineWrites) := by
  rw [pins_byte_lines, Bus.sample_byte_append _ _ h]
  simp only [List.cons_append, List.nil_append]
  rw [Bus.sample_clk_low, Bus.sample_dat _ _ _ _ _ _ h, Bus.sample_clk_rise]
  unfold Bus.byteSamples
  by_cases hr : reads k = 0
  · simp only [if_pos hr, List.cons_append, List.nil_append]
    rw [Bus.sample_dat _ _ _ _ _ _ h]
    simp [hr]
  · simp only [if_neg hr, List.nil_append]
    simp [hr]

theorem sample_reads (CLK_PIN DIO_PIN : Nat) (r1 r2 : Nat → Nat) (h : CLK_PIN ≠ DIO_PIN)
    (ops : List BusOp) (k : Nat) (c d1 d2 : Bool) (hd : c = true ∨ d1 = d2) :
    Bus.sample CLK_PIN DIO_PIN c d1 ((pins CLK_PIN DIO_PIN r1 k ops).flatMap lineWrites) =
      Bus.sample CLK_PIN DIO_PIN c d2 ((pins CLK_PIN DIO_PIN r2 k ops).flatMap lineWrites) := by
  induction ops generalizing k c d1 d2 with
  | nil => rfl
  | cons op rest ih =>
    cases op with
    | start =>
      rw [sample_start _ _ _ _ _ _ _ h, sample_start _ _ _ _ _ _ _ h,
        ih k false false false (Or.inr rfl)]
      rcases hd with hc | hc
      · rw [hc]
        rfl
      · rw [hc]
    | stop =>
      rw [sample_stop _ _ _ _ _ _ _ h, sample_stop _ _ _ _ _ _ _ h,
        ih k true true true (Or.inl rfl)]
    | writeByte data =>
      rw [sample_byte _ _ _ _ _ _ _ _ h, sample_byte _ _ _ _ _ _ _ _ h,
        ih (k + 1) true _ (decide (r2 k ≠ 0)) (Or.inl rfl)]

theorem clock_reads (CLK_PIN DIO_PIN : Nat) (r1 r2 : Nat → Nat) (h : CLK_PIN ≠ DIO_PIN)
    (ops : List BusOp) (k : Nat) :
    Bus.onLine CLK_PIN ((pins CLK_PIN DIO_PIN r1 k ops).flatMap lineWrites) =
      Bus.onLine CLK_PIN ((pins CLK_PIN DIO_PIN r2 k ops).flatMap lineWrites) := by
  have hack : ∀ read : Nat, Bus.onLine CLK_PIN
      (if read = 0 then [(⟨DIO_PIN, false⟩ : Bus.LineWrite)] else []) = [] := by
    intro read
    unfold Bus.onLine
    split_ifs
    · simp [Ne.symm h]
    · rfl
  induction ops generalizing k with
  | nil => rfl
  | cons op rest ih =>
    cases op with
    | start => rw [pins_start_lines, pins_start_lines, Bus.onLine_append, Bus.onLine_append, ih k]
    | stop => rw [pins_stop_lines, pins_stop_lines, Bus.onLine_append, Bus.onLine_append, ih k]
    | writeByte data =>
      rw [pins_byte_lines, pins_byte_lines]
      simp only [Bus.onLine_append, hack, ih (k + 1)]

end TM1637

namespace TM1637

theorem sample_start_high (CLK_PIN DIO_PIN : Nat) (reads : Nat → Nat) (k : Nat)
    (rest : List BusOp) (d : Bool) (h : CLK_PIN ≠ DIO_PIN) :
    Bus.sample CLK_PIN DIO_PIN true d
        ((pins CLK_PIN DIO_PIN reads k (.start :: rest)).flatMap lineWrites) =
      Bus.sample CLK_PIN DIO_PIN false false
        ((pins CLK_PIN DIO_PIN reads k rest).flatMap lineWrites) := by
  rw [sample_start _ _ _ _ _ _ _ h]
  rfl

theorem display_calls (b s0 s1 s2 s3 : Nat) :
    display b [s0, s1, s2, s3] =
      [.start, .writeByte 0x40, .stop,
       .start, .writeByte 0xC0, .writeByte s0, .writeByte s1, .writeByte s2, .writeByte s3,
       .stop, .start, .writeByte (0x88 ||| b), .stop] := rfl

theorem display_samples (CLK_PIN DIO_PIN b s0 s1 s2 s3 : Nat) (reads : Nat → Nat) (c d : Bool)
    (h : CLK_PIN ≠ DIO_PIN) :
    Bus.sample CLK_PIN DIO_PIN c d
        ((pins CLK_PIN DIO_PIN reads 0 (display b [s0, s1, s2, s3])).flatMap lineWrites) =
      (if c then [] else [d]) ++ Bus.frameSamples b s0 s1 s2 s3 := by
  rw [display_calls, sample_start _ _ _ _ _ _ _ h, sample_byte _ _ _ _ _ _ _ _ h,
    sample_stop _ _ _ _ _ _ _ h, sample_start_high _ _ _ _ _ _ h,
    sample_byte _ _ _ _ _ _ _ _ h, sample_byte _ _ _ _ _ _ _ _ h,
    sample_byte _ _ _ _ _ _ _ _ h, sample_byte _ _ _ _ _ _ _ _ h,
    sample_byte _ _ _ _ _ _ _ _ h, sample_stop _ _ _ _ _ _ _ h,
    sample_start_high _ _ _ _ _ _ h, sample_byte _ _ _ _ _ _ _ _ h,
    sample_stop _ _ _ _ _ _ _ h]
  simp only [pins, List.flatMap_nil, Bus.sample, Bus.frameSamples, List.append_assoc,
    List.cons_append, List.nil_append, List.append_nil]

theorem display_pins (CLK_PIN DIO_PIN b s0 s1 s2 s3 : Nat) (reads : Nat → Nat) :
    pins CLK_PIN DIO_PIN reads 0 (display b [s0, s1, s2, s3]) =
      _start CLK_PIN DIO_PIN ++
      shiftOut CLK_PIN DIO_PIN 0x40 8 ++ (waitAck CLK_PIN DIO_PIN (reads 0)).1 ++
      _stop CLK_PIN DIO_PIN ++
      _start CLK_PIN DIO_PIN ++
      shiftOut CLK_PIN DIO_PIN 0xC0 8 ++ (waitAck CLK_PIN DIO_PIN (reads 1)).1 ++
      shiftOut CLK_PIN DIO_PIN s0 8 ++ (waitAck CLK_PIN DIO_PIN (reads 2)).1 ++
      shiftOut CLK_PIN DIO_PIN s1 8 ++ (waitAck CLK_PIN DIO_PIN (reads 3)).1 ++
      shiftOut CLK_PIN DIO_PIN s2 8 ++ (waitAck CLK_PIN DIO_PIN (reads 4)).1 ++
      shiftOut CLK_PIN DIO_PIN s3 8 ++ (waitAck CLK_PIN DIO_PIN (reads 5)).1 ++
      _stop CLK_PIN DIO_PIN ++
      _start CLK_PIN DIO_PIN ++
      shiftOut CLK_PIN DIO_PIN (0x88 ||| b) 8 ++ (waitAck CLK_PIN DIO_PIN (reads 6)).1 ++
      _stop CLK_PIN DIO_PIN := by
  rw [display_calls]
  simp only [pins, _writeByte, List.append_assoc, List.append_nil]

end TM1637

namespace V4

theorem waitAck_port_lines (pinb : Nat) :
    (waitAck pinb).flatMap lineWrites =
      [⟨TM_CLK_PIN, false⟩, ⟨TM_DIO_PIN, true⟩, ⟨TM_CLK_PIN, true⟩, ⟨TM_DIO_PIN, false⟩] := by
  unfold waitAck
  split_ifs <;> decide

theorem ports_start_lines (reads : Nat → Nat) (k : Nat) (rest : List TM1637.BusOp) :
    (ports reads k (.start :: rest)).flatMap lineWrites =
      [⟨TM_CLK_PIN, true⟩, ⟨TM_DIO_PIN, true⟩, ⟨TM_DIO_PIN, false⟩, ⟨TM_CLK_PIN, false⟩] ++
        (ports reads k rest).flatMap lineWrites := by
  have hl : _start.flatMap lineWrites =
      [⟨TM_CLK_PIN, true⟩, ⟨TM_DIO_PIN, true⟩, ⟨TM_DIO_PIN, false⟩, ⟨TM_CLK_PIN, false⟩] := by
    decide
  rw [ports, List.flatMap_append, hl]

theorem ports_stop_lines (reads : Nat → Nat) (k : Nat) (rest : List TM1637.BusOp) :
    (ports reads k (.stop :: rest)).flatMap lineWrites =
      [⟨TM_CLK_PIN, false⟩, ⟨TM_DIO_PIN, false⟩, ⟨TM_CLK_PIN, true⟩, ⟨TM_DIO_PIN, true⟩] ++
        (ports reads k rest).flatMap lineWrites := by
  have hl : _stop.flatMap lineWrites =
      [⟨TM_CLK_PIN, false⟩, ⟨TM_DIO_PIN, false⟩, ⟨TM_CLK_PIN, true⟩, ⟨TM_DIO_PIN, true⟩] := by
    decide
  rw [ports, List.flatMap_append, hl]

theorem ports_byte_lines (reads : Nat → Nat) (k data : Nat) (rest : List TM1637.BusOp) :
    (ports reads k (.writeByte data :: rest)).flatMap lineWrites =
      Bus.bitWrites TM_CLK_PIN TM_DIO_PIN data 8 ++
        ([⟨TM_CLK_PIN, false⟩, ⟨TM_DIO_PIN, true⟩, ⟨TM_CLK_PIN, true⟩, ⟨TM_DIO_PIN, false⟩] ++
          (ports reads (k + 1) rest).flatMap lineWrites) := by
  rw [ports, List.flatMap_append]
  unfold _writeByte
  rw [List.flatMap_append, shiftOut_port_lines, waitAck_port_lines, List.append_assoc]

theorem port_lines_reads (r1 r2 : Nat → Nat) (ops : List TM1637.BusOp) (k : Nat) :
    (ports r1 k ops).flatMap lineWrites = (ports r2 k ops).flatMap lineWrites := by
  induction ops generalizing k with
  | nil => rfl
  | cons op rest ih =>
    cases op with
    | start => rw [ports_start_lines, ports_start_lines, ih k]
    | stop => rw [ports_stop_lines, ports_stop_lines, ih k]
    | writeByte data => rw [ports_byte_lines, ports_byte_lines, ih (k + 1)]

theorem pins_differ : TM_CLK_PIN ≠ TM_DIO_PIN := by decide

theorem sample_port_start (reads : Nat → Nat) (k : Nat) (rest : List TM1637.BusOp)
    (c d : Bool) :
    Bus.sample TM_CLK_PIN TM_DIO_PIN c d ((ports reads k (.start :: rest)).flatMap lineWrites) =
      (if c then [] else [d]) ++
        Bus.sample TM_CLK_PIN TM_DIO_PIN false false ((ports reads k rest).flatMap lineWrites) := by
  rw [ports_start_lines]
  simp only [List.cons_append, List.nil_append]
  cases c
  · rw [Bus.sample_clk_rise, Bus.sample_dat _ _ _ _ _ _ pins_differ,
      Bus.sample_dat _ _ _ _ _ _ pins_differ, Bus.sample_clk_low]
    rfl
  · rw [Bus.sample_clk_high, Bus.sample_dat _ _ _ _ _ _ pins_differ,
      Bus.sample_dat _ _ _ _ _ _ pins_differ, Bus.sample_clk_low]
    rfl

theorem sample_port_start_high (reads : Nat → Nat) (k : Nat) (rest : List TM1637.BusOp)
    (d : Bool) :
    Bus.sample TM_CLK_PIN TM_DIO_PIN true d
        ((ports reads k (.start :: rest)).flatMap lineWrites) =
      Bus.sample TM_CLK_PIN TM_DIO_PIN false false ((ports reads k rest).flatMap lineWrites) := by
  rw [sample_port_start]
  rfl

theorem sample_port_stop (reads : Nat → Nat) (k : Nat) (rest : List TM1637.BusOp)
    (c d : Bool) :
    Bus.sample TM_CLK_PIN TM_DIO_PIN c d ((ports reads k (.stop :: rest)).flatMap lineWrites) =
      false :: Bus.sample TM_CLK_PIN TM_DIO_PIN true true
        ((ports reads k rest).flatMap lineWrites) := by
  rw [ports_stop_lines]
  simp only [List.cons_append, List.nil_append]
  rw [Bus.sample_clk_low, Bus.sample_dat _ _ _ _ _ _ pins_differ, Bus.sample_clk_rise,
    Bus.sample_dat _ _ _ _ _ _ pins_differ]

theorem sample_port_byte (reads : Nat → Nat) (k data : Nat) (rest : List TM1637.BusOp)
    (c d : Bool) :
    Bus.sample TM_CLK_PIN TM_DIO_PIN c d
        ((ports reads k (.writeByte data :: rest)).flatMap lineWrites) =
      Bus.byteSamples data ++ Bus.sample TM_CLK_PIN TM_DIO_PIN true false
        ((ports reads (k + 1) rest).flatMap lineWrites) := by
  rw [ports_byte_lines, Bus.sample_byte_append _ _ pins_differ]
  simp only [List.cons_append, List.nil_append]
  rw [Bus.sample_clk_low, Bus.sample_dat _ _ _ _ _ _ pins_differ, Bus.sample_clk_rise,
    Bus.sample_dat _ _ _ _ _ _ pins_differ]
  unfold Bus.byteSamples
  simp only [List.append_assoc, List.cons_append, List.nil_append]

theorem display_port_calls (b s0 s1 s2 s3 : Nat) :
    display b [s0, s1, s2, s3] =
      [.start, .writeByte 0x40, .stop,
       .start, .writeByte 0xC0, .writeByte s0, .writeByte s1, .writeByte s2, .writeByte s3,
       .stop, .start, .writeByte (0x88 ||| b), .stop] := rfl

theorem display_port_samples (b s0 s1 s2 s3 : Nat) (reads : Nat → Nat) (c d : Bool) :
    Bus.sample TM_CLK_PIN TM_DIO_PIN c d
        ((ports reads 0 (display b [s0, s1, s2, s3])).flatMap lineWrites) =
      (if c then [] else [d]) ++ Bus.frameSamples b s0 s1 s2 s3 := by
  rw [display_port_calls, sample_port_start, sample_port_byte, sample_port_stop,
    sample_port_start_high, sample_port_byte, sample_port_byte, sample_port_byte,
    sample_port_byte, sample_port_byte, sample_port_stop, sample_port_start_high,
    sample_port_byte, sample_port_stop]
  simp only [ports, List.flatMap_nil, Bus.sample, Bus.frameSamples, List.append_assoc,
    List.cons_append, List.nil_append, List.append_nil]

theorem display_ports (b s0 s1 s2 s3 : Nat) (reads : Nat → Nat) :
    ports reads 0 (display b [s0, s1, s2, s3]) =
      _start ++ shiftOut 0x40 8 ++ waitAck (reads 0) ++ _stop ++
      _start ++ shiftOut 0xC0 8 ++ waitAck (reads 1) ++
      shiftOut s0 8 ++ waitAck (reads 2) ++ shiftOut s1 8 ++ waitAck (reads 3) ++
      shiftOut s2 8 ++ waitAck (reads 4) ++ shiftOut s3 8 ++ waitAck (reads 5) ++ _stop ++
      _start ++ shiftOut (0x88 ||| b) 8 ++ waitAck (reads 6) ++ _stop := by
  rw [display_port_calls]
  simp only [ports, _writeByte, List.append_assoc, List.append_nil]

end V4

/-- C22: the acknowledgment is never surfaced or retried. For every frame
`s0 s1 s2 s3` and brightness `b` and any two sequences `r1`, `r2` of values
read in the acknowledgment slots, the two runs of `display(frame)` make the
same calls START, byte, STOP in the same order, the trace of each being
START, `0x40`, STOP, START, `0xC0`, `s0`, `s1`, `s2`, `s3`, STOP, START,
`0x88 | b`, STOP with the 8 bit transfers of each byte followed by its
acknowledgment slot, the only part the read enters; both runs make the same
writes on the clock line, and a receiver that samples the data line at the
rising edges of the clock reads the same levels in both: the bits of the 7
bytes in this order, each byte followed by the high level of its
acknowledgment pulse and each command closed by the low level at its STOP.
This holds for the driver of `TM1637.h` on two different pins and for
`display` of `src/4` on port B, where all line writes of the two runs are
the same. -/
theorem acknowledgment_never_surfaced (CLK_PIN DIO_PIN b s0 s1 s2 s3 : Nat)
    (r1 r2 : Nat → Nat) (c d : Bool) (hpins : CLK_PIN ≠ DIO_PIN) :
    (Bus.onLine CLK_PIN
          ((TM1637.pins CLK_PIN DIO_PIN r1 0 (TM1637.display b [s0, s1, s2, s3])).flatMap
            TM1637.lineWrites) =
        Bus.onLine CLK_PIN
          ((TM1637.pins CLK_PIN DIO_PIN r2 0 (TM1637.display b [s0, s1, s2, s3])).flatMap
            TM1637.lineWrites) ∧
      Bus.sample CLK_PIN DIO_PIN c d
          ((TM1637.pins CLK_PIN DIO_PIN r1 0 (TM1637.display b [s0, s1, s2, s3])).flatMap
            TM1637.lineWrites) =
        Bus.sample CLK_PIN DIO_PIN c d
          ((TM1637.pins CLK_PIN DIO_PIN r2 0 (TM1637.display b [s0, s1, s2, s3])).flatMap
            TM1637.lineWrites) ∧
      Bus.sample CLK_PIN DIO_PIN c d
          ((TM1637.pins CLK_PIN DIO_PIN r1 0 (TM1637.display b [s0, s1, s2, s3])).flatMap
            TM1637.lineWrites) =
        (if c then [] else [d]) ++ Bus.frameSamples b s0 s1 s2 s3 ∧
      TM1637.pins CLK_PIN DIO_PIN r1 0 (TM1637.display b [s0, s1, s2, s3]) =
        TM1637._start CLK_PIN DIO_PIN ++
        TM1637.shiftOut CLK_PIN DIO_PIN 0x40 8 ++ (TM1637.waitAck CLK_PIN DIO_PIN (r1 0)).1 ++
        TM1637._stop CLK_PIN DIO_PIN ++
        TM1637._start CLK_PIN DIO_PIN ++
        TM1637.shiftOut CLK_PIN DIO_PIN 0xC0 8 ++ (TM1637.waitAck CLK_PIN DIO_PIN (r1 1)).1 ++
        TM1637.shiftOut CLK_PIN DIO_PIN s0 8 ++ (TM1637.waitAck CLK_PIN DIO_PIN (r1 2)).1 ++
        TM1637.shiftOut CLK_PIN DIO_PIN s1 8 ++ (TM1637.waitAck CLK_PIN DIO_PIN (r1 3)).1 ++
        TM1637.shiftOut CLK_PIN DIO_PIN s2 8 ++ (TM1637.waitAck CLK_PIN DIO_PIN (r1 4)).1 ++
        TM1637.shiftOut CLK_PIN DIO_PIN s3 8 ++ (TM1637.waitAck CLK_PIN DIO_PIN (r1 5)).1 ++
        TM1637._stop CLK_PIN DIO_PIN ++
        TM1637._start CLK_PIN DIO_PIN ++
        TM1637.shiftOut CLK_PIN DIO_PIN (0x88 ||| b) 8 ++
        (TM1637.waitAck CLK_PIN DIO_PIN (r1 6)).1 ++
        TM1637._stop CLK_PIN DIO_PIN) ∧
    ((V4.ports r1 0 (V4.display b [s0, s1, s2, s3])).flatMap V4.lineWrites =
        (V4.ports r2 0 (V4.display b [s0, s1, s2, s3])).flatMap V4.lineWrites ∧
      Bus.sample V4.TM_CLK_PIN V4.TM_DIO_PIN c d
          ((V4.ports r1 0 (V4.display b [s0, s1, s2, s3])).flatMap V4.lineWrites) =
        (if c then [] else [d]) ++ Bus.frameSamples b s0 s1 s2 s3 ∧
      V4.ports r1 0 (V4.display b [s0, s1, s2, s3]) =
        V4._start ++ V4.shiftOut 0x40 8 ++ V4.waitAck (r1 0) ++ V4._stop ++
        V4._start ++ V4.shiftOut 0xC0 8 ++ V4.waitAck (r1 1) ++
        V4.shiftOut s0 8 ++ V4.waitAck (r1 2) ++ V4.shiftOut s1 8 ++ V4.waitAck (r1 3) ++
        V4.shiftOut s2 8 ++ V4.waitAck (r1 4) ++ V4.shiftOut s3 8 ++ V4.waitAck (r1 5) ++
        V4._stop ++
        V4._start ++ V4.shiftOut (0x88 ||| b) 8 ++ V4.waitAck (r1 6) ++ V4._stop) :=
  ⟨⟨TM1637.clock_reads CLK_PIN DIO_PIN r1 r2 hpins _ 0,
    TM1637.sample_reads CLK_PIN DIO_PIN r1 r2 hpins _ 0 c d d (Or.inr rfl),
    TM1637.display_samples CLK_PIN DIO_PIN b s0 s1 s2 s3 r1 c d hpins,
    TM1637.display_pins CLK_PIN DIO_PIN b s0 s1 s2 s3 r1⟩,
   ⟨V4.port_lines_reads r1 r2 _ 0,
    V4.display_port_samples b s0 s1 s2 s3 r1 c d,
    V4.display_ports b s0 s1 s2 s3 r1⟩⟩

/-- C22 at a concrete input: the frame `3F 06 5B 4F` at brightness 4 on pins
3 and 4, with every byte acknowledged (the reads are 0) in one run and none in
the other. -/
theorem acknowledgment_never_surfaced_witness :
    Bus.sample 3 4 true true
        ((TM1637.pins 3 4 (fun _ => 0) 0 (TM1637.display 4 [0x3F, 0x06, 0x5B, 0x4F])).flatMap
          TM1637.lineWrites) =
      Bus.sample 3 4 true true
        ((TM1637.pins 3 4 (fun _ => 1) 0 (TM1637.display 4 [0x3F, 0x06, 0x5B, 0x4F])).flatMap
          TM1637.lineWrites) ∧
    (V4.ports (fun _ => 0) 0 (V4.display 4 [0x3F, 0x06, 0x5B, 0x4F])).flatMap V4.lineWrites =
      (V4.ports (fun _ => 0b10000) 0 (V4.display 4 [0x3F, 0x06, 0x5B, 0x4F])).flatMap
        V4.lineWrites :=
  ⟨(acknowledgment_never_surfaced 3 4 4 0x3F 0x06 0x5B 0x4F (fun _ => 0) (fun _ => 1) true true
      (by decide)).1.2.1,
   (acknowledgment_never_surfaced 3 4 4 0x3F 0x06 0x5B 0x4F (fun _ => 0) (fun _ => 0b10000)
      true true (by decide)).2.1⟩

/-! ## Array accesses stay in bounds -/

namespace V4

theorem coherent_runstate (s : State) (h : coherent s) :
    s.runstate = 0 ∨ s.runstate = 1 ∨ s.runstate = 2 := by
  unfold coherent RUN_IDLE RUN_LEFT RUN_RIGHT at h
  omega

theorem countPress_coherent (i : Nat) (s : State) (h : coherent s) :
    coherent (countPress i s) := by
  unfold countPress setPressed
  split_ifs <;> exact h

theorem scoreIndex_of_active (s : State) (h : coherent s) (hr : s.runstate ≠ RUN_IDLE) :
    scoreIndex s = ((s.runstate - RUN_LEFT : Nat) : Int) ∧ s.runstate - RUN_LEFT < 2 := by
  have hc := coherent_runstate s h
  unfold RUN_IDLE at hr
  unfold scoreIndex RUN_LEFT
  omega

theorem scoreAt_eq (s : State) (k : Nat) (hk : k < 2) :
    scoreAt s (k : Int) = some (getScore s k) := by
  have hk' : k = 0 ∨ k = 1 := by omega
  rcases hk' with h | h <;> subst h <;> rfl

theorem scorePut_eq (s : State) (k v : Nat) (hk : k < 2) :
    scorePut s (k : Int) v = some (setScore s k v) := by
  have hk' : k = 0 ∨ k = 1 := by omega
  rcases hk' with h | h <;> subst h <;> rfl

theorem pressedAt_eq (s : State) (i : Nat) (hi : i < 2) :
    pressedAt s i = some (getPressed s i) := by
  have hi' : i = 0 ∨ i = 1 := by omega
  rcases hi' with h | h <;> subst h <;> rfl

theorem pressedPut_eq (s : State) (i v : Nat) (hi : i < 2) :
    pressedPut s i v = some (setPressed s i v) := by
  have hi' : i = 0 ∨ i = 1 := by omega
  rcases hi' with h | h <;> subst h <;> rfl

theorem btnPinAt_eq (i : Nat) (hi : i < 2) : btnPinAt i = some (BTN_PINS i) := by
  have hi' : i = 0 ∨ i = 1 := by omega
  rcases hi' with h | h <;> subst h <;> rfl

theorem clickChecked_eq (s : State) (i : Nat) (h : coherent s) :
    clickChecked s i = some (click s i) := by
  unfold clickChecked click
  by_cases hr : s.runstate = RUN_IDLE
  · simp only [if_pos hr, Option.map_some']
  · have hx := scoreIndex_of_active s h hr
    simp only [if_neg hr, hx.1, scoreAt_eq s _ hx.2, scorePut_eq s _ _ hx.2, Option.some_bind]
    by_cases hi : i = 0
    · simp only [hi, ne_eq, not_true_eq_false, if_false]
      split_ifs <;> rfl
    · simp only [ne_eq, hi, not_false_eq_true, if_true]
      split_ifs <;> rfl

theorem countPressChecked_eq (i : Nat) (s : State) (hi : i < 2) :
    countPressChecked i s = some (countPress i s) := by
  unfold countPressChecked countPress
  rw [pressedAt_eq s i hi, Option.some_bind]
  split_ifs
  · exact pressedPut_eq s i _ hi
  · rfl

theorem heldChecked_eq (i : Nat) (s : State) (hi : i < 2) (h : coherent s) :
    heldChecked i s = some (held i s) := by
  unfold heldChecked held
  rw [pressedAt_eq s i hi, Option.some_bind]
  split_ifs
  · rfl
  · exact clickChecked_eq s i h
  · rfl
  · rfl

theorem buttonChecked_eq (pinb i : Nat) (s : State) (hi : i < 2) (h : coherent s) :
    buttonChecked pinb i s = some (button pinb i s) := by
  unfold buttonChecked button pressed
  rw [btnPinAt_eq i hi, Option.some_bind]
  split_ifs
  · rw [countPressChecked_eq i s hi, Option.some_bind]
    exact heldChecked_eq i _ hi (countPress_coherent i s h)
  · exact pressedPut_eq s i 0 hi

theorem tickChecked_eq (s : State) (pinb : Nat) (h : coherent s) :
    tickChecked s pinb = some (TIM0_COMPA_vect s pinb) := by
  unfold tickChecked TIM0_COMPA_vect
  have h0 : coherent (countTick s) := h
  rw [buttonChecked_eq pinb 0 _ (by omega) h0, Option.some_bind]
  exact buttonChecked_eq pinb 1 _ (by omega) (button_coherent pinb 0 _ (by omega) h0)

theorem digits_lookup (k : Nat) (hk : k < 10) : DIGITS.get? k = some (DIGITS.getD k 0) := by
  interval_cases k <;> rfl

theorem segmentPut_eq (segments : List Nat) (idx v : Nat) (h : idx < segments.length) :
    segmentPut segments idx v = some (segments.set idx v) := by
  unfold segmentPut
  rw [if_pos h]

theorem getScore_le (s : State) (i : Nat) (h0 : s.score0 ≤ 99) (h1 : s.score1 ≤ 99) :
    getScore s i ≤ 99 := by
  unfold getScore
  split_ifs <;> omega

theorem renderSide_length (s : State) (uptime i : Nat) (segments : List Nat) :
    (renderSide s uptime i segments).length = segments.length := by
  unfold renderSide
  split_ifs <;> simp only [List.length_set]

theorem renderSideChecked_eq (s : State) (uptime i : Nat) (segments : List Nat) (hi : i < 2)
    (h0 : s.score0 ≤ 99) (h1 : s.score1 ≤ 99) (hl : segments.length = 4) :
    renderSideChecked s uptime i segments = some (renderSide s uptime i segments) := by
  have hv := getScore_le s i h0 h1
  have ha : i * 2 < segments.length := by omega
  have hb : ∀ v : Nat, i * 2 + 1 < (segments.set (i * 2) v).length := by
    intro v
    rw [List.length_set]
    omega
  unfold renderSideChecked renderSide
  rw [scoreAt_eq s i hi, Option.some_bind]
  split_ifs
  · rw [digits_lookup _ (by omega), Option.some_bind, segmentPut_eq _ _ _ ha, Option.some_bind,
      digits_lookup _ (by omega), Option.some_bind, segmentPut_eq _ _ _ (hb _)]
  · rw [segmentPut_eq _ _ _ ha, Option.some_bind, segmentPut_eq _ _ _ (hb _)]
  · rw [segmentPut_eq _ _ _ ha, Option.some_bind, segmentPut_eq _ _ _ (hb _)]

theorem renderChecked_eq (s : State) (uptime : Nat) (h0 : s.score0 ≤ 99) (h1 : s.score1 ≤ 99) :
    renderChecked s uptime = some (render s uptime) := by
  unfold renderChecked render
  rw [renderSideChecked_eq s uptime 0 [0, 0, 0, 0] (by omega) h0 h1 rfl, Option.some_bind]
  apply renderSideChecked_eq s uptime 1 _ (by omega) h0 h1
  rw [renderSide_length]
  rfl

theorem stepChecked_eq (s : State) (st : Step) (h : coherent s)
    (h0 : s.score0 ≤ 99) (h1 : s.score1 ≤ 99) : stepChecked s st = some (step s st) := by
  cases st with
  | tick pinb => exact tickChecked_eq s pinb h
  | loop =>
    have hm := mainLoop_scores s
    show (renderChecked (mainLoop s) (millis s)).map (fun _ => mainLoop s) = some (mainLoop s)
    rw [renderChecked_eq (mainLoop s) (millis s) (by omega) (by omega)]
    rfl

theorem runChecked_eq (steps : List Step) (s : State) (h : coherent s)
    (h0 : s.score0 ≤ 99) (h1 : s.score1 ≤ 99) : runChecked s steps = some (run s steps) := by
  induction steps generalizing s with
  | nil => rfl
  | cons st rest ih =>
    have hs := step_score_le s st h0 h1
    show (stepChecked s st).bind (fun s1 => runChecked s1 rest) = some (run (step s st) rest)
    rw [stepChecked_eq s st h h0 h1, Option.some_bind]
    exact ih (step s st) (step_coherent s st h) hs.1 hs.2

end V4

/-- C23: array accesses are always in bounds in `src/4`. For every sequence
of tick-handler runs and main-loop iterations from the initial state, the
program with every access to `score`, `pressedTime`, `BTN_PINS`, `DIGITS` and
`segments` checked never takes an out-of-range branch and reaches the same
state as the unchecked program; in the state reached, a further run of the
handler on any port value and a render for any `uptime` stay in bounds too.
In that state the index `runstate - RUN_LEFT`, which the handler evaluates in
the branch for `runstate != RUN_IDLE` only, is 0 or 1 unless the run state is
Idle, and both scores are at most 99, so `score[i] / 10` and `score[i] % 10`
are at most 9. -/
theorem array_accesses_in_bounds (steps : List V4.Step) (pinb uptime : Nat) :
    V4.runChecked V4.init steps = some (V4.run V4.init steps) ∧
    V4.tickChecked (V4.run V4.init steps) pinb =
      some (V4.TIM0_COMPA_vect (V4.run V4.init steps) pinb) ∧
    V4.renderChecked (V4.run V4.init steps) uptime =
      some (V4.render (V4.run V4.init steps) uptime) ∧
    V4.stepChecked (V4.run V4.init steps) V4.Step.loop =
      some (V4.mainLoop (V4.run V4.init steps)) ∧
    ((V4.run V4.init steps).runstate = V4.RUN_IDLE ∨
      V4.scoreIndex (V4.run V4.init steps) = 0 ∨ V4.scoreIndex (V4.run V4.init steps) = 1) ∧
    (V4.scoreAt (V4.run V4.init steps) (V4.scoreIndex (V4.run V4.init steps)) = none ↔
      (V4.run V4.init steps).runstate = V4.RUN_IDLE) ∧
    (V4.run V4.init steps).score0 / 10 ≤ 9 ∧ (V4.run V4.init steps).score0 % 10 ≤ 9 ∧
    (V4.run V4.init steps).score1 / 10 ≤ 9 ∧ (V4.run V4.init steps).score1 % 10 ≤ 9 := by
  have hc : V4.coherent (V4.run V4.init steps) := V4.run_coherent steps V4.init (Or.inl ⟨rfl, rfl⟩)
  have hs := V4.run_score_le steps V4.init (by decide) (by decide)
  have hr := V4.coherent_runstate _ hc
  refine ⟨V4.runChecked_eq steps V4.init (Or.inl ⟨rfl, rfl⟩) (by decide) (by decide),
    V4.tickChecked_eq _ pinb hc, V4.renderChecked_eq _ uptime hs.1 hs.2,
    V4.stepChecked_eq _ V4.Step.loop hc hs.1 hs.2, ?_, ?_, ?_, ?_, ?_, ?_⟩
  · unfold V4.scoreIndex V4.RUN_IDLE V4.RUN_LEFT
    omega
  · unfold V4.scoreAt V4.scoreIndex V4.RUN_IDLE V4.RUN_LEFT
    rcases hr with h | h | h <;> simp [h]
  · omega
  · omega
  · omega
  · omega
